import Mathlib

/-!
# Manifest-play engine (`pkg/domain/infra/abi/play.go`)

A shallow embedding of `PlayKube`, `playKubeDeployment`, `playKubePod`, `playKubePVC`,
`sortKubeKinds`, `imageNamePrefix`, `getBuildFile` and `PlayKubeDown`, followed by theorems
about them.

Conventions of the embedding.

* Go `string` is `String`; a Go slice is a `List`; a Go `map[string]T` that the code ranges
  over is a `List (String × T)` listed in the order in which the range visits it, so a
  statement quantified over all such lists covers every iteration order.
* A function returning `(T, error)` becomes a computation in `Play σ`, which threads the
  state of the container backend (`σ`), the shared static-address index and the record of
  the calls issued so far, and yields `Except Err T`.
* Libraries outside the file (YAML decoding, libpod, libimage, specgen, the file system) are
  collaborators: fields of `Codec` (pure decoders) and `Backend σ` (state-dependent calls and
  pure converters).
-/

namespace Podman

/-! ## Errors -/

/-- Go `error` values as this file builds and inspects them. -/
inductive Err where
  /-- The sentinel `define.ErrPodPartialFail`. -/
  | podPartialFail
  /-- An error made by `errors.Errorf`, `fmt.Errorf`, or returned by a collaborator. -/
  | msg (text : String)
  /-- The result of `errors.Wrapf(inner, text)`. -/
  | wrap (text : String) (inner : Err)
  /-- A run-time panic (index out of range). -/
  | crash (text : String)
deriving DecidableEq, Repr

/-- Root cause, `errors.Cause`. -/
def Err.cause : Err → Err
  | .wrap _ inner => inner.cause
  | e => e

/-- Message, `err.Error()`. The text of the sentinel is the one libpod declares; nothing
below depends on it. -/
def Err.text : Err → String
  | .podPartialFail => "some containers failed"
  | .msg t => t
  | .wrap t inner => t ++ ": " ++ inner.text
  | .crash t => "panic: " ++ t

instance instDecidableEqExcept {ε α : Type} [DecidableEq ε] [DecidableEq α] :
    DecidableEq (Except ε α)
  | .ok a, .ok b => if h : a = b then isTrue (by rw [h]) else isFalse (by simp [h])
  | .error a, .error b => if h : a = b then isTrue (by rw [h]) else isFalse (by simp [h])
  | .ok _, .error _ => isFalse (by simp)
  | .error _, .ok _ => isFalse (by simp)

/-- Rendering of `%q` for a string argument (escapes inside the quotes are not modelled). -/
def quoted (s : String) : String := "\"" ++ s ++ "\""

/-! ## Manifest documents and their decoders -/

/-- One YAML document of the manifest, as re-serialised bytes. -/
abbrev Document := String

/-- The envelope `v1.ObjectReference` that kind extraction decodes. -/
structure ObjectReference where
  kind : String
deriving DecidableEq, Repr

/-- One container of a pod template (`v1.Container`), the fields this file reads. -/
structure Container where
  name : String
  image : String
  imagePullPolicy : String
deriving DecidableEq, Repr

/-- A pod template (`v1.PodTemplateSpec`): the fields this file reads, and `rest` standing
for everything that is only handed on to converters. -/
structure PodTemplateSpec where
  name : String
  annotations : List (String × String)
  containers : List Container
  restartPolicy : String
  rest : String
deriving DecidableEq, Repr

/-- A decoded `v1.Pod`. -/
structure Pod where
  name : String
  annotations : List (String × String)
  containers : List Container
  restartPolicy : String
  rest : String
deriving DecidableEq, Repr

/-- A decoded `v1apps.Deployment`; `replicas` is the `*int32` field. -/
structure Deployment where
  name : String
  annotations : List (String × String)
  replicas : Option Int
  template : PodTemplateSpec
deriving DecidableEq, Repr

/-- A decoded `v1.PersistentVolumeClaim`. -/
structure PersistentVolumeClaim where
  name : String
  labels : List (String × String)
  annotations : List (String × String)
deriving DecidableEq, Repr

/-- The YAML libraries (`gopkg.in/yaml.v3`, `ghodss/yaml`): pure decoders. -/
structure Codec where
  /-- The successive results of `Decoder.Decode` up to, not including, `io.EOF`:
  an error, a nil value (`none`) or a decoded value. -/
  decodeStream : String → List (Except Err (Option String))
  /-- Re-serialisation `yamlv3.Marshal` of a decoded value. -/
  marshal : String → Except Err Document
  unmarshalObjectReference : Document → Except Err ObjectReference
  unmarshalPod : Document → Except Err Pod
  unmarshalDeployment : Document → Except Err Deployment
  unmarshalPVC : Document → Except Err PersistentVolumeClaim

/-- `getKubeKind` unmarshals a kube YAML document and returns its kind (lines 546-555). -/
def getKubeKind (Y : Codec) (obj : Document) : Except Err String :=
  match Y.unmarshalObjectReference obj with
  | .error e => .error e
  | .ok kubeObject => .ok kubeObject.kind

/-- Loop of `splitMultiDocYAML` over the decoder's results (lines 521-541). -/
def splitLoop (Y : Codec) : List (Except Err (Option String)) → List Document →
    Except Err (List Document)
  | [], documentList => .ok documentList
  | .error e :: _, _ => .error (.wrap "multi doc yaml could not be split" e)
  | .ok none :: rest, documentList => splitLoop Y rest documentList
  | .ok (some o) :: rest, documentList =>
    match Y.marshal o with
    | .error e => .error (.wrap "individual doc yaml could not be marshalled" e)
    | .ok document => splitLoop Y rest (documentList ++ [document])

/-- `splitMultiDocYAML` reads multiple documents in a YAML file and returns them as a list
(lines 515-544). -/
def splitMultiDocYAML (Y : Codec) (yamlContent : String) : Except Err (List Document) :=
  splitLoop Y (Y.decodeStream yamlContent) []

/-- Loop of `sortKubeKinds` with its accumulator `sortedDocumentList` (lines 562-574). -/
def sortLoop (Y : Codec) : List Document → List Document → Except Err (List Document)
  | [], sortedDocumentList => .ok sortedDocumentList
  | document :: rest, sortedDocumentList =>
    match getKubeKind Y document with
    | .error e => .error e
    | .ok kind =>
      if kind = "Pod" ∨ kind = "Deployment" then
        sortLoop Y rest (sortedDocumentList ++ [document])
      else
        sortLoop Y rest (document :: sortedDocumentList)

/-- `sortKubeKinds` adds the creation order for the kube kinds (lines 557-577). -/
def sortKubeKinds (Y : Codec) (documentList : List Document) : Except Err (List Document) :=
  sortLoop Y documentList []

/-- Whether kind extraction classifies the document as `Pod` or `Deployment`. -/
def isPodOrDeployment (Y : Codec) (d : Document) : Bool :=
  match getKubeKind Y d with
  | .ok kind => decide (kind = "Pod" ∨ kind = "Deployment")
  | .error _ => false

/-! ## Strings -/

/-- `strings.Contains(s, substr)`: `substr` occurs in `s`. -/
def stringsContains (s substr : String) : Bool :=
  s.toList.tails.any (fun t => substr.toList.isPrefixOf t)

/-- Pieces of a character list between occurrences of `sep`; never empty. -/
def splitChars (sep : Char) : List Char → List (List Char)
  | [] => [[]]
  | c :: cs =>
    if c = sep then [] :: splitChars sep cs
    else
      match splitChars sep cs with
      | [] => [[c]]
      | seg :: segs => (c :: seg) :: segs

/-- `strings.Split(s, sep)` for a one-character separator. -/
def stringsSplit (s : String) (sep : Char) : List String :=
  (splitChars sep s.toList).map String.mk

/-- `unicode.IsSpace`, the white space `strings.TrimSpace` removes. -/
def isSpace (c : Char) : Bool :=
  let n := c.toNat
  (9 ≤ n ∧ n ≤ 13) ∨ n = 32 ∨ n = 133 ∨ n = 160 ∨ n = 5760 ∨ (8192 ≤ n ∧ n ≤ 8202) ∨
    n = 8232 ∨ n = 8233 ∨ n = 8239 ∨ n = 8287 ∨ n = 12288

/-- `strings.TrimSpace`. -/
def trimSpace (s : String) : String :=
  String.mk ((s.toList.dropWhile isSpace).reverse.dropWhile isSpace).reverse

/-- `strings.ToLower` (on ASCII letters; other characters are left as they are). -/
def toLower (s : String) : String := String.mk (s.toList.map Char.toLower)

/-- `strconv.Atoi`: an optional sign, then one or more decimal digits, within 64 bits. -/
def atoi (s : String) : Except Err Int :=
  let signed : Bool × List Char :=
    match s.toList with
    | '-' :: r => (true, r)
    | '+' :: r => (false, r)
    | r => (false, r)
  if signed.2 = [] ∨ !signed.2.all Char.isDigit then
    .error (.msg ("strconv.Atoi: parsing " ++ quoted s ++ ": invalid syntax"))
  else
    let n : Int := (signed.2.foldl (fun a c => 10 * a + (c.toNat - 48)) 0 : Nat)
    let v : Int := if signed.1 then -n else n
    if v < -(2 : Int) ^ 63 ∨ (2 : Int) ^ 63 ≤ v then
      .error (.msg ("strconv.Atoi: parsing " ++ quoted s ++ ": value out of range"))
    else .ok v

/-- Assignment `m[k] = v` on a Go map kept as a list with one entry per key. -/
def mapSet (m : List (String × String)) (k v : String) : List (String × String) :=
  m.filter (fun e => e.1 != k) ++ [(k, v)]

/-- `imageNamePrefix` (lines 578-593): the text before the first `:`, of that the text after
the last `/`, of that the text before the first `@`. -/
def imageNamePrefix (imageName : String) : String :=
  let p0 := imageName
  let s1 := stringsSplit p0 ':'
  let p1 := match s1 with
    | x :: _ => x
    | [] => p0
  let s2 := stringsSplit p1 '/'
  let p2 := match s2.getLast? with
    | some x => x
    | none => p1
  let s3 := stringsSplit p2 '@'
  match s3 with
  | x :: _ => x
  | [] => p2

/-! ## Options, requests and handles -/

/-- A `net.IP`, as bytes. -/
abbrev IP := List Nat

/-- A `net.HardwareAddr`, as bytes. -/
abbrev HardwareAddr := List Nat

/-- The three values of `types.OptionalBool`. -/
inductive OptionalBool where
  | optionalBoolUndefined
  | optionalBoolTrue
  | optionalBoolFalse
deriving DecidableEq, Repr

/-- The caller's `entities.PlayKubeOptions`. -/
structure PlayKubeOptions where
  authfile : String
  certDir : String
  username : String
  password : String
  network : String
  quiet : Bool
  seccompProfileRoot : String
  signaturePolicy : String
  skipTLSVerify : OptionalBool
  staticIPs : List IP
  staticMACs : List HardwareAddr
  configMaps : List String
  logDriver : String
  start : OptionalBool
  build : Bool
deriving DecidableEq, Repr

/-- The values of `config.PullPolicy`. -/
inductive PullPolicy where
  | always
  | missing
  | newer
  | never
  | unsupported
deriving DecidableEq, Repr

/-- The destination `io.Writer` of pull progress: nil, or `os.Stderr`. -/
inductive Writer where
  | nil
  | stderr
deriving DecidableEq, Repr

/-- The `libimage.PullOptions` that `pullImage` fills in. -/
structure PullOptions where
  authFilePath : String
  certDirPath : String
  signaturePolicyPath : String
  writer : Writer
  username : String
  password : String
  insecureSkipTLSVerify : OptionalBool
deriving DecidableEq, Repr

/-- A `*libimage.Image`, by its names. -/
structure Image where
  names : List String
deriving DecidableEq, Repr

/-- The `specgen.NamespaceMode` values the code distinguishes. -/
inductive NamespaceMode where
  | bridge
  | host
  | other (mode : String)
deriving DecidableEq, Repr

/-- The `entities.NetOptions` of a pod, the fields this file touches. -/
structure NetOptions where
  staticIP : Option IP
  staticMAC : Option HardwareAddr
  nsMode : NamespaceMode
  cniNetworks : List String
  networkOptions : List (String × List String)
deriving DecidableEq, Repr

/-- The `entities.PodCreateOptions`, the fields this file touches and `rest` for the others. -/
structure PodCreateOptions where
  name : String
  infra : Bool
  infraImage : String
  net : NetOptions
  rest : String
deriving DecidableEq, Repr

/-- A container `specgen.SpecGenerator`. -/
structure SpecGenerator where
  image : String
  rootfs : Bool
  networkOptions : List (String × List String)
  rest : String
deriving DecidableEq, Repr

/-- A `specgen.PodSpecGenerator`, the fields this file touches and `rest` for the others. -/
structure PodSpecGenerator where
  staticIP : Option IP
  staticMAC : Option HardwareAddr
  netNS : NamespaceMode
  networkOptions : List (String × List String)
  infraImage : String
  noInfra : Bool
  infraContainerSpec : Option SpecGenerator
  rest : String
deriving DecidableEq, Repr

/-- A created pod, `*libpod.Pod`, by its id. -/
structure LibpodPod where
  id : String
deriving DecidableEq, Repr

/-- A created container, `*libpod.Container`, by its id. -/
structure LibpodContainer where
  id : String
deriving DecidableEq, Repr

/-- A decoded `v1.ConfigMap`. -/
structure ConfigMap where
  kind : String
  rest : String
deriving DecidableEq, Repr

/-- The `kube.CtrSpecGenOptions` handed to `kube.ToSpecGen` for one container. -/
structure CtrSpecGenOptions where
  container : Container
  image : Image
  volumes : String
  podID : String
  podName : String
  podInfraID : String
  configMaps : List ConfigMap
  seccompPaths : String
  restartPolicy : String
  netNSIsHost : Bool
  logDriver : String
  labels : List (String × String)
deriving DecidableEq, Repr

/-- The options `libpod.WithVolume...` that `playKubePVC` collects. -/
inductive VolumeCreateOption where
  | withVolumeName (name : String)
  | withVolumeLabels (labels : List (String × String))
  | withVolumeDriver (driver : String)
  | withVolumeUID (uid : Int)
  | withVolumeGID (gid : Int)
  | withVolumeOptions (options : List (String × String))
deriving DecidableEq, Repr

/-- One entry of `PlayKubeReport.Pods`. -/
structure PlayKubePod where
  id : String
  containers : List String
  containerErrors : List String
  logs : List String
deriving DecidableEq, Repr

/-- One entry of `PlayKubeReport.Volumes`. -/
structure PlayKubeVolume where
  name : String
deriving DecidableEq, Repr

/-- The report `entities.PlayKubeReport`; the stop and remove sub-reports are kept as the
values the backend returned. -/
structure PlayKubeReport where
  pods : List PlayKubePod
  volumes : List PlayKubeVolume
  stopReport : List String
  rmReport : List String
deriving DecidableEq, Repr

/-- The zero value of the report. -/
def PlayKubeReport.empty : PlayKubeReport := ⟨[], [], [], []⟩

/-- Outcome of `os.Stat` as `getBuildFile` reads it. -/
inductive StatResult where
  | found
  | notExist (e : Err)
  | failed (e : Err)
deriving DecidableEq, Repr

/-! ## The record of calls -/

/-- What one run issues to its surroundings, in order: the calls to the backend that pull,
build, create, start, stop or remove something, each with its arguments and outcome, the log
lines at warning, info and error level, and the line printed on standard output. -/
inductive Event where
  | warn (text : String)
  | info (text : String)
  | logError (text : String)
  | println (lines : List String)
  /-- Not a call: marks the read of `*ipIndex` for the pod named `podName` (lines 207-218). -/
  | staticIndex (podName : String) (index : Nat)
  | pull (image : String) (policy : PullPolicy) (options : PullOptions)
      (result : Except Err (List Image))
  | build (output : String) (buildFile : String) (result : Except Err Unit)
  /-- `generate.MakePod`; `podName` is the name that was handed to `kube.ToPodOpt`. -/
  | makePod (podName : String) (spec : PodSpecGenerator) (result : Except Err LibpodPod)
  | toSpecGen (options : CtrSpecGenOptions) (result : Except Err SpecGenerator)
  /-- `generate.ExecuteCreate` for the container named `container`. -/
  | executeCreate (container : String) (result : Except Err LibpodContainer)
  | podStart (pod : LibpodPod) (errors : List (String × Err)) (err : Option Err)
  | newVolume (options : List VolumeCreateOption) (result : Except Err String)
  | podStop (names : List String) (result : Except Err (List String))
  | podRm (names : List String) (result : Except Err (List String))
deriving DecidableEq, Repr

/-! ## The backend -/

/-- The collaborators of `ContainerEngine`: libpod, libimage, specgen, the converters of
`pkg/specgen/generate/kube`, and the file system. Each call reads and may change the backend
state `σ`. -/
structure Backend (σ : Type) where
  /-- `config.DefaultInfraImage`. -/
  defaultInfraImage : String
  /-- `autoupdate.Label`. -/
  autoupdateLabel : String
  /-- `autoupdate.AuthfileLabel`. -/
  autoupdateAuthfileLabel : String
  volumeDriverAnnotation : String
  volumeDeviceAnnotation : String
  volumeTypeAnnotation : String
  volumeUIDAnnotation : String
  volumeGIDAnnotation : String
  volumeMountOptsAnnotation : String
  /-- `filepath.Join`. -/
  pathJoin : List String → String
  /-- `specgen.ParseNetworkString`. -/
  parseNetworkString : String →
    Except Err (NamespaceMode × List String × List (String × List String))
  /-- `config.ParsePullPolicy`. -/
  parsePullPolicy : String → Except Err PullPolicy
  /-- `specgen.NewSpecGenerator`. -/
  newSpecGenerator : String → Bool → SpecGenerator
  /-- `yaml.Unmarshal` into a `v1.ConfigMap`. -/
  unmarshalConfigMap : String → Except Err ConfigMap
  secretsManager : σ → Except Err Unit × σ
  toPodOpt : σ → String → PodCreateOptions → PodTemplateSpec → Except Err PodCreateOptions × σ
  toPodSpecGen : σ → PodCreateOptions → Except Err PodSpecGenerator × σ
  initializeVolumes : σ → PodTemplateSpec → Except Err String × σ
  initializeSeccompPaths : σ → List (String × String) → String → Except Err String × σ
  osOpen : σ → String → Except Err String × σ
  readAll : σ → String → Except Err String × σ
  pull : σ → String → PullPolicy → PullOptions → Except Err (List Image) × σ
  fillOutSpecGen : σ → SpecGenerator → Except Err SpecGenerator × σ
  makePod : σ → PodSpecGenerator → Except Err LibpodPod × σ
  infraContainerID : σ → LibpodPod → Except Err String × σ
  getwd : σ → Except Err String × σ
  stat : σ → String → StatResult × σ
  imageExists : σ → String → Except Err Bool × σ
  build : σ → String → String → Except Err Unit × σ
  lookupImage : σ → String → Except Err Image × σ
  toSpecGen : σ → CtrSpecGenOptions → Except Err SpecGenerator × σ
  makeContainer : σ → SpecGenerator → Except Err SpecGenerator × σ
  executeCreate : σ → SpecGenerator → Except Err LibpodContainer × σ
  podStart : σ → LibpodPod → (List (String × Err) × Option Err) × σ
  readFile : σ → String → Except Err String × σ
  newVolume : σ → List VolumeCreateOption → Except Err String × σ
  podStop : σ → List String → Except Err (List String) × σ
  podRm : σ → List String → Except Err (List String) × σ

/-! ## Computations -/

/-- State of one run: the backend, the shared static-address index `ipIndex`, and the
record of what has been issued so far. The index is a Go `int`; it grows by one per pod
assembled and is kept as a natural number. -/
structure World (σ : Type) where
  backend : σ
  ipIndex : Nat
  trace : List Event
deriving DecidableEq, Repr

/-- A Go function returning `(T, error)` that may call the backend. -/
def Play (σ α : Type) : Type := World σ → Except Err α × World σ

namespace Play

/-- Return a value. -/
def ret {σ α : Type} (a : α) : Play σ α := fun w => (.ok a, w)

/-- Sequencing: stop at the first error. -/
def andThen {σ α β : Type} (m : Play σ α) (f : α → Play σ β) : Play σ β := fun w =>
  match m w with
  | (.ok a, w1) => f a w1
  | (.error e, w1) => (.error e, w1)

instance instMonadPlay {σ : Type} : Monad (Play σ) where
  pure := ret
  bind := andThen

/-- Return an error, `return nil, err`. -/
def fail {σ α : Type} (e : Err) : Play σ α := fun w => (.error e, w)

/-- Use the result of a pure function returning `(T, error)`. -/
def lift {σ α : Type} (r : Except Err α) : Play σ α := fun w => (r, w)

/-- Add entries to the record. -/
def emit {σ : Type} (evs : List Event) : Play σ Unit := fun w =>
  (.ok (), ⟨w.backend, w.ipIndex, w.trace ++ evs⟩)

/-- Call the backend; `ev` gives the entries the call leaves in the record. -/
def invoke {σ α : Type} (op : σ → Except Err α × σ) (ev : Except Err α → List Event) :
    Play σ α := fun w =>
  match op w.backend with
  | (r, s) => (r, ⟨s, w.ipIndex, w.trace ++ ev r⟩)

/-- Call the backend without leaving an entry in the record. -/
def quiet {σ α : Type} (op : σ → Except Err α × σ) : Play σ α := invoke op (fun _ => [])

/-- Call a backend operation that returns no Go `error` of its own. -/
def invokeTotal {σ α : Type} (op : σ → α × σ) (ev : α → List Event) : Play σ α := fun w =>
  match op w.backend with
  | (r, s) => (.ok r, ⟨s, w.ipIndex, w.trace ++ ev r⟩)

/-- Read `*ipIndex`. -/
def readIndex {σ : Type} : Play σ Nat := fun w => (.ok w.ipIndex, w)

/-- The statement `*ipIndex++`. -/
def bumpIndex {σ : Type} : Play σ Unit := fun w =>
  (.ok (), ⟨w.backend, w.ipIndex + 1, w.trace⟩)

/-- The statement `ipIndex := 0`. -/
def resetIndex {σ : Type} : Play σ Unit := fun w => (.ok (), ⟨w.backend, 0, w.trace⟩)

/-- Replace the error of a failing computation, as `errors.Wrapf` at a `return`. -/
def mapErr {σ α : Type} (m : Play σ α) (f : Err → Err) : Play σ α := fun w =>
  match m w with
  | (.ok a, w1) => (.ok a, w1)
  | (.error e, w1) => (.error (f e), w1)

end Play

/-! ## Reading the record -/

/-- The indices read by the static-address step, in order. -/
def indexReads (evs : List Event) : List Nat :=
  evs.filterMap (fun e => match e with
    | .staticIndex _ k => some k
    | _ => none)

/-- The names under which pods were created: the successful `MakePod` calls, in order. -/
def podsCreated (evs : List Event) : List String :=
  evs.filterMap (fun e => match e with
    | .makePod podName _ (.ok _) => some podName
    | _ => none)

/-- The containers created: name in the template and id, for each successful
`ExecuteCreate` call, in order. -/
def containersCreated (evs : List Event) : List (String × String) :=
  evs.filterMap (fun e => match e with
    | .executeCreate name (.ok ctr) => some (name, ctr.id)
    | _ => none)

/-- The name lists handed to `PodStop`, in order. -/
def podsStopped (evs : List Event) : List (List String) :=
  evs.filterMap (fun e => match e with
    | .podStop names _ => some names
    | _ => none)

/-- The name lists handed to `PodRm`, in order. -/
def podsRemoved (evs : List Event) : List (List String) :=
  evs.filterMap (fun e => match e with
    | .podRm names _ => some names
    | _ => none)

/-- A call that creates a pod, a container or a volume, whatever its outcome. -/
def Event.isCreation : Event → Bool
  | .makePod _ _ _ => true
  | .executeCreate _ _ => true
  | .newVolume _ _ => true
  | _ => false

/-- A call that starts a pod. -/
def Event.isPodStart : Event → Bool
  | .podStart _ _ _ => true
  | _ => false

/-- What the static-address step may leave in the record for the pod `podName`. -/
def Event.isStaticOf (podName : String) : Event → Prop
  | .staticIndex n _ => n = podName
  | .warn _ => True
  | _ => False

/-- What `podSetup` may leave in the record for the pod created under `podName`, the
static-address step apart. -/
def Event.isSetupOf (podName : String) : Event → Prop
  | .pull _ _ _ _ => True
  | .makePod n _ _ => n = podName
  | _ => False

/-- What resolving the image of a container may leave in the record. -/
def Event.isImageStep : Event → Prop
  | .logError _ => True
  | .pull _ _ _ _ => True
  | .build _ _ _ => True
  | _ => False

/-- What the loop over the containers may leave in the record. -/
def Event.isContainerStep : Event → Prop
  | .logError _ => True
  | .pull _ _ _ _ => True
  | .build _ _ _ => True
  | .toSpecGen _ _ => True
  | .executeCreate _ _ => True
  | _ => False

/-- What starting the pod `pod` may leave in the record. -/
def Event.isStartOf (pod : LibpodPod) : Event → Prop
  | .podStart p _ _ => p = pod
  | .println _ => True
  | _ => False

namespace Play

/-- Every run of `m` relates the state before to the state after by `R`. -/
def Rel {σ α : Type} (R : World σ → World σ → Prop) (m : Play σ α) : Prop :=
  ∀ w, R w (m w).2

/-- The relation `R` is kept by sequencing, and by any backend call that leaves only
entries satisfying `ok` in the record. -/
structure Frame {σ : Type} (R : World σ → World σ → Prop) (ok : Event → Prop) : Prop where
  trans : ∀ a b c, R a b → R b c → R a c
  step : ∀ (w : World σ) (s : σ) (evs : List Event), (∀ e ∈ evs, ok e) →
    R w ⟨s, w.ipIndex, w.trace ++ evs⟩

/-- The record grows by entries that satisfy `p`. -/
def Appends {σ : Type} (p : Event → Prop) (w w1 : World σ) : Prop :=
  ∃ evs, w1.trace = w.trace ++ evs ∧ ∀ e ∈ evs, p e

/-- A run of `m` only appends to the record, and what it appends satisfies `p`. -/
def Emits {σ α : Type} (p : Event → Prop) (m : Play σ α) : Prop := Rel (Appends p) m

/-- The record grows by entries whose index reads are the successive values of the index,
from its value before to its value after. -/
def Counts {σ : Type} (w w1 : World σ) : Prop :=
  ∃ evs, w1.trace = w.trace ++ evs ∧ w.ipIndex ≤ w1.ipIndex ∧
    indexReads evs = List.range' w.ipIndex (w1.ipIndex - w.ipIndex)

/-- The index is unchanged and the record grows by entries that are no index reads. -/
def Same {σ : Type} (w w1 : World σ) : Prop :=
  w1.ipIndex = w.ipIndex ∧ ∃ evs, w1.trace = w.trace ++ evs ∧ indexReads evs = []

/-- The index has advanced by one and the record has grown by exactly one index read, of
the value the index had before. -/
def Stepped {σ : Type} (w w1 : World σ) : Prop :=
  w1.ipIndex = w.ipIndex + 1 ∧ ∃ evs, w1.trace = w.trace ++ evs ∧ indexReads evs = [w.ipIndex]

/-- Every run of `m` either fails before the index is read, leaving it unchanged, or
reads the index exactly once and advances it by one; a run that succeeds does the latter. -/
def ReadsOnce {σ α : Type} (m : Play σ α) : Prop :=
  ∀ w, (∃ e, (m w).1 = .error e ∧ Same w (m w).2) ∨ Stepped w (m w).2

end Play

/-! ## The engine -/

section Engine

variable {σ : Type} (B : Backend σ)

/-- The helper `pullImage` (lines 694-710): set up the pull options and pull. -/
def pullImage (writer : Writer) (imagePull : String) (options : PlayKubeOptions)
    (pullPolicy : PullPolicy) : Play σ (List Image) :=
  let pullOptions : PullOptions := {
    authFilePath := options.authfile
    certDirPath := options.certDir
    signaturePolicyPath := options.signaturePolicy
    writer := writer
    username := options.username
    password := options.password
    insecureSkipTLSVerify := options.skipTLSVerify }
  Play.invoke (fun s => B.pull s imagePull pullPolicy pullOptions)
    (fun r => [Event.pull imagePull pullPolicy pullOptions r])

/-- `readConfigMapFromFile` returns a kubernetes configMap obtained from the `--configmap`
flag (lines 495-513). -/
def readConfigMapFromFile (r : String) : Play σ ConfigMap := do
  let content ← (Play.quiet (fun s => B.readAll s r)).mapErr
    (Err.wrap "unable to read ConfigMap YAML content")
  let cm ← (Play.lift (B.unmarshalConfigMap content)).mapErr
    (Err.wrap "unable to read YAML as Kube ConfigMap")
  if cm.kind ≠ "ConfigMap" then
    Play.fail (.msg ("invalid YAML kind: " ++ quoted cm.kind ++
      ". [ConfigMap] is the only supported by --configmap"))
  else
    pure cm

/-- `getBuildFile` (lines 595-622): the Containerfile, else the Dockerfile, of the build
directory named after the image; the empty string when neither exists. -/
def getBuildFile (imageName : String) (cwd : String) : Play σ String := do
  let buildDirName := imageNamePrefix imageName
  let containerfilePath := B.pathJoin [cwd, buildDirName, "Containerfile"]
  let dockerfilePath := B.pathJoin [cwd, buildDirName, "Dockerfile"]
  let first ← Play.invokeTotal (fun s => B.stat s (B.pathJoin [containerfilePath]))
    (fun r => match r with
      | .failed e => [Event.logError (e.text ++ ": unable to check for " ++ containerfilePath)]
      | _ => [])
  match first with
  | .found => pure containerfilePath
  | _ =>
    let second ← Play.invokeTotal (fun s => B.stat s (B.pathJoin [dockerfilePath]))
      (fun _ => [])
    match second with
    | .found => pure dockerfilePath
    | .notExist _ => pure ""
    | .failed e => Play.fail e

/-- The check for a name collision between pod and container (lines 176-182): the pod name
and the log lines after visiting the containers in order. -/
def checkNameCollision : List Container → String → List String → String × List String
  | [], podName, logs => (podName, logs)
  | n :: rest, podName, logs =>
    if n.name = podName then
      checkNameCollision rest (podName ++ "_pod")
        (logs ++ ["a container exists with the same name (" ++ quoted podName ++
          ") as the pod in your YAML file; changing pod name to " ++ podName ++ "_pod\n"])
    else
      checkNameCollision rest podName logs

/-- The `--network` override (lines 190-205). -/
def applyNetwork (options : PlayKubeOptions) (podOpt : PodCreateOptions) :
    Except Err PodCreateOptions :=
  if options.network ≠ "" then
    match B.parseNetworkString options.network with
    | .error e => .error e
    | .ok (ns, cniNets, netOpts) =>
      if (ns = .bridge ∧ cniNets.length = 0) ∨ ns = .host then
        .error (.msg
          "invalid value passed to --network: bridge or host networking must be configured in YAML")
      else
        .ok { podOpt with
          net := { podOpt.net with
            nsMode := .bridge
            cniNetworks := podOpt.net.cniNetworks ++ cniNets
            networkOptions :=
              if netOpts.length > 0 then netOpts else podOpt.net.networkOptions } }
  else
    .ok podOpt

/-- The static IP of the pod with index `ipIndex` (lines 207-208). -/
def bindStaticIP (options : PlayKubeOptions) (ipIndex : Nat) (podOpt : PodCreateOptions) :
    PodCreateOptions :=
  if options.staticIPs.length > ipIndex then
    { podOpt with net := { podOpt.net with staticIP := options.staticIPs[ipIndex]? } }
  else podOpt

/-- The static MAC of the pod with index `ipIndex` (lines 213-214). -/
def bindStaticMAC (options : PlayKubeOptions) (ipIndex : Nat) (podOpt : PodCreateOptions) :
    PodCreateOptions :=
  if options.staticMACs.length > ipIndex then
    { podOpt with net := { podOpt.net with staticMAC := options.staticMACs[ipIndex]? } }
  else podOpt

/-- The warnings of the static-address step (lines 209-212 and 215-218). -/
def staticWarnings (options : PlayKubeOptions) (ipIndex : Nat) : List Event :=
  (if options.staticIPs.length > ipIndex then []
    else if options.staticIPs.length > 0 then
      [Event.warn "No more static ips left using a random one"]
    else []) ++
  (if options.staticMACs.length > ipIndex then []
    else if options.staticIPs.length > 0 then
      [Event.warn "No more static macs left using a random one"]
    else [])

/-- Static address assignment (lines 207-219): bind the pool entries at `*ipIndex`, warn
about an exhausted pool, and advance the index. -/
def assignStatic (podName : String) (options : PlayKubeOptions) (podOpt : PodCreateOptions) :
    Play σ PodCreateOptions := do
  let ipIndex ← Play.readIndex
  Play.emit (Event.staticIndex podName ipIndex :: staticWarnings options ipIndex)
  Play.bumpIndex
  pure (bindStaticMAC options ipIndex (bindStaticIP options ipIndex podOpt))

/-- The restart policy of the containers (lines 241-251). Modelled from the spec: the
strings of the constants, which are declared outside these sources; the left sides are the
values of `v1.RestartPolicy...`, the right sides those of libpod's
`define.RestartPolicy...`. -/
def ctrRestartPolicy (restartPolicy : String) : String :=
  if restartPolicy = "Always" then "always"
  else if restartPolicy = "OnFailure" then "on-failure"
  else if restartPolicy = "Never" then "no"
  else "always"

/-- Reading the config maps named by the options (lines 253-267). -/
def readConfigMaps : List String → List ConfigMap → Play σ (List ConfigMap)
  | [], configMaps => pure configMaps
  | p :: rest, configMaps => do
    let f ← Play.quiet (fun s => B.osOpen s p)
    let cm ← (readConfigMapFromFile B f).mapErr (Err.wrap (quoted p))
    readConfigMaps rest (configMaps ++ [cm])

/-- First element of a slice, `xs[0]`, which panics on an empty slice. -/
def first {α : Type} (xs : List α) : Except Err α :=
  match xs with
  | x :: _ => .ok x
  | [] => .error (.crash "index out of range [0] with length 0")

/-- The infra container of the pod (lines 269-290). -/
def setupInfra (options : PlayKubeOptions) (podOpt : PodCreateOptions)
    (p : PodSpecGenerator) : Play σ PodSpecGenerator :=
  if podOpt.infra then do
    let imagePull :=
      if podOpt.infraImage ≠ B.defaultInfraImage ∧ podOpt.infraImage ≠ "" then
        podOpt.infraImage
      else B.defaultInfraImage
    let pulledImages ← pullImage B .nil imagePull options .newer
    let image ← Play.lift (first pulledImages)
    let name ← Play.lift (first image.names)
    let infraSpec := { B.newSpecGenerator name false with networkOptions := p.networkOptions }
    let filled ← Play.quiet (fun s => B.fillOutSpecGen s infraSpec)
    pure { p with infraImage := name, noInfra := false, infraContainerSpec := some filled }
  else
    pure p

/-- The labels of one container from the kube annotations (lines 363-377), visiting the
annotations in the given order. -/
def autoUpdateLabels (containerName : String) :
    List (String × String) → List (String × String) → List (String × String)
  | [], labels => labels
  | (k, v) :: rest, labels =>
    if k = B.autoupdateLabel ∨ k = B.autoupdateAuthfileLabel then
      autoUpdateLabels containerName rest (mapSet labels k v)
    else if k = B.autoupdateLabel ++ "/" ++ containerName ∨
        k = B.autoupdateAuthfileLabel ++ "/" ++ containerName then
      match stringsSplit k '/' with
      | prefixAndCtr0 :: _ => autoUpdateLabels containerName rest (mapSet labels prefixAndCtr0 v)
      | [] => autoUpdateLabels containerName rest labels
    else
      autoUpdateLabels containerName rest labels

/-- The image of one container (lines 317-361): built from the local build file, or
pulled. -/
def resolveImage (options : PlayKubeOptions) (writer : Writer) (cwd : String)
    (container : Container) : Play σ Image := do
  let buildFile ← getBuildFile B container.image cwd
  let existsLocally ← Play.quiet (fun s => B.imageExists s container.image)
  if (buildFile.length > 0 ∧ !existsLocally) ∨ (buildFile.length > 0 ∧ options.build) then do
    Play.invoke (fun s => B.build s container.image buildFile)
      (fun r => [Event.build container.image buildFile r])
    Play.quiet (fun s => B.lookupImage s container.image)
  else do
    let pullPolicy ←
      if container.imagePullPolicy.length > 0 then
        Play.lift (B.parsePullPolicy (toLower container.imagePullPolicy))
      else pure PullPolicy.newer
    let pulledImages ← pullImage B writer container.image options pullPolicy
    Play.lift (first pulledImages)

/-- The local variables of `playKubePod` that are read after the pod has been created. -/
structure PodContext where
  podName : String
  logs : List String
  pod : LibpodPod
  podInfraID : String
  volumes : String
  seccompPaths : String
  restartPolicy : String
  configMaps : List ConfigMap
  netNSIsHost : Bool
  writer : Writer
  cwd : String
deriving DecidableEq, Repr

/-- Creation of one container of the template (lines 314-407). -/
def createContainer (options : PlayKubeOptions) (annotations : List (String × String))
    (ctx : PodContext) (container : Container) : Play σ LibpodContainer := do
  let pulledImage ← resolveImage B options ctx.writer ctx.cwd container
  let labels := autoUpdateLabels B container.name annotations []
  let specgenOpts : CtrSpecGenOptions := {
    container := container
    image := pulledImage
    volumes := ctx.volumes
    podID := ctx.pod.id
    podName := ctx.podName
    podInfraID := ctx.podInfraID
    configMaps := ctx.configMaps
    seccompPaths := ctx.seccompPaths
    restartPolicy := ctx.restartPolicy
    netNSIsHost := ctx.netNSIsHost
    logDriver := options.logDriver
    labels := labels }
  let specGen ← Play.invoke (fun s => B.toSpecGen s specgenOpts)
    (fun r => [Event.toSpecGen specgenOpts r])
  let made ← Play.quiet (fun s => B.makeContainer s specGen)
  Play.invoke (fun s => B.executeCreate s made)
    (fun r => [Event.executeCreate container.name r])

/-- The loop over the containers of the template (lines 312-409). -/
def containerLoop (options : PlayKubeOptions) (annotations : List (String × String))
    (ctx : PodContext) : List Container → List LibpodContainer → Play σ (List LibpodContainer)
  | [], containers => pure containers
  | container :: rest, containers =>
    if !stringsContains "infra" container.name then do
      let ctr ← createContainer B options annotations ctx container
      containerLoop options annotations ctx rest (containers ++ [ctr])
    else
      containerLoop options annotations ctx rest containers

/-- The test of the error of `pod.Start` (lines 414-416): only a partial failure lets the
run go on. -/
def checkStartError : Option Err → Play σ Unit
  | some err => if err.cause ≠ .podPartialFail then Play.fail err else pure ()
  | none => pure ()

/-- Starting the pod (lines 411-421): the per-container start errors for the report, none
when the caller set `Start` to false. Each error appended is followed by a print of the
errors collected so far. -/
def startPod (options : PlayKubeOptions) (pod : LibpodPod) : Play σ (List String) :=
  if options.start ≠ .optionalBoolFalse then do
    let started ← Play.invokeTotal (fun s => B.podStart s pod)
      (fun r => [Event.podStart pod r.1 r.2])
    checkStartError started.2
    let containerErrors := started.1.map
      (fun e => (Err.wrap ("error starting container " ++ e.1) e.2).text)
    Play.emit ((List.range containerErrors.length).map
      (fun i => Event.println (containerErrors.take (i + 1))))
    pure containerErrors
  else pure []

/-- Starting the pod and filling in the report (lines 411-430). -/
def startAndReport (options : PlayKubeOptions) (pod : LibpodPod)
    (containers : List LibpodContainer) (logs : List String) : Play σ PlayKubeReport := do
  let containerErrors ← startPod B options pod
  let playKubePod : PlayKubePod := {
    id := pod.id
    containers := containers.map (fun ctr => ctr.id)
    containerErrors := containerErrors
    logs := logs }
  pure { PlayKubeReport.empty with pods := [playKubePod] }

/-- The part of `playKubePod` before the loop over the containers (lines 166-311): name
check, pod options, static addresses, pod spec, infra image and creation of the pod. The
test `if err != nil` of line 222 reads an `err` that is nil there and is left out. -/
def podSetup (podName : String) (podYAML : PodTemplateSpec) (options : PlayKubeOptions) :
    Play σ PodContext := do
  Play.quiet B.secretsManager
  if podName = "" then
    Play.fail (.msg "pod does not have a name")
  else do
    let named := checkNameCollision podYAML.containers podName []
    let podName := named.1
    let initial : PodCreateOptions := {
      name := ""
      infra := true
      infraImage := ""
      net := {
        staticIP := some []
        staticMAC := some []
        nsMode := .other ""
        cniNetworks := []
        networkOptions := [] }
      rest := "" }
    let podOpt ← Play.quiet (fun s => B.toPodOpt s podName initial podYAML)
    let podOpt ← Play.lift (applyNetwork B options podOpt)
    let podOpt ← assignStatic podName options podOpt
    let p ← Play.quiet (fun s => B.toPodSpecGen s podOpt)
    let volumes ← Play.quiet (fun s => B.initializeVolumes s podYAML)
    let seccompPaths ← Play.quiet
      (fun s => B.initializeSeccompPaths s podYAML.annotations options.seccompProfileRoot)
    let configMaps ← readConfigMaps B options.configMaps []
    let podSpec ← setupInfra B options podOpt p
    let pod ← Play.invoke (fun s => B.makePod s podSpec)
      (fun r => [Event.makePod podName podSpec r])
    let podInfraID ← Play.quiet (fun s => B.infraContainerID s pod)
    let writer := if !options.quiet then Writer.stderr else Writer.nil
    let cwd ← Play.quiet B.getwd
    pure {
      podName := podName
      logs := named.2
      pod := pod
      podInfraID := podInfraID
      volumes := volumes
      seccompPaths := seccompPaths
      restartPolicy := ctrRestartPolicy podYAML.restartPolicy
      configMaps := configMaps
      netNSIsHost := decide (p.netNS = .host)
      writer := writer
      cwd := cwd }

/-- `playKubePod` (lines 159-431): assemble, create and start one pod. -/
def playKubePod (podName : String) (podYAML : PodTemplateSpec) (options : PlayKubeOptions)
    (annotations : List (String × String)) : Play σ PlayKubeReport := do
  let ctx ← podSetup B podName podYAML options
  let containers ← containerLoop B options annotations ctx podYAML.containers []
  startAndReport B options ctx.pod containers ctx.logs

/-- The loop `for i = 0; i < numReplicas; i++` of `playKubeDeployment` (lines 148-155);
the first argument is the number of iterations left, `numReplicas - i`. -/
def replicaLoop (deploymentYAML : Deployment) (options : PlayKubeOptions)
    (numReplicas : Int) : Nat → Nat → PlayKubeReport → Play σ PlayKubeReport
  | 0, _, report => pure report
  | left + 1, i, report =>
    if (i : Int) < numReplicas then do
      let podName := deploymentYAML.name ++ "-pod-" ++ toString i
      let podReport ←
        (playKubePod B podName deploymentYAML.template options
          deploymentYAML.annotations).mapErr
          (Err.wrap ("error encountered while bringing up pod " ++ podName))
      replicaLoop deploymentYAML options numReplicas left (i + 1)
        { report with pods := report.pods ++ podReport.pods }
    else
      pure report

/-- `playKubeDeployment` (lines 128-157): one pod per replica. -/
def playKubeDeployment (deploymentYAML : Deployment) (options : PlayKubeOptions) :
    Play σ PlayKubeReport :=
  let deploymentName := deploymentYAML.name
  if deploymentName = "" then
    Play.fail (.msg "Deployment does not have a name")
  else
    let numReplicas : Int :=
      match deploymentYAML.replicas with
      | some r => r
      | none => 1
    replicaLoop B deploymentYAML options numReplicas numReplicas.toNat 0 PlayKubeReport.empty

/-- The volume options and the option map after visiting the claim's annotations in the
given order (lines 454-479). -/
def pvcAnnotations : List (String × String) → List VolumeCreateOption →
    List (String × String) → Except Err (List VolumeCreateOption × List (String × String))
  | [], volOptions, opts => .ok (volOptions, opts)
  | (k, v) :: rest, volOptions, opts =>
    if k = B.volumeDriverAnnotation then
      pvcAnnotations rest (volOptions ++ [.withVolumeDriver v]) opts
    else if k = B.volumeDeviceAnnotation then
      pvcAnnotations rest volOptions (mapSet opts "device" v)
    else if k = B.volumeTypeAnnotation then
      pvcAnnotations rest volOptions (mapSet opts "type" v)
    else if k = B.volumeUIDAnnotation then
      match atoi v with
      | .error e => .error (.wrap ("cannot convert uid " ++ v ++ " to integer") e)
      | .ok uid => pvcAnnotations rest (volOptions ++ [.withVolumeUID uid]) (mapSet opts "UID" v)
    else if k = B.volumeGIDAnnotation then
      match atoi v with
      | .error e => .error (.wrap ("cannot convert gid " ++ v ++ " to integer") e)
      | .ok gid => pvcAnnotations rest (volOptions ++ [.withVolumeGID gid]) (mapSet opts "GID" v)
    else if k = B.volumeMountOptsAnnotation then
      pvcAnnotations rest volOptions (mapSet opts "o" v)
    else
      pvcAnnotations rest volOptions opts

/-- `playKubePVC` creates a podman volume from a kube persistent volume claim
(lines 433-493). -/
def playKubePVC (pvcYAML : PersistentVolumeClaim) (_options : PlayKubeOptions) :
    Play σ PlayKubeReport :=
  let name := pvcYAML.name
  if trimSpace name = "" then
    Play.fail (.msg "persistent volume claim name can not be empty")
  else do
    let volOptions : List VolumeCreateOption :=
      [.withVolumeName name, .withVolumeLabels pvcYAML.labels]
    let collected ← Play.lift (pvcAnnotations B pvcYAML.annotations volOptions [])
    let volOptions := collected.1 ++ [.withVolumeOptions collected.2]
    let vol ← Play.invoke (fun s => B.newVolume s volOptions)
      (fun r => [Event.newVolume volOptions r])
    pure { PlayKubeReport.empty with volumes := [⟨vol⟩] }

/-- The spec's reading of a Deployment, for comparison with `playKubeDeployment`: for each
pod name of the list, in order, build one pod from the template with the deployment-level
annotations and collect its report; a failure ends the run with the error wrapped. -/
def assemblePods (podYAML : PodTemplateSpec) (options : PlayKubeOptions)
    (annotations : List (String × String)) :
    List String → PlayKubeReport → Play σ PlayKubeReport
  | [], report => pure report
  | podName :: rest, report => do
    let podReport ←
      (playKubePod B podName podYAML options annotations).mapErr
        (Err.wrap ("error encountered while bringing up pod " ++ podName))
    assemblePods podYAML options annotations rest
      { report with pods := report.pods ++ podReport.pods }

/-- The pod names `<name>-pod-0`, ..., `<name>-pod-<r-1>` of the spec, none when `r ≤ 0`. -/
def replicaNames (name : String) (r : Int) : List String :=
  (List.range r.toNat).map (fun i => name ++ "-pod-" ++ toString i)

variable (Y : Codec)

/-- The loop of `PlayKube` over the sorted documents (lines 62-119), with the report and
the count `validKinds`. -/
def documentLoop (path : String) (options : PlayKubeOptions) :
    List Document → PlayKubeReport → Nat → Play σ (PlayKubeReport × Nat)
  | [], report, validKinds => pure (report, validKinds)
  | document :: rest, report, validKinds => do
    let kind ← (Play.lift (getKubeKind Y document)).mapErr
      (Err.wrap ("unable to read " ++ quoted path ++ " as kube YAML"))
    if kind = "Pod" then do
      let podYAML ← (Play.lift (Y.unmarshalPod document)).mapErr
        (Err.wrap ("unable to read YAML " ++ quoted path ++ " as Kube Pod"))
      let podTemplateSpec : PodTemplateSpec := {
        name := podYAML.name
        annotations := podYAML.annotations
        containers := podYAML.containers
        restartPolicy := podYAML.restartPolicy
        rest := podYAML.rest }
      let r ← playKubePod B podTemplateSpec.name podTemplateSpec options podYAML.annotations
      documentLoop path options rest { report with pods := report.pods ++ r.pods }
        (validKinds + 1)
    else if kind = "Deployment" then do
      let deploymentYAML ← (Play.lift (Y.unmarshalDeployment document)).mapErr
        (Err.wrap ("unable to read YAML " ++ quoted path ++ " as Kube Deployment"))
      let r ← playKubeDeployment B deploymentYAML options
      documentLoop path options rest { report with pods := report.pods ++ r.pods }
        (validKinds + 1)
    else if kind = "PersistentVolumeClaim" then do
      let pvcYAML ← (Play.lift (Y.unmarshalPVC document)).mapErr
        (Err.wrap ("unable to read YAML " ++ quoted path ++ " as Kube PersistentVolumeClaim"))
      let r ← playKubePVC B pvcYAML options
      documentLoop path options rest { report with volumes := report.volumes ++ r.volumes }
        (validKinds + 1)
    else do
      Play.emit [Event.info ("kube kind " ++ kind ++ " not supported")]
      documentLoop path options rest report validKinds

/-- `PlayKube` (lines 36-126): read, split and sort the manifest, then play each
document. -/
def PlayKube (path : String) (options : PlayKubeOptions) : Play σ PlayKubeReport := do
  let content ← Play.quiet (fun s => B.readFile s path)
  let documentList ← Play.lift (splitMultiDocYAML Y content)
  let documentList ← (Play.lift (sortKubeKinds Y documentList)).mapErr
    (Err.wrap ("unable to sort kube kinds in " ++ quoted path))
  Play.resetIndex
  let played ← documentLoop B Y path options documentList PlayKubeReport.empty 0
  if played.2 = 0 then
    Play.fail (.msg "YAML document does not contain any supported kube kind")
  else
    pure played.1

/-- The loop `for i := 0; i < int(numReplicas); i++` of `PlayKubeDown` (lines 672-675);
the first argument is the number of iterations left. -/
def downReplicaNames (deploymentName : String) (numReplicas : Int) :
    Nat → Nat → List String → List String
  | 0, _, podNames => podNames
  | left + 1, i, podNames =>
    if (i : Int) < numReplicas then
      downReplicaNames deploymentName numReplicas left (i + 1)
        (podNames ++ [deploymentName ++ "-pod-" ++ toString i])
    else podNames

/-- The loop of `PlayKubeDown` over the sorted documents (lines 648-679). -/
def downNames (path : String) : List Document → List String → Except Err (List String)
  | [], podNames => .ok podNames
  | document :: rest, podNames =>
    match getKubeKind Y document with
    | .error e => .error (.wrap ("unable to read " ++ quoted path ++ " as kube YAML") e)
    | .ok kind =>
      if kind = "Pod" then
        match Y.unmarshalPod document with
        | .error e => .error (.wrap ("unable to read YAML " ++ quoted path ++ " as Kube Pod") e)
        | .ok podYAML => downNames path rest (podNames ++ [podYAML.name])
      else if kind = "Deployment" then
        match Y.unmarshalDeployment document with
        | .error e =>
          .error (.wrap ("unable to read YAML " ++ quoted path ++ " as Kube Deployment") e)
        | .ok deploymentYAML =>
          let numReplicas : Int :=
            match deploymentYAML.replicas with
            | some r => r
            | none => 1
          downNames path rest
            (downReplicaNames deploymentYAML.name numReplicas numReplicas.toNat 0 podNames)
      else
        downNames path rest podNames

/-- `PlayKubeDown` (lines 624-692): stop, then remove, the pods the manifest names. -/
def PlayKubeDown (path : String) : Play σ PlayKubeReport := do
  let content ← Play.quiet (fun s => B.readFile s path)
  let documentList ← Play.lift (splitMultiDocYAML Y content)
  let documentList ← (Play.lift (sortKubeKinds Y documentList)).mapErr
    (Err.wrap ("unable to sort kube kinds in " ++ quoted path))
  let podNames ← Play.lift (downNames Y path documentList [])
  let stopReport ← Play.invoke (fun s => B.podStop s podNames)
    (fun r => [Event.podStop podNames r])
  let rmReport ← Play.invoke (fun s => B.podRm s podNames)
    (fun r => [Event.podRm podNames r])
  pure { PlayKubeReport.empty with stopReport := stopReport, rmReport := rmReport }

end Engine

/-- Kind extraction of the example decoder: a document is written `<kind>/<name>`, and a
document without `/` has no extractable kind. -/
def sampleObjectReference (d : Document) : Except Err ObjectReference :=
  if d.toList.contains '/' then
    .ok ⟨String.mk (d.toList.takeWhile (fun c => c != '/'))⟩
  else
    .error (.msg "cannot unmarshal")

/-- Name of an example document: the text after the first `/`. -/
def sampleName (d : Document) : String :=
  String.mk ((d.toList.dropWhile (fun c => c != '/')).drop 1)

/-- A decoder for examples. Documents are `Pod/<name>`, `Deployment/<name>`,
`PersistentVolumeClaim/<name>` or any other `<kind>/<name>`; a pod has one container
`main`, except that the pod `app` has one container `app`; a deployment declares three
replicas of a template with one container `main`. -/
def sampleCodec : Codec where
  decodeStream := fun content =>
    (content.toList.filter (fun c => c != ' ')).foldr
      (fun c acc => match c, acc with
        | ';', _ => .ok (some "") :: acc
        | c, .ok (some d) :: rest => .ok (some (String.mk (c :: d.toList))) :: rest
        | c, rest => .ok (some (String.mk [c])) :: rest) []
  marshal := fun o => .ok o
  unmarshalObjectReference := sampleObjectReference
  unmarshalPod := fun d =>
    .ok {
      name := sampleName d
      annotations := []
      containers := [⟨if sampleName d = "app" then "app" else "main", "img", ""⟩]
      restartPolicy := ""
      rest := "" }
  unmarshalDeployment := fun d =>
    .ok {
      name := sampleName d
      annotations := []
      replicas := some 3
      template := ⟨"", [], [⟨"main", "img", ""⟩], "", ""⟩ }
  unmarshalPVC := fun d => .ok { name := sampleName d, labels := [], annotations := [] }

/-- A backend for examples, whose state counts the objects created so far: every call
succeeds, the file named `path` holds the text `path`, no build file exists, no image is
present before it is pulled, pods get the ids `pod0`, `pod1`, ... and containers the ids
`ctr0`, `ctr1`, ... of the counter, and starting a pod reports no error. -/
def sampleBackend : Backend Nat where
  defaultInfraImage := "k8s.gcr.io/pause:3.5"
  autoupdateLabel := "io.containers.autoupdate"
  autoupdateAuthfileLabel := "io.containers.autoupdate.authfile"
  volumeDriverAnnotation := "volume.podman.io/driver"
  volumeDeviceAnnotation := "volume.podman.io/device"
  volumeTypeAnnotation := "volume.podman.io/type"
  volumeUIDAnnotation := "volume.podman.io/uid"
  volumeGIDAnnotation := "volume.podman.io/gid"
  volumeMountOptsAnnotation := "volume.podman.io/mount-options"
  pathJoin := fun parts => "/".intercalate parts
  parseNetworkString := fun s => .ok (.other s, [s], [])
  parsePullPolicy := fun s =>
    if s = "always" then .ok .always
    else if s = "missing" then .ok .missing
    else if s = "newer" then .ok .newer
    else if s = "never" then .ok .never
    else .error (.msg ("unsupported pull policy " ++ quoted s))
  newSpecGenerator := fun image rootfs => ⟨image, rootfs, [], ""⟩
  unmarshalConfigMap := fun content => .ok ⟨"ConfigMap", content⟩
  secretsManager := fun s => (.ok (), s)
  toPodOpt := fun s podName podOpt _ =>
    (.ok { podOpt with
      name := podName
      net := { podOpt.net with staticIP := none, staticMAC := none } }, s)
  toPodSpecGen := fun s podOpt =>
    (.ok ⟨podOpt.net.staticIP, podOpt.net.staticMAC, podOpt.net.nsMode,
      podOpt.net.networkOptions, "", true, none, podOpt.name⟩, s)
  initializeVolumes := fun s _ => (.ok "", s)
  initializeSeccompPaths := fun s _ _ => (.ok "", s)
  osOpen := fun s path => (.ok path, s)
  readAll := fun s file => (.ok file, s)
  pull := fun s image _ _ => (.ok [⟨[image]⟩], s)
  fillOutSpecGen := fun s spec => (.ok spec, s)
  makePod := fun s _ => (.ok ⟨"pod" ++ toString s⟩, s + 1)
  infraContainerID := fun s pod => (.ok (pod.id ++ "-infra"), s)
  getwd := fun s => (.ok "/work", s)
  stat := fun s _ => (.notExist (.msg "no such file or directory"), s)
  imageExists := fun s _ => (.ok false, s)
  build := fun s _ _ => (.ok (), s)
  lookupImage := fun s image => (.ok ⟨[image]⟩, s)
  toSpecGen := fun s opts => (.ok ⟨opts.container.image, false, [], opts.container.name⟩, s)
  makeContainer := fun s spec => (.ok spec, s)
  executeCreate := fun s _ => (.ok ⟨"ctr" ++ toString s⟩, s + 1)
  podStart := fun s _ => (([], none), s)
  readFile := fun s path => (.ok path, s)
  newVolume := fun s opts =>
    (.ok (match opts with
      | .withVolumeName name :: _ => name
      | _ => ""), s + 1)
  podStop := fun s names => (.ok names, s)
  podRm := fun s names => (.ok names, s)

/-- Options for examples: nothing set, start requested. -/
def sampleOptions : PlayKubeOptions where
  authfile := ""
  certDir := ""
  username := ""
  password := ""
  network := ""
  quiet := true
  seccompProfileRoot := ""
  signaturePolicy := ""
  skipTLSVerify := .optionalBoolUndefined
  staticIPs := []
  staticMACs := []
  configMaps := []
  logDriver := ""
  start := .optionalBoolUndefined
  build := false

/-- Options with a static-IP pool of one address and no static-MAC pool. -/
def oneIPOptions : PlayKubeOptions := { sampleOptions with staticIPs := [[10, 0, 0, 5]] }

/-- Options with a static-MAC pool of one address and no static-IP pool. -/
def oneMACOptions : PlayKubeOptions :=
  { sampleOptions with staticMACs := [[2, 0, 0, 0, 0, 1]] }

/-- Pod options for examples: no address bound yet. -/
def samplePodOpt : PodCreateOptions := ⟨"", true, "", ⟨none, none, .bridge, [], []⟩, ""⟩

/-- The static IPs of the pod specs handed to `MakePod`, in order. -/
def staticIPsRequested (evs : List Event) : List (Option IP) :=
  evs.filterMap (fun e => match e with
    | .makePod _ spec _ => some spec.staticIP
    | _ => none)

/-- The example backend, except that starting a pod reports the partial failure with one
failing container. -/
def partialStartBackend : Backend Nat :=
  { sampleBackend with
    podStart := fun s _ =>
      (([("ctr2", Err.msg "cannot start")],
        some (Err.wrap "error starting some containers" Err.podPartialFail)), s) }

/-- The example backend, except that starting a pod fails with an error that is not the
partial failure. -/
def failedStartBackend : Backend Nat :=
  { sampleBackend with
    podStart := fun s _ => (([], some (Err.msg "pod is in a bad state")), s) }

/-- Options for examples with `Start` set to false. -/
def noStartOptions : PlayKubeOptions := { sampleOptions with start := .optionalBoolFalse }

/-- The state in which the examples start: no object created, index zero, empty record. -/
def sampleWorld : World Nat := ⟨0, 0, []⟩

/-- The deployment `web` with three replicas of a one-container template. -/
def webDeployment : Deployment where
  name := "web"
  annotations := []
  replicas := some 3
  template := {
    name := ""
    annotations := []
    containers := [⟨"main", "img", ""⟩]
    restartPolicy := ""
    rest := "" }

/-- A pod template for examples, with one container of image `img` per name. -/
def sampleTemplate (names : List String) : PodTemplateSpec where
  name := ""
  annotations := []
  containers := names.map (fun n => ⟨n, "img", ""⟩)
  restartPolicy := ""
  rest := ""

/-- The volume claim `data` with the annotation that sets the uid of the volume to 1000. -/
def dataClaim : PersistentVolumeClaim where
  name := "data"
  labels := []
  annotations := [("volume.podman.io/uid", "1000")]

/-- A volume claim whose name is blank. -/
def blankClaim : PersistentVolumeClaim where
  name := " \t"
  labels := []
  annotations := []

/-- The six annotation keys that `playKubePVC` recognises, in the order of its `switch`. -/
def Backend.volumeKeys {σ : Type} (B : Backend σ) : List String :=
  [B.volumeDriverAnnotation, B.volumeDeviceAnnotation, B.volumeTypeAnnotation,
    B.volumeUIDAnnotation, B.volumeGIDAnnotation, B.volumeMountOptsAnnotation]

/-- The key of the option map that the annotation key `k` sets in `playKubePVC`, if any. -/
def optionKey {σ : Type} (B : Backend σ) (k : String) : Option String :=
  if k = B.volumeDriverAnnotation then none
  else if k = B.volumeDeviceAnnotation then some "device"
  else if k = B.volumeTypeAnnotation then some "type"
  else if k = B.volumeUIDAnnotation then some "UID"
  else if k = B.volumeGIDAnnotation then some "GID"
  else if k = B.volumeMountOptsAnnotation then some "o"
  else none

/-- The volume option that the annotation `k: v` adds in `playKubePVC`, if any. -/
def volumeOptionOf {σ : Type} (B : Backend σ) (k v : String) : Option VolumeCreateOption :=
  if k = B.volumeDriverAnnotation then some (.withVolumeDriver v)
  else if k = B.volumeDeviceAnnotation then none
  else if k = B.volumeTypeAnnotation then none
  else if k = B.volumeUIDAnnotation then
    match atoi v with
    | .ok uid => some (.withVolumeUID uid)
    | .error _ => none
  else if k = B.volumeGIDAnnotation then
    match atoi v with
    | .ok gid => some (.withVolumeGID gid)
    | .error _ => none
  else none

/-- The option map after the annotations `ann`, starting from `opts`. -/
def optionsAfter {σ : Type} (B : Backend σ) (ann : List (String × String))
    (opts : List (String × String)) : List (String × String) :=
  ann.foldl (fun m e => match optionKey B e.1 with
    | some key => mapSet m key e.2
    | none => m) opts

/-- The spec's reading of teardown for one document, for comparison with `PlayKubeDown`: a
Pod contributes its metadata name as it is, a Deployment named `n` with replica count `r`
(1 when unset) contributes `n-pod-0`, ..., `n-pod-(r-1)`, any other kind nothing. -/
def documentPodNames (Y : Codec) (d : Document) : List String :=
  match getKubeKind Y d with
  | .ok kind =>
    if kind = "Pod" then
      match Y.unmarshalPod d with
      | .ok podYAML => [podYAML.name]
      | .error _ => []
    else if kind = "Deployment" then
      match Y.unmarshalDeployment d with
      | .ok deploymentYAML => replicaNames deploymentYAML.name (deploymentYAML.replicas.getD 1)
      | .error _ => []
    else []
  | .error _ => []

/-- The pod names of a list of documents, in the order of the documents. -/
def teardownNames (Y : Codec) : List Document → List String
  | [] => []
  | d :: rest => documentPodNames Y d ++ teardownNames Y rest

/-- The typed decoders succeed on the document: its kind can be extracted, and it decodes
as a Pod or as a Deployment when that is its kind. -/
def Decodes (Y : Codec) (d : Document) : Prop :=
  ∃ kind, getKubeKind Y d = .ok kind ∧
    (kind = "Pod" → ∃ podYAML, Y.unmarshalPod d = .ok podYAML) ∧
    (kind = "Deployment" → ∃ deploymentYAML, Y.unmarshalDeployment d = .ok deploymentYAML)

/-- The example backend, except that the secrets manager cannot be obtained. -/
def noSecretsBackend : Backend Nat :=
  { sampleBackend with secretsManager := fun s => (.error (.msg "runtime is stopped"), s) }

/-- The image builds issued: output image and build file of each `Build` call, in order. -/
def buildsIssued (evs : List Event) : List (String × String) :=
  evs.filterMap (fun e => match e with
    | .build output buildFile _ => some (output, buildFile)
    | _ => none)

/-- The image pulls issued: image and pull policy of each `Pull` call, in order. -/
def pullsIssued (evs : List Event) : List (String × PullPolicy) :=
  evs.filterMap (fun e => match e with
    | .pull image policy _ _ => some (image, policy)
    | _ => none)

/-- The example backend, except that a build file is found for every image. -/
def buildBackend : Backend Nat :=
  { sampleBackend with stat := fun s _ => (.found, s) }

/-- The example decoder, except that the container of a pod asks for the pull policy
`Sometimes`, which the parser of the example backend rejects. -/
def policyCodec : Codec :=
  { sampleCodec with
    unmarshalPod := fun d =>
      .ok {
        name := sampleName d
        annotations := []
        containers := [⟨"main", "img", "Sometimes"⟩]
        restartPolicy := ""
        rest := "" } }

/-- The manifest gives the container a pull policy, and the parser rejects it in lower
case. -/
def policyRejected {σ : Type} (B : Backend σ) (c : Container) : Bool :=
  decide (c.imagePullPolicy.length > 0) &&
    match B.parsePullPolicy (toLower c.imagePullPolicy) with
    | .error _ => true
    | .ok _ => false

/-- The pods that a document asks for, as the arguments of `playKubePod`: name, template
and annotations. A Pod gives one, a Deployment one for each of its replica names, any
other kind none. -/
def documentPods (Y : Codec) (d : Document) :
    List (String × PodTemplateSpec × List (String × String)) :=
  match getKubeKind Y d with
  | .ok kind =>
    if kind = "Pod" then
      match Y.unmarshalPod d with
      | .ok podYAML =>
        [(podYAML.name,
          { name := podYAML.name
            annotations := podYAML.annotations
            containers := podYAML.containers
            restartPolicy := podYAML.restartPolicy
            rest := podYAML.rest },
          podYAML.annotations)]
      | .error _ => []
    else if kind = "Deployment" then
      match Y.unmarshalDeployment d with
      | .ok deploymentYAML =>
        (replicaNames deploymentYAML.name (deploymentYAML.replicas.getD 1)).map
          (fun n => (n, deploymentYAML.template, deploymentYAML.annotations))
      | .error _ => []
    else []
  | .error _ => []

/-- The record of `w1` is that of `w` followed by further entries. -/
def extendsRecord {σ : Type} (w w1 : World σ) : Prop :=
  ∃ evs, w1.trace = w.trace ++ evs

/-- The record of `w1` is that of `w` followed by further entries, among them a build of
`image`. -/
def builtBetween {σ : Type} (image : String) (w w1 : World σ) : Prop :=
  ∃ evs, w1.trace = w.trace ++ evs ∧ ∃ buildFile, (image, buildFile) ∈ buildsIssued evs

/-- Between the states `w` and `w1` the pod was played with success: `playKubePod` ran
from a state `wa` to a state `wb` and returned a report, the record only growing from `w`
to `wa` and from `wb` to `w1`. -/
def playedBetween {σ : Type} (B : Backend σ) (options : PlayKubeOptions)
    (pod : String × PodTemplateSpec × List (String × String)) (w w1 : World σ) : Prop :=
  ∃ wa wb report, playKubePod B pod.1 pod.2.1 options pod.2.2 wa = (.ok report, wb) ∧
    extendsRecord w wa ∧ extendsRecord wb w1

/-- The options handed to `ToSpecGen`, one for each call, in order. -/
def specGenOptions (evs : List Event) : List CtrSpecGenOptions :=
  evs.filterMap (fun e => match e with
    | .toSpecGen opts _ => some opts
    | _ => none)

/-- The label that the annotation key `k` sets for the container named `c`, if any: a bare
auto-update key sets itself, an auto-update key scoped to `c` sets the bare key. -/
def labelKey {σ : Type} (B : Backend σ) (c k : String) : Option String :=
  if k = B.autoupdateLabel ∨ k = B.autoupdateAuthfileLabel then some k
  else if k = B.autoupdateLabel ++ "/" ++ c then some B.autoupdateLabel
  else if k = B.autoupdateAuthfileLabel ++ "/" ++ c then some B.autoupdateAuthfileLabel
  else none

/-- The label map after the annotations `ann`, starting from `labels`: each annotation that
sets a label for `c`, in order. -/
def labelsAfter {σ : Type} (B : Backend σ) (c : String) (ann : List (String × String))
    (labels : List (String × String)) : List (String × String) :=
  ann.foldl (fun m e => match labelKey B c e.1 with
    | some key => mapSet m key e.2
    | none => m) labels

/-- A pod template for examples with the restart policy `OnFailure` and two containers. -/
def retryTemplate : PodTemplateSpec :=
  ⟨"", [], [⟨"main", "img", ""⟩, ⟨"side", "img", ""⟩], "OnFailure", ""⟩

/-- Annotations for examples: the bare auto-update key, the authfile key scoped to the
container `main`, the auto-update key scoped to the container `side`, and a key that is no
auto-update key. -/
def sampleAnnotations : List (String × String) :=
  [("io.containers.autoupdate", "registry"),
    ("io.containers.autoupdate.authfile/main", "/auth.json"),
    ("io.containers.autoupdate/side", "local"),
    ("bind-mount-options", "z")]

/-- Annotations for examples in which the bare auto-update key and the same key scoped to
the container `side` carry different values. -/
def clashAnnotations : List (String × String) :=
  [("io.containers.autoupdate", "registry"), ("io.containers.autoupdate/side", "local")]

/-! ## Theorems -/

/-! ### Computations -/

theorem Play.bind_apply {σ α β : Type} (m : Play σ α) (f : α → Play σ β) (w : World σ) :
    (m >>= f) w =
      match m w with
      | (.ok a, w1) => f a w1
      | (.error e, w1) => (.error e, w1) := rfl

theorem Play.pure_apply {σ α : Type} (a : α) (w : World σ) :
    (pure a : Play σ α) w = (.ok a, w) := rfl

theorem Play.bind_ok {σ α β : Type} {m : Play σ α} {f : α → Play σ β} {w w1 : World σ} {a : α}
    (h : m w = (.ok a, w1)) : (m >>= f) w = f a w1 := by
  rw [Play.bind_apply, h]

theorem Play.bind_error {σ α β : Type} {m : Play σ α} {f : α → Play σ β} {w w1 : World σ}
    {e : Err} (h : m w = (.error e, w1)) : (m >>= f) w = (.error e, w1) := by
  rw [Play.bind_apply, h]

/-- A sequence that succeeds is made of two steps that succeed. -/
theorem Play.bind_eq_ok {σ α β : Type} {m : Play σ α} {f : α → Play σ β} {w w2 : World σ}
    {b : β} (h : (m >>= f) w = (.ok b, w2)) :
    ∃ a w1, m w = (.ok a, w1) ∧ f a w1 = (.ok b, w2) := by
  rcases hm : m w with ⟨r, w1⟩
  cases r with
  | error e => rw [Play.bind_error hm] at h; simp at h
  | ok a => rw [Play.bind_ok hm] at h; exact ⟨a, w1, rfl, h⟩

theorem Play.mapErr_eq_ok {σ α : Type} {m : Play σ α} {f : Err → Err} {w w1 : World σ} {a : α}
    (h : m.mapErr f w = (.ok a, w1)) : m w = (.ok a, w1) := by
  unfold Play.mapErr at h
  rcases hm : m w with ⟨r, w2⟩
  rw [hm] at h
  cases r with
  | error e => simp at h
  | ok b => simpa using h

section Frames

variable {σ : Type} {R : World σ → World σ → Prop} {ok : Event → Prop}

theorem Play.Frame.refl (F : Play.Frame R ok) (w : World σ) : R w w := by
  have h := F.step w w.backend [] (by simp)
  simpa using h

theorem Play.Rel.pure (F : Play.Frame R ok) {α : Type} (a : α) :
    Play.Rel R (pure a : Play σ α) := fun w => F.refl w

theorem Play.Rel.fail (F : Play.Frame R ok) {α : Type} (e : Err) :
    Play.Rel R (Play.fail e : Play σ α) := fun w => F.refl w

theorem Play.Rel.lift (F : Play.Frame R ok) {α : Type} (r : Except Err α) :
    Play.Rel R (Play.lift r : Play σ α) := fun w => F.refl w

theorem Play.Rel.readIndex (F : Play.Frame R ok) :
    Play.Rel R (Play.readIndex : Play σ Nat) := fun w => F.refl w

theorem Play.Rel.invoke (F : Play.Frame R ok) {α : Type} (op : σ → Except Err α × σ)
    (ev : Except Err α → List Event) (h : ∀ r, ∀ e ∈ ev r, ok e) :
    Play.Rel R (Play.invoke op ev) := fun w => F.step w _ _ (h _)

theorem Play.Rel.quiet (F : Play.Frame R ok) {α : Type} (op : σ → Except Err α × σ) :
    Play.Rel R (Play.quiet op) := Play.Rel.invoke F op _ (by simp)

theorem Play.Rel.invokeTotal (F : Play.Frame R ok) {α : Type} (op : σ → α × σ)
    (ev : α → List Event) (h : ∀ r, ∀ e ∈ ev r, ok e) :
    Play.Rel R (Play.invokeTotal op ev) := fun w => F.step w _ _ (h _)

theorem Play.Rel.emit (F : Play.Frame R ok) (evs : List Event) (h : ∀ e ∈ evs, ok e) :
    Play.Rel R (Play.emit evs : Play σ Unit) := fun w => F.step w _ _ h

theorem Play.Rel.bind (F : Play.Frame R ok) {α β : Type} {m : Play σ α} {f : α → Play σ β}
    (hm : Play.Rel R m) (hf : ∀ a, Play.Rel R (f a)) : Play.Rel R (m >>= f) := by
  intro w
  have h1 := hm w
  rcases hmw : m w with ⟨r, w1⟩
  rw [hmw] at h1
  cases r with
  | error e => rw [Play.bind_error hmw]; exact h1
  | ok a => rw [Play.bind_ok hmw]; exact F.trans _ _ _ h1 (hf a w1)

theorem Play.Rel.mapErr (_F : Play.Frame R ok) {α : Type} {m : Play σ α} (f : Err → Err)
    (hm : Play.Rel R m) : Play.Rel R (m.mapErr f) := by
  intro w
  have h1 := hm w
  unfold Play.mapErr
  rcases hmw : m w with ⟨r, w1⟩
  rw [hmw] at h1
  cases r <;> exact h1

end Frames

/-- Appending entries that satisfy `p` is a frame. -/
theorem Play.appends_frame {σ : Type} (p : Event → Prop) :
    Play.Frame (Play.Appends (σ := σ) p) p where
  trans := by
    rintro a b c ⟨e1, h1, h2⟩ ⟨e2, h3, h4⟩
    refine ⟨e1 ++ e2, by rw [h3, h1, List.append_assoc], ?_⟩
    intro e he
    rcases List.mem_append.mp he with h | h
    · exact h2 e h
    · exact h4 e h
  step := fun _ _ evs h => ⟨evs, rfl, h⟩

theorem indexReads_append (a b : List Event) :
    indexReads (a ++ b) = indexReads a ++ indexReads b := by
  simp [indexReads, List.filterMap_append]

/-- Counting the index reads is a frame for the entries that are not index reads. -/
theorem Play.counts_frame {σ : Type} :
    Play.Frame (Play.Counts (σ := σ)) (fun e => ∀ n k, e ≠ Event.staticIndex n k) where
  trans := by
    rintro a b c ⟨e1, h1, h2, h3⟩ ⟨e2, h4, h5, h6⟩
    refine ⟨e1 ++ e2, by rw [h4, h1, List.append_assoc], le_trans h2 h5, ?_⟩
    rw [indexReads_append, h3, h6]
    have key := List.range'_append_1 a.ipIndex (b.ipIndex - a.ipIndex) (c.ipIndex - b.ipIndex)
    rw [Nat.add_sub_of_le h2] at key
    rw [key]
    congr 1
    omega
  step := by
    intro w s evs h
    refine ⟨evs, rfl, le_refl _, ?_⟩
    have : indexReads evs = [] := by
      unfold indexReads
      rw [List.filterMap_eq_nil_iff]
      intro e he
      cases e <;> simp
      exact (h _ he _ _ rfl).elim
    simp [this]


/-- The loop of `sortKubeKinds`, started from any accumulator, pushes the non-pod documents
to the front in reverse order and appends the pod and deployment documents in order. -/
theorem sortLoop_eq (Y : Codec) (docs : List Document) :
    ∀ acc : List Document,
      (∀ d ∈ docs, ∃ k, getKubeKind Y d = .ok k) →
      sortLoop Y docs acc =
        .ok ((docs.filter (fun d => !isPodOrDeployment Y d)).reverse ++ acc ++
          docs.filter (fun d => isPodOrDeployment Y d)) := by
  induction docs with
  | nil => intro acc _; simp [sortLoop]
  | cons d ds ih =>
    intro acc h
    obtain ⟨k, hk⟩ := h d (List.mem_cons_self d ds)
    have hds : ∀ x ∈ ds, ∃ k, getKubeKind Y x = .ok k :=
      fun x hx => h x (List.mem_cons_of_mem d hx)
    by_cases hkind : k = "Pod" ∨ k = "Deployment"
    · have hp : isPodOrDeployment Y d = true := by simp [isPodOrDeployment, hk, hkind]
      simp [sortLoop, hk, hkind, hp, ih _ hds]
    · have hp : isPodOrDeployment Y d = false := by simp [isPodOrDeployment, hk, hkind]
      simp [sortLoop, hk, hkind, hp, ih _ hds]

/-- C1: when every document's kind can be extracted, `sortKubeKinds` returns the documents
that are neither Pod nor Deployment in reverse encounter order, followed by the Pod and
Deployment documents in their original relative order. -/
theorem sortKubeKinds_spec (Y : Codec) (docs : List Document)
    (h : ∀ d ∈ docs, ∃ k, getKubeKind Y d = .ok k) :
    sortKubeKinds Y docs =
      .ok ((docs.filter (fun d => !isPodOrDeployment Y d)).reverse ++
        docs.filter (fun d => isPodOrDeployment Y d)) := by
  simpa [sortKubeKinds] using sortLoop_eq Y docs [] h

/-- C1 at the manifest `[Pod A, PVC X, Pod B, PVC Y]`, which sorts to
`[PVC Y, PVC X, Pod A, Pod B]`. -/
theorem sortKubeKinds_spec_witness :
    (∀ d ∈ ["Pod/A", "PersistentVolumeClaim/X", "Pod/B", "PersistentVolumeClaim/Y"],
        ∃ k, getKubeKind sampleCodec d = .ok k) ∧
      sortKubeKinds sampleCodec
          ["Pod/A", "PersistentVolumeClaim/X", "Pod/B", "PersistentVolumeClaim/Y"] =
        .ok ["PersistentVolumeClaim/Y", "PersistentVolumeClaim/X", "Pod/A", "Pod/B"] := by
  have hk : ∀ d ∈ ["Pod/A", "PersistentVolumeClaim/X", "Pod/B", "PersistentVolumeClaim/Y"],
      ∃ k, getKubeKind sampleCodec d = .ok k := by
    intro d hd
    simp only [List.mem_cons, List.mem_singleton, List.not_mem_nil, or_false] at hd
    rcases hd with rfl | rfl | rfl | rfl
    · exact ⟨"Pod", by decide⟩
    · exact ⟨"PersistentVolumeClaim", by decide⟩
    · exact ⟨"Pod", by decide⟩
    · exact ⟨"PersistentVolumeClaim", by decide⟩
  refine ⟨hk, ?_⟩
  have h := sortKubeKinds_spec sampleCodec _ hk
  rw [h]
  decide

/-! ### The engine keeps every frame -/

section EngineFrames

variable {σ : Type} (B : Backend σ) {R : World σ → World σ → Prop} {ok : Event → Prop}

theorem pullImage_rel (F : Play.Frame R ok) (h : ∀ i pol o r, ok (Event.pull i pol o r))
    (writer : Writer) (image : String) (options : PlayKubeOptions) (policy : PullPolicy) :
    Play.Rel R (pullImage B writer image options policy) := by
  unfold pullImage
  exact Play.Rel.invoke F _ _ (by simp [h])

theorem readConfigMapFromFile_rel (F : Play.Frame R ok) (r : String) :
    Play.Rel R (readConfigMapFromFile B r) := by
  unfold readConfigMapFromFile
  repeat first
    | exact Play.Rel.pure F _
    | exact Play.Rel.fail F _
    | exact Play.Rel.lift F _
    | exact Play.Rel.quiet F _
    | apply Play.Rel.mapErr F
    | refine Play.Rel.bind F ?_ (fun _ => ?_)
    | split

theorem readConfigMaps_rel (F : Play.Frame R ok) (paths : List String) :
    ∀ acc, Play.Rel R (readConfigMaps B paths acc) := by
  induction paths with
  | nil => intro acc; exact Play.Rel.pure F _
  | cons x xs ih =>
    intro acc
    unfold readConfigMaps
    repeat first
      | exact ih _
      | exact readConfigMapFromFile_rel B F _
      | exact Play.Rel.quiet F _
      | apply Play.Rel.mapErr F
      | refine Play.Rel.bind F ?_ (fun _ => ?_)

theorem getBuildFile_rel (F : Play.Frame R ok) (h : ∀ t, ok (Event.logError t))
    (imageName cwd : String) : Play.Rel R (getBuildFile B imageName cwd) := by
  unfold getBuildFile
  refine Play.Rel.bind F ?_ (fun first => ?_)
  · refine Play.Rel.invokeTotal F _ _ ?_
    intro r e he
    cases r <;> simp at he
    rw [he]; exact h _
  · repeat first
      | exact Play.Rel.pure F _
      | exact Play.Rel.fail F _
      | exact Play.Rel.invokeTotal F _ _ (by simp)
      | refine Play.Rel.bind F ?_ (fun _ => ?_)
      | split

theorem setupInfra_rel (F : Play.Frame R ok) (h : ∀ i pol o r, ok (Event.pull i pol o r))
    (options : PlayKubeOptions) (podOpt : PodCreateOptions) (p : PodSpecGenerator) :
    Play.Rel R (setupInfra B options podOpt p) := by
  unfold setupInfra
  repeat first
    | exact Play.Rel.pure F _
    | exact Play.Rel.lift F _
    | exact Play.Rel.quiet F _
    | exact pullImage_rel B F h _ _ _ _
    | refine Play.Rel.bind F ?_ (fun _ => ?_)
    | split

theorem resolveImage_rel (F : Play.Frame R ok) (h : ∀ e, Event.isImageStep e → ok e)
    (options : PlayKubeOptions) (writer : Writer) (cwd : String) (container : Container) :
    Play.Rel R (resolveImage B options writer cwd container) := by
  unfold resolveImage
  repeat first
    | exact Play.Rel.pure F _
    | exact Play.Rel.lift F _
    | exact Play.Rel.quiet F _
    | exact pullImage_rel B F (fun _ _ _ _ => h _ trivial) _ _ _ _
    | exact getBuildFile_rel B F (fun _ => h _ trivial) _ _
    | exact Play.Rel.invoke F _ _ (by simp; intro r; exact h _ trivial)
    | refine Play.Rel.bind F ?_ (fun _ => ?_)
    | split

theorem createContainer_rel (F : Play.Frame R ok) (h : ∀ e, Event.isContainerStep e → ok e)
    (options : PlayKubeOptions) (annotations : List (String × String)) (ctx : PodContext)
    (container : Container) :
    Play.Rel R (createContainer B options annotations ctx container) := by
  unfold createContainer
  repeat first
    | exact Play.Rel.quiet F _
    | exact resolveImage_rel B F (fun e he => h e (by cases e <;> trivial)) _ _ _ _
    | exact Play.Rel.invoke F _ _ (by simp; intro r; exact h _ trivial)
    | refine Play.Rel.bind F ?_ (fun _ => ?_)

theorem containerLoop_rel (F : Play.Frame R ok) (h : ∀ e, Event.isContainerStep e → ok e)
    (options : PlayKubeOptions) (annotations : List (String × String)) (ctx : PodContext)
    (cs : List Container) :
    ∀ acc, Play.Rel R (containerLoop B options annotations ctx cs acc) := by
  induction cs with
  | nil => intro acc; exact Play.Rel.pure F _
  | cons c cs ih =>
    intro acc
    unfold containerLoop
    split
    · exact Play.Rel.bind F (createContainer_rel B F h _ _ _ _) (fun _ => ih _)
    · exact ih _

theorem checkStartError_rel (F : Play.Frame R ok) (err : Option Err) :
    Play.Rel (σ := σ) R (checkStartError err) := by
  unfold checkStartError
  split
  · split
    · exact Play.Rel.fail F _
    · exact Play.Rel.pure F _
  · exact Play.Rel.pure F _

theorem startPod_rel (F : Play.Frame R ok) (pod : LibpodPod)
    (h : ∀ e, Event.isStartOf pod e → ok e) (options : PlayKubeOptions) :
    Play.Rel R (startPod B options pod) := by
  unfold startPod
  repeat first
    | exact Play.Rel.pure F _
    | exact checkStartError_rel F _
    | exact Play.Rel.invokeTotal F _ _ (by simp; intro a b; exact h _ rfl)
    | exact Play.Rel.emit F _ (by simp; intro a _; exact h _ trivial)
    | refine Play.Rel.bind F ?_ (fun _ => ?_)
    | split

theorem startAndReport_rel (F : Play.Frame R ok) (pod : LibpodPod)
    (h : ∀ e, Event.isStartOf pod e → ok e) (options : PlayKubeOptions)
    (containers : List LibpodContainer) (logs : List String) :
    Play.Rel R (startAndReport B options pod containers logs) := by
  unfold startAndReport
  exact Play.Rel.bind F (startPod_rel B F pod h options) (fun _ => Play.Rel.pure F _)

theorem podSetup_rel (F : Play.Frame R ok) (podName : String) (podYAML : PodTemplateSpec)
    (options : PlayKubeOptions)
    (h : ∀ e, Event.isSetupOf (checkNameCollision podYAML.containers podName []).1 e → ok e)
    (hs : ∀ podOpt, Play.Rel R
      (assignStatic (checkNameCollision podYAML.containers podName []).1 options podOpt)) :
    Play.Rel R (podSetup B podName podYAML options) := by
  unfold podSetup
  repeat first
    | exact Play.Rel.pure F _
    | exact Play.Rel.fail F _
    | exact Play.Rel.lift F _
    | exact Play.Rel.quiet F _
    | exact hs _
    | exact readConfigMaps_rel B F _ _
    | exact setupInfra_rel B F (fun _ _ _ _ => h _ trivial) _ _ _
    | exact Play.Rel.invoke F _ _ (by simp; intro r; exact h _ rfl)
    | refine Play.Rel.bind F ?_ (fun _ => ?_)
    | split

theorem playKubePod_rel (F : Play.Frame R ok) (podName : String) (podYAML : PodTemplateSpec)
    (options : PlayKubeOptions) (annotations : List (String × String))
    (h1 : ∀ e, Event.isSetupOf (checkNameCollision podYAML.containers podName []).1 e → ok e)
    (h2 : ∀ e, Event.isContainerStep e → ok e)
    (h3 : ∀ pod e, Event.isStartOf pod e → ok e)
    (hs : ∀ podOpt, Play.Rel R
      (assignStatic (checkNameCollision podYAML.containers podName []).1 options podOpt)) :
    Play.Rel R (playKubePod B podName podYAML options annotations) := by
  unfold playKubePod
  refine Play.Rel.bind F (podSetup_rel B F _ _ _ h1 hs) (fun ctx => ?_)
  refine Play.Rel.bind F (containerLoop_rel B F h2 _ _ _ _ _) (fun cs => ?_)
  exact startAndReport_rel B F _ (h3 _) _ _ _

end EngineFrames

/-! ### The static-address step -/

section StaticStep

variable {σ : Type}

/-- The static-address step never fails; it reads the index, leaves the index entry and
the warnings in the record, and advances the index by one. -/
theorem assignStatic_apply (podName : String) (options : PlayKubeOptions)
    (podOpt : PodCreateOptions) (w : World σ) :
    assignStatic podName options podOpt w =
      (.ok (bindStaticMAC options w.ipIndex (bindStaticIP options w.ipIndex podOpt)),
        ⟨w.backend, w.ipIndex + 1,
          w.trace ++ Event.staticIndex podName w.ipIndex :: staticWarnings options w.ipIndex⟩) :=
  rfl

theorem staticWarnings_warn (options : PlayKubeOptions) (k : Nat) :
    ∀ e ∈ staticWarnings options k, ∃ t, e = Event.warn t := by
  intro e he
  unfold staticWarnings at he
  rcases List.mem_append.mp he with h | h
  · split at h
    · simp at h
    · split at h <;> simp at h
      exact ⟨_, h⟩
  · split at h
    · simp at h
    · split at h <;> simp at h
      exact ⟨_, h⟩

theorem assignStatic_emits (p : Event → Prop) (podName : String) (options : PlayKubeOptions)
    (podOpt : PodCreateOptions) (h : ∀ e, Event.isStaticOf podName e → p e) :
    Play.Emits (σ := σ) p (assignStatic podName options podOpt) := by
  intro w
  rw [assignStatic_apply]
  refine ⟨_, rfl, ?_⟩
  intro e he
  rcases List.mem_cons.mp he with h1 | h1
  · rw [h1]; exact h _ rfl
  · obtain ⟨t, ht⟩ := staticWarnings_warn options _ e h1
    rw [ht]; exact h _ trivial

theorem assignStatic_counts (podName : String) (options : PlayKubeOptions)
    (podOpt : PodCreateOptions) :
    Play.Rel (σ := σ) Play.Counts (assignStatic podName options podOpt) := by
  intro w
  rw [assignStatic_apply]
  refine ⟨_, rfl, Nat.le_succ _, ?_⟩
  have hw : indexReads (staticWarnings options w.ipIndex) = [] := by
    unfold indexReads
    rw [List.filterMap_eq_nil_iff]
    intro e he
    obtain ⟨t, ht⟩ := staticWarnings_warn options _ e he
    rw [ht]
  show indexReads (_ :: _) = _
  have : w.ipIndex + 1 - w.ipIndex = 1 := by omega
  rw [this]
  simp [indexReads] at hw ⊢
  exact hw

end StaticStep

/-! ### Deployments -/

section Deployments

variable {σ : Type} (B : Backend σ)

/-- The replica loop, started at `i` with `left` iterations to go, assembles the pods named
after `i`, ..., `i + left - 1`, as long as these counters are below the replica count. -/
theorem replicaLoop_eq (d : Deployment) (options : PlayKubeOptions) (numReplicas : Int) :
    ∀ (left i : Nat) (report : PlayKubeReport),
      (∀ k, i ≤ k → k < i + left → (k : Int) < numReplicas) →
      replicaLoop B d options numReplicas left i report =
        assemblePods B d.template options d.annotations
          ((List.range' i left).map (fun k => d.name ++ "-pod-" ++ toString k)) report := by
  intro left
  induction left with
  | zero => intro i report _; rfl
  | succ n ih =>
    intro i report h
    have hi : (i : Int) < numReplicas := h i (le_refl _) (by omega)
    have hrest : ∀ r, replicaLoop B d options numReplicas n (i + 1) r =
        assemblePods B d.template options d.annotations
          ((List.range' (i + 1) n).map (fun k => d.name ++ "-pod-" ++ toString k)) r :=
      fun r => ih (i + 1) r (fun k h1 h2 => h k (by omega) (by omega))
    simp only [replicaLoop, hi, if_true, List.range'_succ, List.map_cons, assemblePods, hrest]

/-- C2: a Deployment with a non-empty name `n` and replica count `r` (1 when unset) is
played by assembling, in order, the pods `n-pod-0`, ..., `n-pod-(r-1)`, each from the
deployment's pod template with the deployment-level annotations: `max r 0` names in all; and
when `r ≤ 0` no pod is built, nothing is issued, and the result is the empty report. -/
theorem playKubeDeployment_spec (d : Deployment) (options : PlayKubeOptions)
    (h : d.name ≠ "") :
    playKubeDeployment B d options =
        assemblePods B d.template options d.annotations
          (replicaNames d.name (d.replicas.getD 1)) PlayKubeReport.empty ∧
      (replicaNames d.name (d.replicas.getD 1)).length = (max (d.replicas.getD 1) 0).toNat ∧
      (∀ i : Nat, (i : Int) < d.replicas.getD 1 →
        (replicaNames d.name (d.replicas.getD 1))[i]? = some (d.name ++ "-pod-" ++ toString i)) ∧
      (d.replicas.getD 1 ≤ 0 →
        ∀ w : World σ, playKubeDeployment B d options w = (.ok PlayKubeReport.empty, w)) := by
  have hr : (match d.replicas with
      | some r => r
      | none => 1) = d.replicas.getD 1 := by
    cases d.replicas <;> rfl
  have heq : playKubeDeployment B d options =
      assemblePods B d.template options d.annotations
        (replicaNames d.name (d.replicas.getD 1)) PlayKubeReport.empty := by
    unfold playKubeDeployment
    simp only [h, if_false, hr]
    rw [replicaLoop_eq B d options _ _ 0 _ (by intro k _ hk; omega)]
    simp [replicaNames, List.range_eq_range']
  refine ⟨heq, ?_, ?_, ?_⟩
  · have : (max (d.replicas.getD 1) 0).toNat = (d.replicas.getD 1).toNat := by omega
    simp [replicaNames, this]
  · intro i hi
    have : i < (d.replicas.getD 1).toNat := by omega
    simp [replicaNames, List.getElem?_map, List.getElem?_range this]
  · intro hle w
    rw [heq]
    have : (d.replicas.getD 1).toNat = 0 := by omega
    simp [replicaNames, this, assemblePods, Play.pure_apply]

end Deployments

/-- C2 at the deployment `web` with three replicas: the names are `web-pod-0`, `web-pod-1`,
`web-pod-2`, and the run on the example backend creates exactly these pods, in order. -/
theorem playKubeDeployment_spec_witness :
    webDeployment.name ≠ "" ∧
      playKubeDeployment sampleBackend webDeployment sampleOptions =
        assemblePods sampleBackend webDeployment.template sampleOptions
          webDeployment.annotations ["web-pod-0", "web-pod-1", "web-pod-2"]
          PlayKubeReport.empty ∧
      podsCreated (playKubeDeployment sampleBackend webDeployment sampleOptions sampleWorld).2.trace =
        ["web-pod-0", "web-pod-1", "web-pod-2"] := by
  refine ⟨by decide, ?_, by decide!⟩
  have h := (playKubeDeployment_spec sampleBackend webDeployment sampleOptions (by decide)).1
  rw [h]
  have hn : replicaNames webDeployment.name (webDeployment.replicas.getD 1) =
      ["web-pod-0", "web-pod-1", "web-pod-2"] := by decide
  rw [hn]

/-! ### Apply and teardown -/

/-- C3 at the manifest with the one pod `app` whose container is also named `app`:
`PlayKube` succeeds and creates the pod under the name `app_pod`, while `PlayKubeDown` on the
same manifest hands the name `app` to stop and to remove. -/
theorem playKubeDown_misses_renamed_pod :
    (PlayKube sampleBackend sampleCodec "Pod/app" sampleOptions sampleWorld).1.toBool = true ∧
      podsCreated (PlayKube sampleBackend sampleCodec "Pod/app" sampleOptions sampleWorld).2.trace =
        ["app_pod"] ∧
      podsStopped (PlayKubeDown sampleBackend sampleCodec "Pod/app" sampleWorld).2.trace =
        [["app"]] ∧
      podsRemoved (PlayKubeDown sampleBackend sampleCodec "Pod/app" sampleWorld).2.trace =
        [["app"]] := by
  refine ⟨by decide!, by decide!, by decide!, by decide!⟩

/-! ### The name of the pod -/

theorem checkNameCollision_unchanged (cs : List Container) (podName : String)
    (logs : List String) (h : ∀ c ∈ cs, c.name ≠ podName) :
    checkNameCollision cs podName logs = (podName, logs) := by
  induction cs with
  | nil => rfl
  | cons c cs ih =>
    have hc : c.name ≠ podName := h c (List.mem_cons_self c cs)
    simp only [checkNameCollision, hc, if_false]
    exact ih (fun x hx => h x (List.mem_cons_of_mem c hx))

theorem checkNameCollision_renamed (cs : List Container) (podName : String) :
    ∀ logs : List String, (∃ c ∈ cs, c.name = podName) →
      (∀ c ∈ cs, c.name ≠ podName ++ "_pod") →
      (checkNameCollision cs podName logs).1 = podName ++ "_pod" := by
  induction cs with
  | nil => intro logs h; simp at h
  | cons c cs ih =>
    intro logs h1 h2
    have hrest : ∀ x ∈ cs, x.name ≠ podName ++ "_pod" :=
      fun x hx => h2 x (List.mem_cons_of_mem c hx)
    by_cases hc : c.name = podName
    · simp only [checkNameCollision, hc, if_true]
      rw [checkNameCollision_unchanged cs _ _ hrest]
    · simp only [checkNameCollision, hc, if_false]
      obtain ⟨x, hx, hxn⟩ := h1
      rcases List.mem_cons.mp hx with rfl | hx
      · exact (hc hxn).elim
      · exact ih logs ⟨x, hx, hxn⟩ hrest

section PodName

variable {σ : Type} (B : Backend σ)

/-- Every `MakePod` call of `playKubePod` carries the name that the collision check
returns. -/
theorem playKubePod_makePod_name (podName : String) (podYAML : PodTemplateSpec)
    (options : PlayKubeOptions) (annotations : List (String × String)) :
    Play.Emits
      (fun e => ∀ name spec r, e = Event.makePod name spec r →
        name = (checkNameCollision podYAML.containers podName []).1)
      (playKubePod B podName podYAML options annotations) := by
  refine playKubePod_rel B (Play.appends_frame _) _ _ _ _ ?_ ?_ ?_ ?_
  · intro e he name spec r h
    rw [h] at he
    exact he
  · intro e he name spec r h
    rw [h] at he
    exact he.elim
  · intro pod e he name spec r h
    rw [h] at he
    exact he.elim
  · intro podOpt
    refine assignStatic_emits _ _ _ _ ?_
    intro e he name spec r h
    rw [h] at he
    exact he.elim

/-- C4, amended: for a pod name `n`, when some container of the template is named `n` and
none is named `n_pod`, every pod creation call of `playKubePod` is issued under exactly
`n_pod`; when no container is named `n`, under `n` unchanged. (For the empty name no pod is
created at all, so the statement needs no condition on `n`.) -/
theorem playKubePod_name (n : String) (podYAML : PodTemplateSpec)
    (options : PlayKubeOptions) (annotations : List (String × String)) :
    ((∃ c ∈ podYAML.containers, c.name = n) →
      (∀ c ∈ podYAML.containers, c.name ≠ n ++ "_pod") →
      (checkNameCollision podYAML.containers n []).1 = n ++ "_pod" ∧
      Play.Emits (fun e => ∀ name spec r, e = Event.makePod name spec r → name = n ++ "_pod")
        (playKubePod B n podYAML options annotations)) ∧
    ((∀ c ∈ podYAML.containers, c.name ≠ n) →
      (checkNameCollision podYAML.containers n []).1 = n ∧
      Play.Emits (fun e => ∀ name spec r, e = Event.makePod name spec r → name = n)
        (playKubePod B n podYAML options annotations)) := by
  constructor
  · intro h1 h2
    have h := checkNameCollision_renamed podYAML.containers n [] h1 h2
    refine ⟨h, ?_⟩
    have hm := playKubePod_makePod_name B n podYAML options annotations
    rw [h] at hm
    exact hm
  · intro h1
    have h := checkNameCollision_unchanged podYAML.containers n [] h1
    refine ⟨by rw [h], ?_⟩
    have hm := playKubePod_makePod_name B n podYAML options annotations
    rw [h] at hm
    exact hm

end PodName

/-- C4 as stated fails for the pod `app` with the containers `app` and `app_pod`: a
container is named like the pod, and the pod is created under `app_pod_pod`. -/
theorem playKubePod_name_counterexample :
    (∃ c ∈ (sampleTemplate ["app", "app_pod"]).containers, c.name = "app") ∧
      (checkNameCollision (sampleTemplate ["app", "app_pod"]).containers "app" []).1 =
        "app_pod_pod" ∧
      podsCreated (playKubePod sampleBackend "app" (sampleTemplate ["app", "app_pod"])
        sampleOptions [] sampleWorld).2.trace = ["app_pod_pod"] ∧
      "app_pod_pod" ≠ "app" ++ "_pod" := by
  refine ⟨⟨⟨"app", "img", ""⟩, by decide, rfl⟩, by decide, by decide!, by decide⟩

/-- C4 at the pod `app` with the containers `app` and `web`: the pod is created under
`app_pod`. -/
theorem playKubePod_name_witness :
    (checkNameCollision (sampleTemplate ["app", "web"]).containers "app" []).1 = "app_pod" ∧
      podsCreated (playKubePod sampleBackend "app" (sampleTemplate ["app", "web"])
        sampleOptions [] sampleWorld).2.trace = ["app_pod"] :=
  ⟨((playKubePod_name sampleBackend "app" (sampleTemplate ["app", "web"]) sampleOptions
      []).1 ⟨⟨"app", "img", ""⟩, by decide, rfl⟩ (by decide)).1,
    by decide!⟩

/-! ### The containers of the pod -/

theorem containersCreated_append (a b : List Event) :
    containersCreated (a ++ b) = containersCreated a ++ containersCreated b := by
  simp [containersCreated, List.filterMap_append]

theorem containersCreated_eq_nil (evs : List Event)
    (h : ∀ e ∈ evs, ∀ name r, e ≠ Event.executeCreate name r) : containersCreated evs = [] := by
  unfold containersCreated
  rw [List.filterMap_eq_nil_iff]
  intro e he
  cases e with
  | executeCreate name r => exact absurd rfl (h _ he name r)
  | _ => rfl

theorem Play.invoke_trace {σ α : Type} {op : σ → Except Err α × σ}
    {ev : Except Err α → List Event} {w w1 : World σ} {r : Except Err α}
    (h : Play.invoke op ev w = (r, w1)) : w1.trace = w.trace ++ ev r := by
  unfold Play.invoke at h
  cases h
  rfl

section Containers

variable {σ : Type} (B : Backend σ)

/-- A successful `createContainer` leaves exactly one successful `ExecuteCreate` in the
record, for the container at hand and with the id it returns. -/
theorem createContainer_ok (options : PlayKubeOptions) (annotations : List (String × String))
    (ctx : PodContext) (container : Container) (w w1 : World σ) (ctr : LibpodContainer)
    (h : createContainer B options annotations ctx container w = (.ok ctr, w1)) :
    ∃ evs, w1.trace = w.trace ++ evs ∧ containersCreated evs = [(container.name, ctr.id)] := by
  unfold createContainer at h
  obtain ⟨img, wa, ha, h⟩ := Play.bind_eq_ok h
  obtain ⟨sg, wb, hb, h⟩ := Play.bind_eq_ok h
  obtain ⟨made, wc, hc, h⟩ := Play.bind_eq_ok h
  obtain ⟨ea, hea, hpa⟩ : Play.Appends (fun e => Event.isImageStep e) w wa := by
    have := resolveImage_rel B (Play.appends_frame _) (fun e he => he) options ctx.writer
      ctx.cwd container w
    rw [ha] at this
    exact this
  have hwb := Play.invoke_trace hb
  have hwc := Play.invoke_trace hc
  have hw1 := Play.invoke_trace h
  rw [hwc, hwb, hea, List.append_assoc, List.append_assoc, List.append_assoc] at hw1
  refine ⟨_, hw1, ?_⟩
  rw [containersCreated_append, containersCreated_eq_nil ea]
  · simp [containersCreated]
  · intro e he name r heq
    have := hpa e he
    rw [heq] at this
    exact this

/-- A successful run of the container loop appends one created container per container
that the guard lets through, in order. -/
theorem containerLoop_ok (options : PlayKubeOptions) (annotations : List (String × String))
    (ctx : PodContext) (cs : List Container) :
    ∀ (acc : List LibpodContainer) (w w1 : World σ) (res : List LibpodContainer),
      containerLoop B options annotations ctx cs acc w = (.ok res, w1) →
      ∃ evs made, w1.trace = w.trace ++ evs ∧ res = acc ++ made ∧
        made.length = (cs.filter (fun c => !stringsContains "infra" c.name)).length ∧
        containersCreated evs =
          ((cs.filter (fun c => !stringsContains "infra" c.name)).map (fun c => c.name)).zip
            (made.map (fun ctr => ctr.id)) := by
  induction cs with
  | nil =>
    intro acc w w1 res h
    rw [containerLoop, Play.pure_apply] at h
    cases h
    exact ⟨[], [], by simp, by simp, rfl, rfl⟩
  | cons c cs ih =>
    intro acc w w1 res h
    unfold containerLoop at h
    by_cases hc : stringsContains "infra" c.name = true
    · simp only [hc, Bool.not_true, Bool.false_eq_true, if_false] at h
      obtain ⟨evs, made, h1, h2, h3, h4⟩ := ih acc w w1 res h
      refine ⟨evs, made, h1, h2, ?_, ?_⟩
      · simpa [List.filter_cons, hc] using h3
      · simpa [List.filter_cons, hc] using h4
    · have hc : stringsContains "infra" c.name = false := by simpa using hc
      simp only [hc, Bool.not_false, if_true] at h
      obtain ⟨ctr, wa, ha, h⟩ := Play.bind_eq_ok h
      obtain ⟨ea, hea, hca⟩ := createContainer_ok B options annotations ctx c w wa ctr ha
      obtain ⟨evs, made, h1, h2, h3, h4⟩ := ih (acc ++ [ctr]) wa w1 res h
      refine ⟨ea ++ evs, ctr :: made, ?_, ?_, ?_, ?_⟩
      · rw [h1, hea, List.append_assoc]
      · rw [h2, List.append_assoc]; rfl
      · simp [List.filter_cons, hc, h3]
      · rw [containersCreated_append, hca, h4]
        simp [List.filter_cons, hc]

/-- A successful `startAndReport` returns one report entry with the id of the pod and the
ids of the containers, in order. -/
theorem startAndReport_ok (options : PlayKubeOptions) (pod : LibpodPod)
    (containers : List LibpodContainer) (logs : List String) (w w1 : World σ)
    (report : PlayKubeReport)
    (h : startAndReport B options pod containers logs w = (.ok report, w1)) :
    ∃ entry, report = ⟨[entry], [], [], []⟩ ∧ entry.id = pod.id ∧
      entry.containers = containers.map (fun ctr => ctr.id) ∧ entry.logs = logs := by
  unfold startAndReport at h
  obtain ⟨errs, wa, -, h⟩ := Play.bind_eq_ok h
  rw [Play.pure_apply] at h
  cases h
  exact ⟨_, rfl, rfl, rfl, rfl⟩

end Containers

section PodContainers

variable {σ : Type} (B : Backend σ)

/-- The setup of the pod issues no `ExecuteCreate`. -/
theorem podSetup_no_executeCreate (podName : String) (podYAML : PodTemplateSpec)
    (options : PlayKubeOptions) :
    Play.Emits (fun e => ∀ name r, e ≠ Event.executeCreate name r)
      (podSetup B podName podYAML options) := by
  refine podSetup_rel B (Play.appends_frame _) _ _ _ ?_ ?_
  · intro e he name r h
    rw [h] at he
    exact he
  · intro podOpt
    refine assignStatic_emits _ _ _ _ ?_
    intro e he name r h
    rw [h] at he
    exact he

/-- Starting the pod issues no `ExecuteCreate`. -/
theorem startAndReport_no_executeCreate (options : PlayKubeOptions) (pod : LibpodPod)
    (containers : List LibpodContainer) (logs : List String) :
    Play.Emits (fun e => ∀ name r, e ≠ Event.executeCreate name r)
      (startAndReport B options pod containers logs) := by
  refine startAndReport_rel B (Play.appends_frame _) pod ?_ _ _ _
  intro e he name r h
  rw [h] at he
  exact he

/-- What the loop over the containers does when its guard lets every container through:
when `playKubePod` succeeds on a template in which no container name occurs inside the
word `infra`, the report has one entry whose container-id list has exactly one id per
container of the template, in the template's order: the successful container creations of
the run are, in order, the containers of the template paired with these ids. -/
theorem playKubePod_containers (podName : String) (podYAML : PodTemplateSpec)
    (options : PlayKubeOptions) (annotations : List (String × String)) (w w1 : World σ)
    (report : PlayKubeReport)
    (hok : playKubePod B podName podYAML options annotations w = (.ok report, w1))
    (hnames : ∀ c ∈ podYAML.containers, stringsContains "infra" c.name = false) :
    ∃ entry evs, report.pods = [entry] ∧ w1.trace = w.trace ++ evs ∧
      entry.containers.length = podYAML.containers.length ∧
      containersCreated evs =
        (podYAML.containers.map (fun c => c.name)).zip entry.containers := by
  unfold playKubePod at hok
  obtain ⟨ctx, wa, ha, hok⟩ := Play.bind_eq_ok hok
  obtain ⟨cs, wb, hb, hok⟩ := Play.bind_eq_ok hok
  obtain ⟨ea, hea, hpa⟩ : Play.Appends (fun e => ∀ name r, e ≠ Event.executeCreate name r) w wa := by
    have := podSetup_no_executeCreate B podName podYAML options w
    rw [ha] at this
    exact this
  obtain ⟨eb, made, heb, hcs, hlen, hzip⟩ :=
    containerLoop_ok B options annotations ctx podYAML.containers [] wa wb cs hb
  obtain ⟨ec, hec, hpc⟩ :
      Play.Appends (fun e => ∀ name r, e ≠ Event.executeCreate name r) wb w1 := by
    have := startAndReport_no_executeCreate B options ctx.pod cs ctx.logs wb
    rw [hok] at this
    exact this
  obtain ⟨entry, hrep, -, hids, -⟩ := startAndReport_ok B options ctx.pod cs ctx.logs wb w1 report hok
  have hall : podYAML.containers.filter (fun c => !stringsContains "infra" c.name) =
      podYAML.containers := by
    rw [List.filter_eq_self]
    intro c hc
    simp [hnames c hc]
  rw [hall] at hlen hzip
  have hcs2 : cs = made := by simpa using hcs
  refine ⟨entry, ea ++ (eb ++ ec), by rw [hrep], ?_, ?_, ?_⟩
  · rw [hec, heb, hea, List.append_assoc, List.append_assoc]
  · rw [hids, hcs2, List.length_map, hlen]
  · rw [containersCreated_append, containersCreated_append, containersCreated_eq_nil ea hpa,
      containersCreated_eq_nil ec hpc, hzip, hids, hcs2]
    simp

end PodContainers

/-- A pod with the containers `main` and `infra`: `playKubePod` succeeds, and the report
entry holds one container id for the two containers of the template. -/
theorem playKubePod_containers_counterexample :
    (playKubePod sampleBackend "web" (sampleTemplate ["main", "infra"]) sampleOptions []
        sampleWorld).1 = .ok ⟨[⟨"pod0", ["ctr1"], [], []⟩], [], [], []⟩ ∧
      (sampleTemplate ["main", "infra"]).containers.length = 2 := by
  refine ⟨by decide!, by decide⟩

/-- A pod with the containers `main` and `side`: the report lists the ids `ctr1`, `ctr2`,
created for `main` and `side` in this order. -/
theorem playKubePod_containers_witness :
    playKubePod sampleBackend "web" (sampleTemplate ["main", "side"]) sampleOptions []
        sampleWorld =
      (.ok ⟨[⟨"pod0", ["ctr1", "ctr2"], [], []⟩], [], [], []⟩,
        (playKubePod sampleBackend "web" (sampleTemplate ["main", "side"]) sampleOptions []
          sampleWorld).2) ∧
    (∀ c ∈ (sampleTemplate ["main", "side"]).containers,
      stringsContains "infra" c.name = false) ∧
    containersCreated (playKubePod sampleBackend "web" (sampleTemplate ["main", "side"])
      sampleOptions [] sampleWorld).2.trace = [("main", "ctr1"), ("side", "ctr2")] ∧
    ∃ entry evs, [(⟨"pod0", ["ctr1", "ctr2"], [], []⟩ : PlayKubePod)] = [entry] ∧
      (playKubePod sampleBackend "web" (sampleTemplate ["main", "side"]) sampleOptions []
          sampleWorld).2.trace = sampleWorld.trace ++ evs ∧
      entry.containers.length = (sampleTemplate ["main", "side"]).containers.length ∧
      containersCreated evs =
        ((sampleTemplate ["main", "side"]).containers.map (fun c => c.name)).zip
          entry.containers := by
  have hrun : playKubePod sampleBackend "web" (sampleTemplate ["main", "side"]) sampleOptions []
        sampleWorld =
      (.ok ⟨[⟨"pod0", ["ctr1", "ctr2"], [], []⟩], [], [], []⟩,
        (playKubePod sampleBackend "web" (sampleTemplate ["main", "side"]) sampleOptions []
          sampleWorld).2) := by decide!
  have hnames : ∀ c ∈ (sampleTemplate ["main", "side"]).containers,
      stringsContains "infra" c.name = false := by decide
  exact ⟨hrun, hnames, by decide!,
    playKubePod_containers sampleBackend "web" (sampleTemplate ["main", "side"]) sampleOptions
      [] sampleWorld _ _ hrun hnames⟩

/-! ### Deployments, claims and documents keep every frame -/

section DocumentFrames

variable {σ : Type} (B : Backend σ) (Y : Codec) {R : World σ → World σ → Prop}
  {ok : Event → Prop}

theorem replicaLoop_rel (F : Play.Frame R ok) (d : Deployment) (options : PlayKubeOptions)
    (numReplicas : Int)
    (hpod : ∀ name, Play.Rel R (playKubePod B name d.template options d.annotations)) :
    ∀ (left i : Nat) (report : PlayKubeReport),
      Play.Rel R (replicaLoop B d options numReplicas left i report) := by
  intro left
  induction left with
  | zero => intro i report; exact Play.Rel.pure F _
  | succ n ih =>
    intro i report
    unfold replicaLoop
    split
    · exact Play.Rel.bind F (Play.Rel.mapErr F _ (hpod _)) (fun _ => ih _ _)
    · exact Play.Rel.pure F _

theorem playKubeDeployment_rel (F : Play.Frame R ok) (d : Deployment)
    (options : PlayKubeOptions)
    (hpod : ∀ name, Play.Rel R (playKubePod B name d.template options d.annotations)) :
    Play.Rel R (playKubeDeployment B d options) := by
  unfold playKubeDeployment
  dsimp only
  split
  · exact Play.Rel.fail F _
  · exact replicaLoop_rel B F d options _ hpod _ _ _

theorem playKubePVC_rel (F : Play.Frame R ok) (h : ∀ o r, ok (Event.newVolume o r))
    (pvc : PersistentVolumeClaim) (options : PlayKubeOptions) :
    Play.Rel R (playKubePVC B pvc options) := by
  unfold playKubePVC
  dsimp only
  repeat first
    | exact Play.Rel.pure F _
    | exact Play.Rel.fail F _
    | exact Play.Rel.lift F _
    | exact Play.Rel.invoke F _ _ (by simp; intro r; exact h _ _)
    | refine Play.Rel.bind F ?_ (fun _ => ?_)
    | split

theorem documentLoop_rel (F : Play.Frame R ok) (path : String) (options : PlayKubeOptions)
    (hinfo : ∀ t, ok (Event.info t)) (hvol : ∀ o r, ok (Event.newVolume o r))
    (hpod : ∀ name podYAML annotations,
      Play.Rel R (playKubePod B name podYAML options annotations))
    (docs : List Document) :
    ∀ (report : PlayKubeReport) (validKinds : Nat),
      Play.Rel R (documentLoop B Y path options docs report validKinds) := by
  induction docs with
  | nil => intro report validKinds; exact Play.Rel.pure F _
  | cons d ds ih =>
    intro report validKinds
    unfold documentLoop
    repeat first
      | exact ih _ _
      | exact hpod _ _ _
      | exact playKubeDeployment_rel B F _ _ (fun _ => hpod _ _ _)
      | exact playKubePVC_rel B F hvol _ _
      | exact Play.Rel.lift F _
      | exact Play.Rel.emit F _ (by simp; exact hinfo _)
      | apply Play.Rel.mapErr F
      | refine Play.Rel.bind F ?_ (fun _ => ?_)
      | split

end DocumentFrames

/-! ### The static-address index -/

section Index

variable {σ : Type}

theorem indexReads_eq_nil (evs : List Event) (h : ∀ e ∈ evs, ∀ n k, e ≠ Event.staticIndex n k) :
    indexReads evs = [] := by
  unfold indexReads
  rw [List.filterMap_eq_nil_iff]
  intro e he
  cases e with
  | staticIndex n k => exact absurd rfl (h _ he n k)
  | _ => rfl

/-- Leaving the index alone and adding no index read is a frame. -/
theorem Play.same_frame :
    Play.Frame (Play.Same (σ := σ)) (fun e => ∀ n k, e ≠ Event.staticIndex n k) where
  trans := by
    rintro a b c ⟨h1, e1, h2, h3⟩ ⟨h4, e2, h5, h6⟩
    refine ⟨by rw [h4, h1], e1 ++ e2, by rw [h5, h2, List.append_assoc], ?_⟩
    rw [indexReads_append, h3, h6]
    rfl
  step := fun _ _ evs h => ⟨rfl, evs, rfl, indexReads_eq_nil evs h⟩

theorem Play.stepped_then_same {a b c : World σ} (h1 : Play.Stepped a b) (h2 : Play.Same b c) :
    Play.Stepped a c := by
  obtain ⟨h1, e1, h3, h4⟩ := h1
  obtain ⟨h5, e2, h6, h7⟩ := h2
  refine ⟨by rw [h5, h1], e1 ++ e2, by rw [h6, h3, List.append_assoc], ?_⟩
  rw [indexReads_append, h4, h7]
  rfl

theorem Play.same_then_stepped {a b c : World σ} (h1 : Play.Same a b) (h2 : Play.Stepped b c) :
    Play.Stepped a c := by
  obtain ⟨h1, e1, h3, h4⟩ := h1
  obtain ⟨h5, e2, h6, h7⟩ := h2
  refine ⟨by rw [h5, h1], e1 ++ e2, by rw [h6, h3, List.append_assoc], ?_⟩
  rw [indexReads_append, h4, h7, h1]
  rfl

theorem Play.readsOnce_fail {α : Type} (e : Err) : Play.ReadsOnce (Play.fail e : Play σ α) :=
  fun w => Or.inl ⟨e, rfl, Play.same_frame.refl w⟩

/-- Steps that leave the index alone may come before a computation that reads it once. -/
theorem Play.readsOnce_after_same {α β : Type} {m : Play σ α} {f : α → Play σ β}
    (hm : Play.Rel Play.Same m) (hf : ∀ a, Play.ReadsOnce (f a)) :
    Play.ReadsOnce (m >>= f) := by
  intro w
  have h1 := hm w
  rcases hmw : m w with ⟨r, w1⟩
  rw [hmw] at h1
  cases r with
  | error e =>
    rw [Play.bind_error hmw]
    exact Or.inl ⟨e, rfl, h1⟩
  | ok a =>
    rw [Play.bind_ok hmw]
    rcases hf a w1 with ⟨e, he, hs⟩ | hs
    · exact Or.inl ⟨e, he, Play.same_frame.trans _ _ _ h1 hs⟩
    · exact Or.inr (Play.same_then_stepped h1 hs)

/-- Steps that leave the index alone may come after a computation that reads it once. -/
theorem Play.readsOnce_then_same {α β : Type} {m : Play σ α} {f : α → Play σ β}
    (hm : Play.ReadsOnce m) (hf : ∀ a, Play.Rel Play.Same (f a)) :
    Play.ReadsOnce (m >>= f) := by
  intro w
  have h1 := hm w
  rcases hmw : m w with ⟨r, w1⟩
  rw [hmw] at h1
  cases r with
  | error e =>
    rw [Play.bind_error hmw]
    rcases h1 with ⟨e1, he, hs⟩ | hs
    · exact Or.inl ⟨e, rfl, hs⟩
    · exact Or.inr hs
  | ok a =>
    rw [Play.bind_ok hmw]
    rcases h1 with ⟨e1, he, hs⟩ | hs
    · simp at he
    · exact Or.inr (Play.stepped_then_same hs (hf a w1))

theorem assignStatic_readsOnce (podName : String) (options : PlayKubeOptions)
    (podOpt : PodCreateOptions) :
    Play.ReadsOnce (σ := σ) (assignStatic podName options podOpt) := by
  intro w
  rw [assignStatic_apply]
  refine Or.inr ⟨rfl, _, rfl, ?_⟩
  have hw : indexReads (staticWarnings options w.ipIndex) = [] := by
    refine indexReads_eq_nil _ ?_
    intro e he n k h
    obtain ⟨t, ht⟩ := staticWarnings_warn options _ e he
    rw [ht] at h
    cases h
  show indexReads (_ :: _) = _
  simp [indexReads] at hw ⊢
  exact hw

variable (B : Backend σ)

theorem podSetup_readsOnce (podName : String) (podYAML : PodTemplateSpec)
    (options : PlayKubeOptions) : Play.ReadsOnce (podSetup B podName podYAML options) := by
  unfold podSetup
  refine Play.readsOnce_after_same (Play.Rel.quiet Play.same_frame _) (fun _ => ?_)
  split
  · exact Play.readsOnce_fail _
  · dsimp only
    refine Play.readsOnce_after_same (Play.Rel.quiet Play.same_frame _) (fun _ => ?_)
    refine Play.readsOnce_after_same (Play.Rel.lift Play.same_frame _) (fun _ => ?_)
    refine Play.readsOnce_then_same (assignStatic_readsOnce _ _ _) (fun _ => ?_)
    repeat first
      | exact Play.Rel.pure Play.same_frame _
      | exact Play.Rel.quiet Play.same_frame _
      | exact readConfigMaps_rel B Play.same_frame _ _
      | exact setupInfra_rel B Play.same_frame (by intro i pol o r n k h; cases h) _ _ _
      | exact Play.Rel.invoke Play.same_frame _ _ (by simp)
      | refine Play.Rel.bind Play.same_frame ?_ (fun _ => ?_)

/-- One run of `playKubePod` reads the index at most once, and exactly once when it
succeeds; the index then advances by one. -/
theorem playKubePod_readsOnce (podName : String) (podYAML : PodTemplateSpec)
    (options : PlayKubeOptions) (annotations : List (String × String)) :
    Play.ReadsOnce (playKubePod B podName podYAML options annotations) := by
  unfold playKubePod
  refine Play.readsOnce_then_same (podSetup_readsOnce B _ _ _) (fun ctx => ?_)
  refine Play.Rel.bind Play.same_frame
    (containerLoop_rel B Play.same_frame (by intro e he n k h; rw [h] at he; exact he)
      _ _ _ _ _) (fun cs => ?_)
  exact startAndReport_rel B Play.same_frame _
    (by intro e he n k h; rw [h] at he; exact he) _ _ _

theorem playKubePod_counts (podName : String) (podYAML : PodTemplateSpec)
    (options : PlayKubeOptions) (annotations : List (String × String)) :
    Play.Rel Play.Counts (playKubePod B podName podYAML options annotations) := by
  refine playKubePod_rel B Play.counts_frame _ _ _ _ ?_ ?_ ?_ ?_
  · intro e he n k h; rw [h] at he; exact he
  · intro e he n k h; rw [h] at he; exact he
  · intro pod e he n k h; rw [h] at he; exact he
  · intro podOpt; exact assignStatic_counts _ _ _

end Index

section PlayIndex

variable {σ : Type} (B : Backend σ) (Y : Codec)

theorem Play.quiet_trace {α : Type} {op : σ → Except Err α × σ} {w w1 : World σ}
    {r : Except Err α} (h : Play.quiet op w = (r, w1)) : w1.trace = w.trace := by
  have := Play.invoke_trace h
  simpa using this

theorem documentLoop_counts (path : String) (options : PlayKubeOptions) (docs : List Document)
    (report : PlayKubeReport) (validKinds : Nat) :
    Play.Rel Play.Counts (documentLoop B Y path options docs report validKinds) :=
  documentLoop_rel B Y Play.counts_frame path options
    (by intro t n k h; cases h) (by intro o r n k h; cases h)
    (fun _ _ _ => playKubePod_counts B _ _ _ _) docs report validKinds

/-- C6: in one `PlayKube` call the indices read by the static-address step are, in the
order of the reads, 0, 1, 2, ..., whatever the pools contain; and every run of `playKubePod`,
for a Pod document or for a replica of a Deployment, reads the index at most once, exactly
once when it succeeds, and then advances it by exactly one. -/
theorem PlayKube_index (path : String) (options : PlayKubeOptions) :
    (∀ w : World σ, ∃ evs, (PlayKube B Y path options w).2.trace = w.trace ++ evs ∧
      indexReads evs = List.range (indexReads evs).length) ∧
    (∀ podName podYAML annotations,
      Play.ReadsOnce (playKubePod B podName podYAML options annotations)) := by
  refine ⟨?_, fun _ _ _ => playKubePod_readsOnce B _ _ _ _⟩
  intro w
  unfold PlayKube
  rcases h1 : Play.quiet (fun s => B.readFile s path) w with ⟨r, w1⟩
  have t1 : w1.trace = w.trace := Play.quiet_trace h1
  cases r with
  | error e => rw [Play.bind_error h1]; exact ⟨[], by simp [t1], rfl⟩
  | ok content =>
    rw [Play.bind_ok h1]
    cases hsplit : splitMultiDocYAML Y content with
    | error e =>
      rw [Play.bind_error (show Play.lift (Except.error e) w1 = (.error e, w1) from rfl)]
      exact ⟨[], by simp [t1], rfl⟩
    | ok docs =>
      rw [Play.bind_ok (show Play.lift (Except.ok docs) w1 = (.ok docs, w1) from rfl)]
      cases hsort : sortKubeKinds Y docs with
      | error e =>
        rw [Play.bind_error (show (Play.lift (Except.error e)).mapErr
            (Err.wrap ("unable to sort kube kinds in " ++ quoted path)) w1 =
            (.error (.wrap ("unable to sort kube kinds in " ++ quoted path) e), w1) from rfl)]
        exact ⟨[], by simp [t1], rfl⟩
      | ok sorted =>
        rw [Play.bind_ok (show (Play.lift (Except.ok sorted)).mapErr
            (Err.wrap ("unable to sort kube kinds in " ++ quoted path)) w1 =
            (.ok sorted, w1) from rfl)]
        rw [Play.bind_ok (show Play.resetIndex w1 = (.ok (), ⟨w1.backend, 0, w1.trace⟩) from rfl)]
        obtain ⟨evs, h2, -, h3⟩ :=
          documentLoop_counts B Y path options sorted PlayKubeReport.empty 0
            ⟨w1.backend, 0, w1.trace⟩
        have hrange : indexReads evs = List.range (indexReads evs).length := by
          rw [h3]
          simp [List.range_eq_range']
        rcases h4 : documentLoop B Y path options sorted PlayKubeReport.empty 0
          ⟨w1.backend, 0, w1.trace⟩ with ⟨r, w2⟩
        rw [h4] at h2
        have t2 : w2.trace = w.trace ++ evs := by rw [h2, t1]
        cases r with
        | error e => rw [Play.bind_error h4]; exact ⟨evs, t2, hrange⟩
        | ok played =>
          rw [Play.bind_ok h4]
          refine ⟨evs, ?_, hrange⟩
          rw [← t2]
          split <;> rfl

end PlayIndex

/-- C6 at a manifest with the pod `a`, the deployment `web` of three replicas and a volume
claim: the four pods read the indices 0, 1, 2, 3. -/
theorem PlayKube_index_witness :
    indexReads (PlayKube sampleBackend sampleCodec
        "Pod/a;Deployment/web;PersistentVolumeClaim/v" sampleOptions sampleWorld).2.trace =
      [0, 1, 2, 3] ∧
    ∃ evs, (PlayKube sampleBackend sampleCodec "Pod/a;Deployment/web;PersistentVolumeClaim/v"
        sampleOptions sampleWorld).2.trace = sampleWorld.trace ++ evs ∧
      indexReads evs = List.range (indexReads evs).length :=
  ⟨by decide!,
    (PlayKube_index sampleBackend sampleCodec "Pod/a;Deployment/web;PersistentVolumeClaim/v"
      sampleOptions).1 sampleWorld⟩

/-! ### Static addresses -/

section StaticAddresses

variable {σ : Type}

/-- C7: for the pod with index `k` (the value of the shared index when the static-address
step runs), the step succeeds, advances the index, and binds the pod to entry `k` of the
static-IP pool exactly when `k` is below the length of the pool; otherwise the static IP of
the pod options is left as it was; and the warning about exhausted static IPs is recorded
exactly when the pool is non-empty and `k` is at least its length. -/
theorem assignStatic_ip (podName : String) (options : PlayKubeOptions)
    (podOpt : PodCreateOptions) (w : World σ) :
    ∃ podOpt1 evs,
      assignStatic podName options podOpt w =
        (.ok podOpt1, ⟨w.backend, w.ipIndex + 1, w.trace ++ evs⟩) ∧
      (∀ h : w.ipIndex < options.staticIPs.length,
        podOpt1.net.staticIP = some (options.staticIPs.get ⟨w.ipIndex, h⟩)) ∧
      (options.staticIPs.length ≤ w.ipIndex → podOpt1.net.staticIP = podOpt.net.staticIP) ∧
      (Event.warn "No more static ips left using a random one" ∈ evs ↔
        options.staticIPs ≠ [] ∧ options.staticIPs.length ≤ w.ipIndex) := by
  refine ⟨_, _, assignStatic_apply podName options podOpt w, ?_, ?_, ?_⟩
  · intro h
    have hmac : ∀ p : PodCreateOptions,
        (bindStaticMAC options w.ipIndex p).net.staticIP = p.net.staticIP := by
      intro p; unfold bindStaticMAC; split <;> rfl
    rw [hmac]
    simp [bindStaticIP, h, List.getElem?_eq_getElem h]
  · intro h
    have hmac : ∀ p : PodCreateOptions,
        (bindStaticMAC options w.ipIndex p).net.staticIP = p.net.staticIP := by
      intro p; unfold bindStaticMAC; split <;> rfl
    rw [hmac]
    simp [bindStaticIP, Nat.not_lt.mpr h]
  · have hne : "No more static ips left using a random one" ≠
        "No more static macs left using a random one" := by decide
    by_cases h1 : options.staticIPs.length > w.ipIndex
    · have h2 : options.staticIPs ≠ [] := by
        intro h; rw [h] at h1; simp at h1
      have h3 : ¬ options.staticIPs.length ≤ w.ipIndex := by omega
      by_cases h4 : options.staticMACs.length > w.ipIndex
      · simp [staticWarnings, h1, h4, h3]
      · have h5 : options.staticIPs.length > 0 := by omega
        simp [staticWarnings, h1, h4, h3, h5, hne]
    · have h3 : options.staticIPs.length ≤ w.ipIndex := by omega
      by_cases h5 : options.staticIPs.length > 0
      · have h2 : options.staticIPs ≠ [] := by
          intro h; rw [h] at h5; simp at h5
        by_cases h4 : options.staticMACs.length > w.ipIndex
        · simp [staticWarnings, h1, h4, h3, h5, h2]
        · simp [staticWarnings, h1, h4, h3, h5, h2]
      · have h2 : options.staticIPs = [] := by
          cases hs : options.staticIPs with
          | nil => rfl
          | cons a l => rw [hs] at h5; simp at h5
        by_cases h4 : options.staticMACs.length > w.ipIndex
        · simp [staticWarnings, h1, h4, h5, h2]
        · simp [staticWarnings, h4, h2]

end StaticAddresses

/-- C7 at a static-IP pool of length 1 over the two pods `a` and `b`: the pod with index 0
is bound to the configured address, the pod with index 1 keeps an unset static IP, and the
run records the warning once. -/
theorem assignStatic_ip_witness :
    (∃ podOpt1 evs,
      assignStatic "b" oneIPOptions samplePodOpt (⟨0, 1, []⟩ : World Nat) =
        (.ok podOpt1, ⟨0, 1 + 1, [] ++ evs⟩) ∧
      (∀ h : 1 < oneIPOptions.staticIPs.length,
        podOpt1.net.staticIP = some (oneIPOptions.staticIPs.get ⟨1, h⟩)) ∧
      (oneIPOptions.staticIPs.length ≤ 1 → podOpt1.net.staticIP = samplePodOpt.net.staticIP) ∧
      (Event.warn "No more static ips left using a random one" ∈ evs ↔
        oneIPOptions.staticIPs ≠ [] ∧ oneIPOptions.staticIPs.length ≤ 1)) ∧
    staticIPsRequested (PlayKube sampleBackend sampleCodec "Pod/a;Pod/b" oneIPOptions
      sampleWorld).2.trace = [some [10, 0, 0, 5], none] ∧
    (PlayKube sampleBackend sampleCodec "Pod/a;Pod/b" oneIPOptions sampleWorld).2.trace.count
      (Event.warn "No more static ips left using a random one") = 1 :=
  ⟨assignStatic_ip "b" oneIPOptions samplePodOpt ⟨0, 1, []⟩, by decide!, by decide!⟩

/-- C8 does not hold of the code: the warning about exhausted static MACs depends on the
static-IP pool. With a MAC pool of one address and no IP pool, the pod with index 1 gets no
warning although the MAC pool is non-empty and exhausted; with an IP pool of one address and
no MAC pool, the pod with index 0 gets the warning although the MAC pool is empty. -/
theorem staticMAC_warning_reads_ip_pool :
    oneMACOptions.staticMACs ≠ [] ∧ oneMACOptions.staticMACs.length ≤ 1 ∧
      staticWarnings oneMACOptions 1 = [] ∧
      (assignStatic "b" oneMACOptions samplePodOpt (⟨0, 1, []⟩ : World Nat)).2.trace =
        [Event.staticIndex "b" 1] ∧
    oneIPOptions.staticMACs = [] ∧
      staticWarnings oneIPOptions 0 =
        [Event.warn "No more static macs left using a random one"] ∧
      (assignStatic "a" oneIPOptions samplePodOpt (⟨0, 0, []⟩ : World Nat)).2.trace =
        [Event.staticIndex "a" 0, Event.warn "No more static macs left using a random one"] := by
  refine ⟨by decide, by decide, by decide, by decide!, by decide, by decide, by decide!⟩

/-! ### Manifests without a supported kind -/

section Unsupported

variable {σ : Type} (B : Backend σ) (Y : Codec)

/-- A document of a kind other than Pod, Deployment and PersistentVolumeClaim is skipped:
the loop leaves a notice in the record and goes on with the report and the count of
supported kinds unchanged. -/
theorem documentLoop_skip (path : String) (options : PlayKubeOptions) (d : Document)
    (rest : List Document) (report : PlayKubeReport) (validKinds : Nat) (w : World σ)
    (k : String) (hk : getKubeKind Y d = .ok k) (h1 : k ≠ "Pod") (h2 : k ≠ "Deployment")
    (h3 : k ≠ "PersistentVolumeClaim") :
    documentLoop B Y path options (d :: rest) report validKinds w =
      documentLoop B Y path options rest report validKinds
        ⟨w.backend, w.ipIndex, w.trace ++ [Event.info ("kube kind " ++ k ++ " not supported")]⟩ := by
  rw [documentLoop]
  rw [Play.bind_ok (show (Play.lift (getKubeKind Y d)).mapErr
      (Err.wrap ("unable to read " ++ quoted path ++ " as kube YAML")) w = (.ok k, w) by
    rw [hk]; rfl)]
  simp only [h1, h2, h3, if_false]
  rfl

/-- A list of documents of unsupported kinds is played without any call to the backend:
the loop returns the report and the count it was given, and leaves one notice per
document in the record. -/
theorem documentLoop_unsupported (path : String) (options : PlayKubeOptions)
    (docs : List Document)
    (h : ∀ d ∈ docs, ∃ k, getKubeKind Y d = .ok k ∧ k ≠ "Pod" ∧ k ≠ "Deployment" ∧
      k ≠ "PersistentVolumeClaim") :
    ∀ (report : PlayKubeReport) (validKinds : Nat) (w : World σ),
      ∃ evs, documentLoop B Y path options docs report validKinds w =
          (.ok (report, validKinds), ⟨w.backend, w.ipIndex, w.trace ++ evs⟩) ∧
        evs.length = docs.length ∧ ∀ e ∈ evs, ∃ t, e = Event.info t := by
  induction docs with
  | nil =>
    intro report validKinds w
    exact ⟨[], by simp [documentLoop, Play.pure_apply], rfl, by simp⟩
  | cons d ds ih =>
    intro report validKinds w
    obtain ⟨k, hk, h1, h2, h3⟩ := h d (List.mem_cons_self d ds)
    rw [documentLoop_skip B Y path options d ds report validKinds w k hk h1 h2 h3]
    obtain ⟨evs, he, hl, hi⟩ := ih (fun x hx => h x (List.mem_cons_of_mem d hx)) report
      validKinds ⟨w.backend, w.ipIndex, w.trace ++ [Event.info ("kube kind " ++ k ++ " not supported")]⟩
    refine ⟨Event.info ("kube kind " ++ k ++ " not supported") :: evs, ?_, by simp [hl], ?_⟩
    · rw [he]; simp
    · intro e he
      rcases List.mem_cons.mp he with rfl | h
      · exact ⟨_, rfl⟩
      · exact hi e h

/-- C9: when the manifest is read and split into documents each of which has a kind other
than Pod, Deployment and PersistentVolumeClaim, `PlayKube` fails with the error "YAML
document does not contain any supported kube kind", so it returns no report; what it
leaves in the record is one informational notice per document, hence no pod, container or
volume creation call; and in any manifest a document of such a kind is skipped with a
notice, the report and the count of supported kinds unchanged. -/
theorem PlayKube_no_supported_kind (path : String) (options : PlayKubeOptions) (w : World σ)
    (content : String) (s1 : σ) (docs : List Document)
    (hread : B.readFile w.backend path = (.ok content, s1))
    (hsplit : splitMultiDocYAML Y content = .ok docs)
    (hkinds : ∀ d ∈ docs, ∃ k, getKubeKind Y d = .ok k ∧ k ≠ "Pod" ∧ k ≠ "Deployment" ∧
      k ≠ "PersistentVolumeClaim") :
    (∃ evs, PlayKube B Y path options w =
        (.error (.msg "YAML document does not contain any supported kube kind"),
          ⟨s1, 0, w.trace ++ evs⟩) ∧
      evs.length = docs.length ∧ (∀ e ∈ evs, ∃ t, e = Event.info t) ∧
      ∀ e ∈ evs, e.isCreation = false) ∧
    (∀ (d : Document) (rest : List Document) (report : PlayKubeReport) (validKinds : Nat)
        (w0 : World σ) (k : String), getKubeKind Y d = .ok k → k ≠ "Pod" → k ≠ "Deployment" →
        k ≠ "PersistentVolumeClaim" →
      documentLoop B Y path options (d :: rest) report validKinds w0 =
        documentLoop B Y path options rest report validKinds
          ⟨w0.backend, w0.ipIndex,
            w0.trace ++ [Event.info ("kube kind " ++ k ++ " not supported")]⟩) := by
  refine ⟨?_, fun d rest report validKinds w0 k hk h1 h2 h3 =>
    documentLoop_skip B Y path options d rest report validKinds w0 k hk h1 h2 h3⟩
  have hall : ∀ d ∈ docs, ∃ k, getKubeKind Y d = .ok k :=
    fun d hd => (hkinds d hd).imp (fun _ h => h.1)
  have hnot : ∀ d ∈ docs, isPodOrDeployment Y d = false := by
    intro d hd
    obtain ⟨k, hk, h1, h2, -⟩ := hkinds d hd
    simp [isPodOrDeployment, hk, h1, h2]
  have hsort : sortKubeKinds Y docs = .ok docs.reverse := by
    have := sortLoop_eq Y docs [] hall
    have hf1 : docs.filter (fun d => !isPodOrDeployment Y d) = docs := by
      rw [List.filter_eq_self]; intro d hd; simp [hnot d hd]
    have hf2 : docs.filter (fun d => isPodOrDeployment Y d) = [] := by
      rw [List.filter_eq_nil_iff]; intro d hd; simp [hnot d hd]
    rw [hf1, hf2] at this
    simpa [sortKubeKinds] using this
  have hrev : ∀ d ∈ docs.reverse, ∃ k, getKubeKind Y d = .ok k ∧ k ≠ "Pod" ∧
      k ≠ "Deployment" ∧ k ≠ "PersistentVolumeClaim" :=
    fun d hd => hkinds d (List.mem_reverse.mp hd)
  obtain ⟨evs, he, hl, hi⟩ := documentLoop_unsupported B Y path options docs.reverse hrev
    PlayKubeReport.empty 0 ⟨s1, 0, w.trace⟩
  refine ⟨evs, ?_, by simpa using hl, hi, ?_⟩
  · unfold PlayKube
    rw [Play.bind_ok (show Play.quiet (fun s => B.readFile s path) w =
        (.ok content, ⟨s1, w.ipIndex, w.trace⟩) by
      simp [Play.quiet, Play.invoke, hread])]
    rw [Play.bind_ok (show Play.lift (splitMultiDocYAML Y content) _ = (.ok docs, _) by
      rw [hsplit]; rfl)]
    rw [Play.bind_ok (show (Play.lift (sortKubeKinds Y docs)).mapErr _ _ =
        (.ok docs.reverse, _) by
      rw [hsort]; rfl)]
    rw [Play.bind_ok (show Play.resetIndex (⟨s1, w.ipIndex, w.trace⟩ : World σ) =
      (.ok (), ⟨s1, 0, w.trace⟩) from rfl)]
    rw [Play.bind_ok he]
    rfl
  · intro e he
    obtain ⟨t, ht⟩ := hi e he
    rw [ht]
    rfl

end Unsupported

/-- C9 at the manifest that holds only a ConfigMap: `PlayKube` fails with the error about
the missing supported kind and leaves one notice in the record. -/
theorem PlayKube_no_supported_kind_witness :
    sampleBackend.readFile sampleWorld.backend "ConfigMap/settings" =
        (.ok "ConfigMap/settings", 0) ∧
      splitMultiDocYAML sampleCodec "ConfigMap/settings" = .ok ["ConfigMap/settings"] ∧
      PlayKube sampleBackend sampleCodec "ConfigMap/settings" sampleOptions sampleWorld =
        (.error (.msg "YAML document does not contain any supported kube kind"),
          ⟨0, 0, [Event.info "kube kind ConfigMap not supported"]⟩) ∧
      ∃ evs, PlayKube sampleBackend sampleCodec "ConfigMap/settings" sampleOptions sampleWorld =
          (.error (.msg "YAML document does not contain any supported kube kind"),
            ⟨0, 0, sampleWorld.trace ++ evs⟩) ∧
        evs.length = ["ConfigMap/settings"].length ∧ (∀ e ∈ evs, ∃ t, e = Event.info t) ∧
        ∀ e ∈ evs, e.isCreation = false :=
  ⟨by decide, by decide, by decide!,
    (PlayKube_no_supported_kind sampleBackend sampleCodec "ConfigMap/settings" sampleOptions
      sampleWorld "ConfigMap/settings" 0 ["ConfigMap/settings"] (by decide) (by decide)
      (by
        intro d hd
        rw [List.mem_singleton] at hd
        rw [hd]
        exact ⟨"ConfigMap", by decide, by decide, by decide, by decide⟩)).1⟩

/-! ### Starting the pod -/

section Start

variable {σ : Type} (B : Backend σ)

theorem startPod_off (options : PlayKubeOptions) (pod : LibpodPod) (w : World σ)
    (h : options.start = .optionalBoolFalse) : startPod B options pod w = (.ok [], w) := by
  unfold startPod
  simp only [h, ne_eq, not_true_eq_false, if_false]
  rfl

theorem startPod_fatal (options : PlayKubeOptions) (pod : LibpodPod) (w : World σ)
    (errs : List (String × Err)) (e : Err) (s : σ)
    (h : options.start ≠ .optionalBoolFalse)
    (hps : B.podStart w.backend pod = ((errs, some e), s))
    (hc : e.cause ≠ .podPartialFail) :
    startPod B options pod w =
      (.error e, ⟨s, w.ipIndex, w.trace ++ [Event.podStart pod errs (some e)]⟩) := by
  unfold startPod
  rw [if_pos h]
  rw [Play.bind_ok (show Play.invokeTotal (fun s => B.podStart s pod)
      (fun r => [Event.podStart pod r.1 r.2]) w =
        (.ok (errs, some e), ⟨s, w.ipIndex, w.trace ++ [Event.podStart pod errs (some e)]⟩) by
    simp [Play.invokeTotal, hps])]
  rw [Play.bind_error (show checkStartError (some e)
      (⟨s, w.ipIndex, w.trace ++ [Event.podStart pod errs (some e)]⟩ : World σ) =
        (.error e, ⟨s, w.ipIndex, w.trace ++ [Event.podStart pod errs (some e)]⟩) by
    simp [checkStartError, hc, Play.fail])]

theorem startPod_tolerant (options : PlayKubeOptions) (pod : LibpodPod) (w : World σ)
    (errs : List (String × Err)) (err : Option Err) (s : σ)
    (h : options.start ≠ .optionalBoolFalse)
    (hps : B.podStart w.backend pod = ((errs, err), s))
    (hc : ∀ e, err = some e → e.cause = .podPartialFail) :
    ∃ prints, startPod B options pod w =
        (.ok (errs.map (fun e => (Err.wrap ("error starting container " ++ e.1) e.2).text)),
          ⟨s, w.ipIndex, w.trace ++ Event.podStart pod errs err :: prints⟩) ∧
      ∀ e ∈ prints, ∃ lines, e = Event.println lines := by
  unfold startPod
  rw [if_pos h]
  rw [Play.bind_ok (show Play.invokeTotal (fun s => B.podStart s pod)
      (fun r => [Event.podStart pod r.1 r.2]) w =
        (.ok (errs, err), ⟨s, w.ipIndex, w.trace ++ [Event.podStart pod errs err]⟩) by
    simp [Play.invokeTotal, hps])]
  rw [Play.bind_ok (show checkStartError err
      (⟨s, w.ipIndex, w.trace ++ [Event.podStart pod errs err]⟩ : World σ) =
        (.ok (), ⟨s, w.ipIndex, w.trace ++ [Event.podStart pod errs err]⟩) by
    cases err with
    | none => rfl
    | some e => simp [checkStartError, hc e rfl, Play.pure_apply])]
  refine ⟨(List.range (errs.map
      (fun e => (Err.wrap ("error starting container " ++ e.1) e.2).text)).length).map
    (fun i => Event.println ((errs.map
      (fun e => (Err.wrap ("error starting container " ++ e.1) e.2).text)).take (i + 1))),
    ?_, ?_⟩
  · simp only [Play.bind_apply, Play.emit, Play.pure_apply, List.append_assoc,
      List.singleton_append]
  · intro e he
    simp only [List.mem_map] at he
    obtain ⟨i, -, hi⟩ := he
    exact ⟨_, hi.symm⟩

/-- What `startAndReport` adds to the record, and how its result follows from the outcome
of `pod.Start`. -/
theorem startAndReport_cases (options : PlayKubeOptions) (pod : LibpodPod)
    (containers : List LibpodContainer) (logs : List String) (w : World σ) :
    ∃ evs, (startAndReport B options pod containers logs w).2.trace = w.trace ++ evs ∧
      (options.start = .optionalBoolFalse → evs = []) ∧
      ∀ pod1 errs e, Event.podStart pod1 errs (some e) ∈ evs →
        (e.cause = .podPartialFail →
          ∃ entry, (startAndReport B options pod containers logs w).1 =
              .ok ⟨[entry], [], [], []⟩ ∧
            entry.id = pod1.id ∧ entry.containerErrors.length = errs.length) ∧
        (e.cause ≠ .podPartialFail →
          (startAndReport B options pod containers logs w).1 = .error e) := by
  unfold startAndReport
  by_cases h : options.start = .optionalBoolFalse
  · rw [Play.bind_ok (startPod_off B options pod w h)]
    exact ⟨[], by simp [Play.pure_apply], fun _ => rfl, by simp⟩
  · rcases hps : B.podStart w.backend pod with ⟨⟨errs0, err0⟩, s⟩
    by_cases hc : ∀ e, err0 = some e → e.cause = .podPartialFail
    · obtain ⟨prints, hrun, hprints⟩ := startPod_tolerant B options pod w errs0 err0 s h hps hc
      rw [Play.bind_ok hrun]
      refine ⟨Event.podStart pod errs0 err0 :: prints, rfl, fun h1 => absurd h1 h, ?_⟩
      intro pod1 errs e he
      rcases List.mem_cons.mp he with h1 | h1
      · cases h1
        refine ⟨fun _ => ⟨_, rfl, rfl, by simp⟩, fun h2 => absurd (hc e rfl) h2⟩
      · obtain ⟨lines, hl⟩ := hprints _ h1
        cases hl
    · simp only [not_forall] at hc
      obtain ⟨e0, he0, hc0⟩ := hc
      subst he0
      rw [Play.bind_error (startPod_fatal B options pod w errs0 e0 s h hps hc0)]
      refine ⟨[Event.podStart pod errs0 (some e0)], rfl, fun h1 => absurd h1 h, ?_⟩
      intro pod1 errs e he
      rw [List.mem_singleton] at he
      cases he
      exact ⟨fun h2 => absurd h2 hc0, fun _ => rfl⟩

/-- Before the pod is started, `playKubePod` issues no `pod.Start`. -/
theorem podSetup_no_podStart (podName : String) (podYAML : PodTemplateSpec)
    (options : PlayKubeOptions) :
    Play.Emits (fun e => e.isPodStart = false) (podSetup B podName podYAML options) := by
  refine podSetup_rel B (Play.appends_frame _) _ _ _ ?_ ?_
  · intro e he
    cases e <;> first | rfl | exact he.elim
  · intro podOpt
    refine assignStatic_emits _ _ _ _ ?_
    intro e he
    cases e <;> first | rfl | exact he.elim

theorem containerLoop_no_podStart (options : PlayKubeOptions)
    (annotations : List (String × String)) (ctx : PodContext) (cs : List Container)
    (acc : List LibpodContainer) :
    Play.Emits (fun e => e.isPodStart = false)
      (containerLoop B options annotations ctx cs acc) := by
  refine containerLoop_rel B (Play.appends_frame _) ?_ _ _ _ _ _
  intro e he
  cases e <;> first | rfl | exact he.elim

/-- C10: in every run of `playKubePod`, when the caller set `Start` to false no `pod.Start`
is issued; when `pod.Start` returned the partial-failure error together with `m`
per-container errors, the run succeeds with one report entry that carries the id of the pod
and exactly `m` container-error entries; and when `pod.Start` returned any other error,
the run fails with that error and returns no report. -/
theorem playKubePod_start (podName : String) (podYAML : PodTemplateSpec)
    (options : PlayKubeOptions) (annotations : List (String × String)) (w : World σ) :
    ∃ evs, (playKubePod B podName podYAML options annotations w).2.trace = w.trace ++ evs ∧
      (options.start = .optionalBoolFalse → ∀ e ∈ evs, e.isPodStart = false) ∧
      (∀ pod errs e, Event.podStart pod errs (some e) ∈ evs → e.cause = .podPartialFail →
        ∃ entry, (playKubePod B podName podYAML options annotations w).1 =
            .ok ⟨[entry], [], [], []⟩ ∧
          entry.id = pod.id ∧ entry.containerErrors.length = errs.length) ∧
      (∀ pod errs e, Event.podStart pod errs (some e) ∈ evs → e.cause ≠ .podPartialFail →
        (playKubePod B podName podYAML options annotations w).1 = .error e) := by
  unfold playKubePod
  obtain ⟨ea, hea, hpa⟩ := podSetup_no_podStart B podName podYAML options w
  rcases h1 : podSetup B podName podYAML options w with ⟨r1, wa⟩
  rw [h1] at hea
  have quietly : ∀ (evs : List Event), (∀ e ∈ evs, e.isPodStart = false) →
      ∀ pod errs e, Event.podStart pod errs (some e) ∉ evs := by
    intro evs h pod errs e he
    have := h _ he
    simp [Event.isPodStart] at this
  cases r1 with
  | error e1 =>
    rw [Play.bind_error h1]
    exact ⟨ea, hea, fun _ => hpa, fun pod errs e he => absurd he (quietly ea hpa pod errs e),
      fun pod errs e he => absurd he (quietly ea hpa pod errs e)⟩
  | ok ctx =>
    rw [Play.bind_ok h1]
    obtain ⟨eb, heb, hpb⟩ :=
      containerLoop_no_podStart B options annotations ctx podYAML.containers [] wa
    rcases h2 : containerLoop B options annotations ctx podYAML.containers [] wa with ⟨r2, wb⟩
    rw [h2] at heb
    have hab : ∀ e ∈ ea ++ eb, e.isPodStart = false := by
      intro e he
      rcases List.mem_append.mp he with h | h
      · exact hpa e h
      · exact hpb e h
    cases r2 with
    | error e2 =>
      rw [Play.bind_error h2]
      exact ⟨ea ++ eb, by rw [heb, hea, List.append_assoc], fun _ => hab,
        fun pod errs e he => absurd he (quietly _ hab pod errs e),
        fun pod errs e he => absurd he (quietly _ hab pod errs e)⟩
    | ok cs =>
      rw [Play.bind_ok h2]
      obtain ⟨ec, hec, hoff, hstart⟩ := startAndReport_cases B options ctx.pod cs ctx.logs wb
      refine ⟨ea ++ (eb ++ ec), by rw [hec, heb, hea, List.append_assoc, List.append_assoc],
        ?_, ?_, ?_⟩
      · intro h e he
        rw [hoff h, List.append_nil] at he
        exact hab e he
      · intro pod errs e he hc
        rw [← List.append_assoc] at he
        rcases List.mem_append.mp he with h | h
        · exact absurd h (quietly _ hab pod errs e)
        · exact (hstart pod errs e h).1 hc
      · intro pod errs e he hc
        rw [← List.append_assoc] at he
        rcases List.mem_append.mp he with h | h
        · exact absurd h (quietly _ hab pod errs e)
        · exact (hstart pod errs e h).2 hc

end Start

/-- C10 at a pod of three containers: when `pod.Start` reports the partial failure with one
failing container, the run succeeds with the pod id and one container error; when it
reports another error, the run fails with it; and with `Start` set to false the record
holds no `pod.Start`. -/
theorem playKubePod_start_witness :
    (playKubePod partialStartBackend "web" (sampleTemplate ["front", "db", "cache"])
        sampleOptions [] sampleWorld).1 =
      .ok ⟨[⟨"pod0", ["ctr1", "ctr2", "ctr3"], ["error starting container ctr2: cannot start"],
        []⟩], [], [], []⟩ ∧
    (playKubePod failedStartBackend "web" (sampleTemplate ["front", "db", "cache"])
        sampleOptions [] sampleWorld).1 = .error (.msg "pod is in a bad state") ∧
    (playKubePod sampleBackend "web" (sampleTemplate ["front", "db", "cache"])
        noStartOptions [] sampleWorld).2.trace.all (fun e => !e.isPodStart) = true ∧
    ∃ evs, (playKubePod partialStartBackend "web" (sampleTemplate ["front", "db", "cache"])
        sampleOptions [] sampleWorld).2.trace = sampleWorld.trace ++ evs ∧
      Event.podStart ⟨"pod0"⟩ [("ctr2", Err.msg "cannot start")]
        (some (Err.wrap "error starting some containers" Err.podPartialFail)) ∈ evs := by
  refine ⟨by decide!, by decide!, by decide!, ?_⟩
  obtain ⟨evs, h, -⟩ := playKubePod_start partialStartBackend "web"
    (sampleTemplate ["front", "db", "cache"]) sampleOptions [] sampleWorld
  refine ⟨evs, h, ?_⟩
  have hm : Event.podStart ⟨"pod0"⟩ [("ctr2", Err.msg "cannot start")]
      (some (Err.wrap "error starting some containers" Err.podPartialFail)) ∈
      (playKubePod partialStartBackend "web" (sampleTemplate ["front", "db", "cache"])
        sampleOptions [] sampleWorld).2.trace := by decide!
  rw [h] at hm
  simpa [sampleWorld] using hm

/-! ### Volume claims -/

theorem trimSpace_blank (s : String) (h : ∀ c ∈ s.toList, isSpace c = true) :
    trimSpace s = "" := by
  unfold trimSpace
  have : s.toList.dropWhile isSpace = [] := by
    rw [List.dropWhile_eq_nil_iff]
    exact h
  rw [this]
  rfl

/-- The loop over the annotations of a claim only appends to the volume options. -/
theorem pvcAnnotations_extends {σ : Type} (B : Backend σ) (ann : List (String × String)) :
    ∀ (vo : List VolumeCreateOption) (opts : List (String × String))
      (vo1 : List VolumeCreateOption) (opts1 : List (String × String)),
      pvcAnnotations B ann vo opts = .ok (vo1, opts1) → ∃ more, vo1 = vo ++ more := by
  induction ann with
  | nil =>
    intro vo opts vo1 opts1 h
    simp [pvcAnnotations] at h
    exact ⟨[], by simp [h.1]⟩
  | cons a rest ih =>
    intro vo opts vo1 opts1 h
    obtain ⟨k, v⟩ := a
    unfold pvcAnnotations at h
    repeat' split at h
    all_goals first
      | exact absurd h (by simp)
      | exact ih _ _ _ _ h
      | (obtain ⟨more, hm⟩ := ih _ _ _ _ h
         rw [List.append_assoc] at hm
         exact ⟨_, hm⟩)

section Claims

variable {σ : Type} (B : Backend σ)

theorem playKubePVC_blank (pvc : PersistentVolumeClaim) (options : PlayKubeOptions)
    (w : World σ) (h : trimSpace pvc.name = "") :
    playKubePVC B pvc options w =
      (.error (.msg "persistent volume claim name can not be empty"), w) := by
  unfold playKubePVC
  simp only [h, if_true]
  rfl

theorem playKubePVC_invalid (pvc : PersistentVolumeClaim) (options : PlayKubeOptions)
    (w : World σ) (e : Err) (h : trimSpace pvc.name ≠ "")
    (ha : pvcAnnotations B pvc.annotations
      [.withVolumeName pvc.name, .withVolumeLabels pvc.labels] [] = .error e) :
    playKubePVC B pvc options w = (.error e, w) := by
  unfold playKubePVC
  simp only [h, if_false]
  rw [Play.bind_error (show Play.lift (pvcAnnotations B pvc.annotations
    [.withVolumeName pvc.name, .withVolumeLabels pvc.labels] []) w = (.error e, w) by
    rw [ha]; rfl)]

theorem playKubePVC_create (pvc : PersistentVolumeClaim) (options : PlayKubeOptions)
    (w : World σ) (vo : List VolumeCreateOption) (opts : List (String × String))
    (h : trimSpace pvc.name ≠ "")
    (ha : pvcAnnotations B pvc.annotations
      [.withVolumeName pvc.name, .withVolumeLabels pvc.labels] [] = .ok (vo, opts)) :
    playKubePVC B pvc options w =
      ((B.newVolume w.backend (vo ++ [.withVolumeOptions opts])).1.map
          (fun vol => ⟨[], [⟨vol⟩], [], []⟩),
        ⟨(B.newVolume w.backend (vo ++ [.withVolumeOptions opts])).2, w.ipIndex,
          w.trace ++ [Event.newVolume (vo ++ [.withVolumeOptions opts])
            (B.newVolume w.backend (vo ++ [.withVolumeOptions opts])).1]⟩) := by
  unfold playKubePVC
  simp only [h, if_false]
  rw [Play.bind_ok (show Play.lift (pvcAnnotations B pvc.annotations
    [.withVolumeName pvc.name, .withVolumeLabels pvc.labels] []) w = (.ok (vo, opts), w) by
    rw [ha]; rfl)]
  rcases hv : B.newVolume w.backend (vo ++ [.withVolumeOptions opts]) with ⟨r, s⟩
  cases r with
  | error e =>
    rw [Play.bind_error (show Play.invoke (fun s => B.newVolume s (vo ++ [.withVolumeOptions opts]))
        (fun r => [Event.newVolume (vo ++ [.withVolumeOptions opts]) r]) w =
        (.error e, ⟨s, w.ipIndex,
          w.trace ++ [Event.newVolume (vo ++ [.withVolumeOptions opts]) (.error e)]⟩) by
      simp [Play.invoke, hv])]
    simp [hv, Except.map, Play.pure_apply, PlayKubeReport.empty]
  | ok vol =>
    rw [Play.bind_ok (show Play.invoke (fun s => B.newVolume s (vo ++ [.withVolumeOptions opts]))
        (fun r => [Event.newVolume (vo ++ [.withVolumeOptions opts]) r]) w =
        (.ok vol, ⟨s, w.ipIndex,
          w.trace ++ [Event.newVolume (vo ++ [.withVolumeOptions opts]) (.ok vol)]⟩) by
      simp [Play.invoke, hv])]
    simp [hv, Except.map, Play.pure_apply, PlayKubeReport.empty]

/-- C11: a claim whose name is empty or consists only of white space makes `playKubePVC`
fail with "persistent volume claim name can not be empty", the backend and the record
untouched, so no volume creation call is issued; a claim whose trimmed name is non-empty
passes the name check: the run goes on to the annotations, whose error, if any, it returns,
and otherwise it issues exactly one volume creation call, whose first option is the
untrimmed name of the claim. -/
theorem playKubePVC_name (pvc : PersistentVolumeClaim) (options : PlayKubeOptions)
    (w : World σ) :
    ((∀ c ∈ pvc.name.toList, isSpace c = true) →
      playKubePVC B pvc options w =
        (.error (.msg "persistent volume claim name can not be empty"), w)) ∧
    (trimSpace pvc.name ≠ "" →
      (∀ e, pvcAnnotations B pvc.annotations
          [.withVolumeName pvc.name, .withVolumeLabels pvc.labels] [] = .error e →
        playKubePVC B pvc options w = (.error e, w)) ∧
      (∀ vo opts, pvcAnnotations B pvc.annotations
          [.withVolumeName pvc.name, .withVolumeLabels pvc.labels] [] = .ok (vo, opts) →
        ∃ request r, (playKubePVC B pvc options w).2.trace =
            w.trace ++ [Event.newVolume request r] ∧
          request.head? = some (.withVolumeName pvc.name))) := by
  refine ⟨fun h => playKubePVC_blank B pvc options w (trimSpace_blank _ h), fun h => ⟨?_, ?_⟩⟩
  · intro e ha
    exact playKubePVC_invalid B pvc options w e h ha
  · intro vo opts ha
    rw [playKubePVC_create B pvc options w vo opts h ha]
    refine ⟨_, _, rfl, ?_⟩
    obtain ⟨more, hm⟩ := pvcAnnotations_extends B _ _ _ _ _ ha
    rw [hm]
    rfl

end Claims

/-- C11 at the claim named `data` with the uid annotation, and at a claim with a blank name:
the first creates the volume `data` with uid 1000, the second fails and issues nothing. -/
theorem playKubePVC_name_witness :
    (∀ c ∈ blankClaim.name.toList, isSpace c = true) ∧
    playKubePVC sampleBackend blankClaim sampleOptions sampleWorld =
      (.error (.msg "persistent volume claim name can not be empty"), sampleWorld) ∧
    trimSpace dataClaim.name ≠ "" ∧
    playKubePVC sampleBackend dataClaim sampleOptions sampleWorld =
      (.ok ⟨[], [⟨"data"⟩], [], []⟩,
        ⟨1, 0, [Event.newVolume [.withVolumeName "data", .withVolumeLabels [],
          .withVolumeUID 1000, .withVolumeOptions [("UID", "1000")]] (.ok "data")]⟩) := by
  have hb : ∀ c ∈ blankClaim.name.toList, isSpace c = true := by decide
  exact ⟨hb, (playKubePVC_name sampleBackend blankClaim sampleOptions sampleWorld).1 hb,
    by decide, by decide!⟩

section ClaimAnnotations

variable {σ : Type} (B : Backend σ)

/-- When the uid and gid annotations parse, the loop over the annotations succeeds: it
appends the volume option of each annotation and sets the option of each annotation. -/
theorem pvcAnnotations_ok (ann : List (String × String)) :
    ∀ (vo : List VolumeCreateOption) (opts : List (String × String)),
      (∀ v, (B.volumeUIDAnnotation, v) ∈ ann → ∃ n, atoi v = .ok n) →
      (∀ v, (B.volumeGIDAnnotation, v) ∈ ann → ∃ n, atoi v = .ok n) →
      pvcAnnotations B ann vo opts =
        .ok (vo ++ ann.filterMap (fun e => volumeOptionOf B e.1 e.2), optionsAfter B ann opts) := by
  induction ann with
  | nil => intro vo opts _ _; simp [pvcAnnotations, optionsAfter]
  | cons a rest ih =>
    intro vo opts hu hg
    obtain ⟨k, v⟩ := a
    have hu1 : ∀ v, (B.volumeUIDAnnotation, v) ∈ rest → ∃ n, atoi v = .ok n :=
      fun v hv => hu v (List.mem_cons_of_mem _ hv)
    have hg1 : ∀ v, (B.volumeGIDAnnotation, v) ∈ rest → ∃ n, atoi v = .ok n :=
      fun v hv => hg v (List.mem_cons_of_mem _ hv)
    unfold pvcAnnotations
    by_cases h1 : k = B.volumeDriverAnnotation
    · subst h1
      simp [ih _ _ hu1 hg1, volumeOptionOf, optionsAfter, optionKey]
    by_cases h2 : k = B.volumeDeviceAnnotation
    · subst h2
      simp [h1, ih _ _ hu1 hg1, volumeOptionOf, optionsAfter, optionKey]
    by_cases h3 : k = B.volumeTypeAnnotation
    · subst h3
      simp [h1, h2, ih _ _ hu1 hg1, volumeOptionOf, optionsAfter, optionKey]
    by_cases h4 : k = B.volumeUIDAnnotation
    · subst h4
      obtain ⟨n, hn⟩ := hu v (List.mem_cons_self _ _)
      simp [h1, h2, h3, hn, ih _ _ hu1 hg1, volumeOptionOf, optionsAfter, optionKey]
    by_cases h5 : k = B.volumeGIDAnnotation
    · subst h5
      obtain ⟨n, hn⟩ := hg v (List.mem_cons_self _ _)
      simp [h1, h2, h3, h4, hn, ih _ _ hu1 hg1, volumeOptionOf, optionsAfter, optionKey]
    by_cases h6 : k = B.volumeMountOptsAnnotation
    · subst h6
      simp [h1, h2, h3, h4, h5, ih _ _ hu1 hg1, volumeOptionOf, optionsAfter, optionKey]
    · simp [h1, h2, h3, h4, h5, h6, ih _ _ hu1 hg1, volumeOptionOf, optionsAfter, optionKey]

/-- When a uid or gid annotation does not parse, the loop over the annotations fails. -/
theorem pvcAnnotations_bad (hd : B.volumeKeys.Nodup) (ann : List (String × String)) :
    ∀ (vo : List VolumeCreateOption) (opts : List (String × String)),
      ((∃ v, (B.volumeUIDAnnotation, v) ∈ ann ∧ ∃ e, atoi v = .error e) ∨
        (∃ v, (B.volumeGIDAnnotation, v) ∈ ann ∧ ∃ e, atoi v = .error e)) →
      ∃ e, pvcAnnotations B ann vo opts = .error e := by
  simp only [Backend.volumeKeys, List.nodup_cons, List.mem_cons, List.mem_singleton,
    not_or, List.not_mem_nil, not_false_eq_true, List.nodup_nil, and_true] at hd
  obtain ⟨⟨d1, d2, d3, d4, d5⟩, ⟨e2, e3, e4, e5⟩, ⟨t3, t4, t5⟩, ⟨u4, u5⟩, g5⟩ := hd
  induction ann with
  | nil => intro vo opts h; simp at h
  | cons a rest ih =>
    intro vo opts h
    obtain ⟨k, v⟩ := a
    have hrest : ((∃ v, (B.volumeUIDAnnotation, v) ∈ rest ∧ ∃ e, atoi v = .error e) ∨
        (∃ v, (B.volumeGIDAnnotation, v) ∈ rest ∧ ∃ e, atoi v = .error e)) ∨
        (k = B.volumeUIDAnnotation ∧ ∃ e, atoi v = .error e) ∨
        (k = B.volumeGIDAnnotation ∧ ∃ e, atoi v = .error e) := by
      rcases h with ⟨x, hx, he⟩ | ⟨x, hx, he⟩
      · rcases List.mem_cons.mp hx with h1 | h1
        · cases h1; exact Or.inr (Or.inl ⟨rfl, he⟩)
        · exact Or.inl (Or.inl ⟨x, h1, he⟩)
      · rcases List.mem_cons.mp hx with h1 | h1
        · cases h1; exact Or.inr (Or.inr ⟨rfl, he⟩)
        · exact Or.inl (Or.inr ⟨x, h1, he⟩)
    unfold pvcAnnotations
    rcases hrest with hr | ⟨hk, e, he⟩ | ⟨hk, e, he⟩
    · repeat' split
      all_goals first
        | exact ih _ _ hr
        | exact ⟨_, rfl⟩
    · subst hk
      simp [Ne.symm d3, Ne.symm e3, Ne.symm t3, he]
    · subst hk
      simp [Ne.symm d4, Ne.symm e4, Ne.symm t4, Ne.symm u4, he]

end ClaimAnnotations

section ClaimOptions

variable {σ : Type} (B : Backend σ)

theorem optionKey_some (hd : B.volumeKeys.Nodup) (k key : String) :
    optionKey B k = some key ↔
      (key = "device" ∧ k = B.volumeDeviceAnnotation) ∨
      (key = "type" ∧ k = B.volumeTypeAnnotation) ∨
      (key = "UID" ∧ k = B.volumeUIDAnnotation) ∨
      (key = "GID" ∧ k = B.volumeGIDAnnotation) ∨
      (key = "o" ∧ k = B.volumeMountOptsAnnotation) := by
  simp only [Backend.volumeKeys, List.nodup_cons, List.mem_cons, List.mem_singleton,
    not_or, List.not_mem_nil, not_false_eq_true, List.nodup_nil, and_true] at hd
  obtain ⟨⟨d1, d2, d3, d4, d5⟩, ⟨e2, e3, e4, e5⟩, ⟨t3, t4, t5⟩, ⟨u4, u5⟩, g5⟩ := hd
  unfold optionKey
  by_cases h1 : k = B.volumeDriverAnnotation
  · subst h1
    simp [d1, d2, d3, d4, d5]
  by_cases h2 : k = B.volumeDeviceAnnotation
  · subst h2
    simp [h1, e2, e3, e4, e5, eq_comm]
  by_cases h3 : k = B.volumeTypeAnnotation
  · subst h3
    simp [h1, h2, t3, t4, t5, eq_comm]
  by_cases h4 : k = B.volumeUIDAnnotation
  · subst h4
    simp [h1, h2, h3, u4, u5, eq_comm]
  by_cases h5 : k = B.volumeGIDAnnotation
  · subst h5
    simp [h1, h2, h3, h4, g5, eq_comm]
  by_cases h6 : k = B.volumeMountOptsAnnotation
  · subst h6
    simp [h1, h2, h3, h4, h5, eq_comm]
  · simp [h1, h2, h3, h4, h5, h6]

theorem optionKey_inj (hd : B.volumeKeys.Nodup) (k1 k2 key : String)
    (h1 : optionKey B k1 = some key) (h2 : optionKey B k2 = some key) : k1 = k2 := by
  rw [optionKey_some B hd] at h1 h2
  rcases h1 with ⟨a, b⟩ | ⟨a, b⟩ | ⟨a, b⟩ | ⟨a, b⟩ | ⟨a, b⟩ <;>
    rcases h2 with ⟨c, d⟩ | ⟨c, d⟩ | ⟨c, d⟩ | ⟨c, d⟩ | ⟨c, d⟩ <;>
    first
      | exact absurd (a.symm.trans c) (by decide)
      | rw [b, d]

/-- When no option key is set twice, and none that is already in the map, the option map
after the annotations holds the entries it started with and one entry per annotation that
sets an option. -/
theorem optionsAfter_mem (ann : List (String × String)) :
    ∀ opts : List (String × String),
      (ann.filterMap (fun e => optionKey B e.1)).Nodup →
      (∀ e ∈ opts, e.1 ∉ ann.filterMap (fun e => optionKey B e.1)) →
      ∀ key val, (key, val) ∈ optionsAfter B ann opts ↔
        (key, val) ∈ opts ∨ ∃ k, (k, val) ∈ ann ∧ optionKey B k = some key := by
  induction ann with
  | nil => intro opts _ _ key val; simp [optionsAfter]
  | cons a rest ih =>
    intro opts hn hdis key val
    obtain ⟨k, v⟩ := a
    cases hk : optionKey B k with
    | none =>
      have hf : ((k, v) :: rest).filterMap (fun e => optionKey B e.1) =
          rest.filterMap (fun e => optionKey B e.1) := by
        simp [List.filterMap_cons, hk]
      rw [hf] at hn hdis
      have hstep : optionsAfter B ((k, v) :: rest) opts = optionsAfter B rest opts := by
        simp [optionsAfter, hk]
      rw [hstep, ih opts hn hdis key val]
      constructor
      · rintro (h | ⟨k1, h1, h2⟩)
        · exact Or.inl h
        · exact Or.inr ⟨k1, List.mem_cons_of_mem _ h1, h2⟩
      · rintro (h | ⟨k1, h1, h2⟩)
        · exact Or.inl h
        · rcases List.mem_cons.mp h1 with h3 | h3
          · cases h3
            rw [hk] at h2
            cases h2
          · exact Or.inr ⟨k1, h3, h2⟩
    | some key0 =>
      have hf : ((k, v) :: rest).filterMap (fun e => optionKey B e.1) =
          key0 :: rest.filterMap (fun e => optionKey B e.1) := by
        simp [List.filterMap_cons, hk]
      rw [hf] at hn hdis
      obtain ⟨hnot, hn1⟩ := List.nodup_cons.mp hn
      have hkeep : opts.filter (fun e => e.1 != key0) = opts := by
        rw [List.filter_eq_self]
        intro e he
        have := hdis e he
        simp only [List.mem_cons, not_or] at this
        simpa using this.1
      have hstep : optionsAfter B ((k, v) :: rest) opts =
          optionsAfter B rest (opts ++ [(key0, v)]) := by
        simp [optionsAfter, hk, mapSet, hkeep]
      have hdis1 : ∀ e ∈ opts ++ [(key0, v)],
          e.1 ∉ rest.filterMap (fun e => optionKey B e.1) := by
        intro e he
        rcases List.mem_append.mp he with h | h
        · have := hdis e h
          simp only [List.mem_cons, not_or] at this
          exact this.2
        · rw [List.mem_singleton] at h
          rw [h]
          exact hnot
      rw [hstep, ih _ hn1 hdis1 key val]
      constructor
      · rintro (h | ⟨k1, h1, h2⟩)
        · rcases List.mem_append.mp h with h3 | h3
          · exact Or.inl h3
          · rw [List.mem_singleton] at h3
            cases h3
            exact Or.inr ⟨k, List.mem_cons_self _ _, hk⟩
        · exact Or.inr ⟨k1, List.mem_cons_of_mem _ h1, h2⟩
      · rintro (h | ⟨k1, h1, h2⟩)
        · exact Or.inl (List.mem_append_left _ h)
        · rcases List.mem_cons.mp h1 with h3 | h3
          · cases h3
            rw [hk] at h2
            cases h2
            exact Or.inl (List.mem_append_right _ (List.mem_singleton.mpr rfl))
          · exact Or.inr ⟨k1, h3, h2⟩

theorem optionKeys_nodup (hd : B.volumeKeys.Nodup) (ann : List (String × String))
    (hk : (ann.map Prod.fst).Nodup) : (ann.filterMap (fun e => optionKey B e.1)).Nodup := by
  have : ann.filterMap (fun e => optionKey B e.1) = (ann.map Prod.fst).filterMap (optionKey B) := by
    rw [List.filterMap_map]
    rfl
  rw [this]
  refine List.Nodup.filterMap ?_ hk
  intro a b key ha hb
  exact optionKey_inj B hd a b key (by simpa using ha) (by simpa using hb)

end ClaimOptions

section ClaimRequest

variable {σ : Type} (B : Backend σ)

theorem volumeOptionOf_uid (hd : B.volumeKeys.Nodup) (k v : String) (n : Int) :
    volumeOptionOf B k v = some (.withVolumeUID n) ↔
      k = B.volumeUIDAnnotation ∧ atoi v = .ok n := by
  simp only [Backend.volumeKeys, List.nodup_cons, List.mem_cons, List.mem_singleton,
    not_or, List.not_mem_nil, not_false_eq_true, List.nodup_nil, and_true] at hd
  obtain ⟨⟨d1, d2, d3, d4, d5⟩, ⟨e2, e3, e4, e5⟩, ⟨t3, t4, t5⟩, ⟨u4, u5⟩, g5⟩ := hd
  unfold volumeOptionOf
  by_cases h1 : k = B.volumeDriverAnnotation
  · subst h1; simp [d3]
  by_cases h2 : k = B.volumeDeviceAnnotation
  · subst h2; simp [h1, e3]
  by_cases h3 : k = B.volumeTypeAnnotation
  · subst h3; simp [h1, h2, t3]
  by_cases h4 : k = B.volumeUIDAnnotation
  · subst h4
    cases ha : atoi v <;> simp [h1, h2, h3]
  by_cases h5 : k = B.volumeGIDAnnotation
  · subst h5
    cases ha : atoi v <;> simp [h1, h2, h3, h4]
  · simp [h1, h2, h3, h4, h5]

theorem volumeOptionOf_gid (hd : B.volumeKeys.Nodup) (k v : String) (n : Int) :
    volumeOptionOf B k v = some (.withVolumeGID n) ↔
      k = B.volumeGIDAnnotation ∧ atoi v = .ok n := by
  simp only [Backend.volumeKeys, List.nodup_cons, List.mem_cons, List.mem_singleton,
    not_or, List.not_mem_nil, not_false_eq_true, List.nodup_nil, and_true] at hd
  obtain ⟨⟨d1, d2, d3, d4, d5⟩, ⟨e2, e3, e4, e5⟩, ⟨t3, t4, t5⟩, ⟨u4, u5⟩, g5⟩ := hd
  unfold volumeOptionOf
  by_cases h1 : k = B.volumeDriverAnnotation
  · subst h1; simp [d4]
  by_cases h2 : k = B.volumeDeviceAnnotation
  · subst h2; simp [h1, e4]
  by_cases h3 : k = B.volumeTypeAnnotation
  · subst h3; simp [h1, h2, t4]
  by_cases h4 : k = B.volumeUIDAnnotation
  · subst h4
    cases ha : atoi v <;> simp [h1, h2, h3, u4]
  by_cases h5 : k = B.volumeGIDAnnotation
  · subst h5
    cases ha : atoi v <;> simp [h1, h2, h3, h4]
  · simp [h1, h2, h3, h4, h5]

/-- C12: for a claim with a non-blank name (the six recognised annotation keys being
distinct, as are the keys of the annotation map), `playKubePVC` fails without touching the
backend or the record, so without a volume creation call, when a volume-uid or volume-gid
annotation is present and `strconv.Atoi` rejects its value; and when `strconv.Atoi`
accepts the value of each such annotation present, it issues the volume creation call: the
request carries the uid and gid options with exactly the parsed values, and ends with the
option map, whose entries are exactly `device`, `type`, `UID`, `GID` and `o` with the values
of the corresponding annotations present. -/
theorem playKubePVC_annotations (pvc : PersistentVolumeClaim) (options : PlayKubeOptions)
    (w : World σ) (hname : trimSpace pvc.name ≠ "") (hd : B.volumeKeys.Nodup)
    (hk : (pvc.annotations.map Prod.fst).Nodup) :
    (((∃ v, (B.volumeUIDAnnotation, v) ∈ pvc.annotations ∧ ∃ e, atoi v = .error e) ∨
        (∃ v, (B.volumeGIDAnnotation, v) ∈ pvc.annotations ∧ ∃ e, atoi v = .error e)) →
      ∃ e, playKubePVC B pvc options w = (.error e, w)) ∧
    ((∀ v, (B.volumeUIDAnnotation, v) ∈ pvc.annotations → ∃ n, atoi v = .ok n) →
      (∀ v, (B.volumeGIDAnnotation, v) ∈ pvc.annotations → ∃ n, atoi v = .ok n) →
      ∃ request opts r,
        (playKubePVC B pvc options w).2.trace = w.trace ++ [Event.newVolume request r] ∧
        request.getLast? = some (.withVolumeOptions opts) ∧
        (∀ n, .withVolumeUID n ∈ request ↔
          ∃ v, (B.volumeUIDAnnotation, v) ∈ pvc.annotations ∧ atoi v = .ok n) ∧
        (∀ n, .withVolumeGID n ∈ request ↔
          ∃ v, (B.volumeGIDAnnotation, v) ∈ pvc.annotations ∧ atoi v = .ok n) ∧
        (∀ key val, (key, val) ∈ opts ↔
          (key = "device" ∧ (B.volumeDeviceAnnotation, val) ∈ pvc.annotations) ∨
          (key = "type" ∧ (B.volumeTypeAnnotation, val) ∈ pvc.annotations) ∨
          (key = "UID" ∧ (B.volumeUIDAnnotation, val) ∈ pvc.annotations) ∨
          (key = "GID" ∧ (B.volumeGIDAnnotation, val) ∈ pvc.annotations) ∨
          (key = "o" ∧ (B.volumeMountOptsAnnotation, val) ∈ pvc.annotations))) := by
  constructor
  · intro hbad
    obtain ⟨e, he⟩ := pvcAnnotations_bad B hd pvc.annotations
      [.withVolumeName pvc.name, .withVolumeLabels pvc.labels] [] hbad
    exact ⟨e, playKubePVC_invalid B pvc options w e hname he⟩
  · intro hu hg
    have hok := pvcAnnotations_ok B pvc.annotations
      [.withVolumeName pvc.name, .withVolumeLabels pvc.labels] [] hu hg
    rw [playKubePVC_create B pvc options w _ _ hname hok]
    refine ⟨_, optionsAfter B pvc.annotations [], _, rfl, List.getLast?_concat _, ?_, ?_, ?_⟩
    · intro n
      simp only [List.mem_append, List.mem_cons, List.mem_singleton, List.mem_filterMap,
        List.not_mem_nil, or_false, reduceCtorEq, false_or]
      constructor
      · rintro ⟨⟨k, v⟩, hm, hv⟩
        obtain ⟨h1, h2⟩ := (volumeOptionOf_uid B hd k v n).mp hv
        exact ⟨v, by rw [← h1]; exact hm, h2⟩
      · rintro ⟨v, hm, hv⟩
        exact ⟨(B.volumeUIDAnnotation, v), hm, (volumeOptionOf_uid B hd _ v n).mpr ⟨rfl, hv⟩⟩
    · intro n
      simp only [List.mem_append, List.mem_cons, List.mem_singleton, List.mem_filterMap,
        List.not_mem_nil, or_false, reduceCtorEq, false_or]
      constructor
      · rintro ⟨⟨k, v⟩, hm, hv⟩
        obtain ⟨h1, h2⟩ := (volumeOptionOf_gid B hd k v n).mp hv
        exact ⟨v, by rw [← h1]; exact hm, h2⟩
      · rintro ⟨v, hm, hv⟩
        exact ⟨(B.volumeGIDAnnotation, v), hm, (volumeOptionOf_gid B hd _ v n).mpr ⟨rfl, hv⟩⟩
    · intro key val
      rw [optionsAfter_mem B pvc.annotations [] (optionKeys_nodup B hd _ hk) (by simp) key val]
      simp only [List.not_mem_nil, false_or]
      constructor
      · rintro ⟨k, hm, hkey⟩
        rcases (optionKey_some B hd k key).mp hkey with ⟨a, b⟩ | ⟨a, b⟩ | ⟨a, b⟩ | ⟨a, b⟩ | ⟨a, b⟩
        · exact Or.inl ⟨a, by rw [← b]; exact hm⟩
        · exact Or.inr (Or.inl ⟨a, by rw [← b]; exact hm⟩)
        · exact Or.inr (Or.inr (Or.inl ⟨a, by rw [← b]; exact hm⟩))
        · exact Or.inr (Or.inr (Or.inr (Or.inl ⟨a, by rw [← b]; exact hm⟩)))
        · exact Or.inr (Or.inr (Or.inr (Or.inr ⟨a, by rw [← b]; exact hm⟩)))
      · rintro (⟨a, hm⟩ | ⟨a, hm⟩ | ⟨a, hm⟩ | ⟨a, hm⟩ | ⟨a, hm⟩)
        · exact ⟨_, hm, (optionKey_some B hd _ key).mpr (Or.inl ⟨a, rfl⟩)⟩
        · exact ⟨_, hm, (optionKey_some B hd _ key).mpr (Or.inr (Or.inl ⟨a, rfl⟩))⟩
        · exact ⟨_, hm, (optionKey_some B hd _ key).mpr (Or.inr (Or.inr (Or.inl ⟨a, rfl⟩)))⟩
        · exact ⟨_, hm,
            (optionKey_some B hd _ key).mpr (Or.inr (Or.inr (Or.inr (Or.inl ⟨a, rfl⟩))))⟩
        · exact ⟨_, hm,
            (optionKey_some B hd _ key).mpr (Or.inr (Or.inr (Or.inr (Or.inr ⟨a, rfl⟩))))⟩

end ClaimRequest

/-- C12 at the claim `data` with the uid annotation `1000`, and at the same claim with the
uid `abc`: the first requests the volume with uid 1000 and the option `UID`, the second
fails and issues nothing. -/
theorem playKubePVC_annotations_witness :
    trimSpace dataClaim.name ≠ "" ∧ sampleBackend.volumeKeys.Nodup ∧
    (dataClaim.annotations.map Prod.fst).Nodup ∧
    playKubePVC sampleBackend dataClaim sampleOptions sampleWorld =
      (.ok ⟨[], [⟨"data"⟩], [], []⟩,
        ⟨1, 0, [Event.newVolume [.withVolumeName "data", .withVolumeLabels [],
          .withVolumeUID 1000, .withVolumeOptions [("UID", "1000")]] (.ok "data")]⟩) ∧
    (playKubePVC sampleBackend { dataClaim with annotations := [("volume.podman.io/uid", "abc")] }
        sampleOptions sampleWorld).2 = sampleWorld ∧
    ∃ e, playKubePVC sampleBackend
        { dataClaim with annotations := [("volume.podman.io/uid", "abc")] }
        sampleOptions sampleWorld = (.error e, sampleWorld) :=
  ⟨by decide, by decide, by decide, by decide!, by decide!,
    (playKubePVC_annotations sampleBackend
      { dataClaim with annotations := [("volume.podman.io/uid", "abc")] } sampleOptions
      sampleWorld (by decide) (by decide) (by decide)).1
      (Or.inl ⟨"abc", by decide, _, rfl⟩)⟩

/-! ### Teardown -/

theorem downReplicaNames_eq (name : String) (numReplicas : Int) :
    ∀ (left i : Nat) (podNames : List String),
      (∀ k, i ≤ k → k < i + left → (k : Int) < numReplicas) →
      downReplicaNames name numReplicas left i podNames =
        podNames ++ (List.range' i left).map (fun k => name ++ "-pod-" ++ toString k) := by
  intro left
  induction left with
  | zero => intro i podNames _; simp [downReplicaNames]
  | succ n ih =>
    intro i podNames h
    have hi : (i : Int) < numReplicas := h i (le_refl _) (by omega)
    simp only [downReplicaNames, hi, if_true]
    rw [ih (i + 1) _ (fun k h1 h2 => h k (by omega) (by omega))]
    simp [List.range'_succ]

theorem downNames_eq (Y : Codec) (path : String) (docs : List Document) :
    ∀ podNames : List String, (∀ d ∈ docs, Decodes Y d) →
      downNames Y path docs podNames = .ok (podNames ++ teardownNames Y docs) := by
  induction docs with
  | nil => intro podNames _; simp [downNames, teardownNames]
  | cons d ds ih =>
    intro podNames h
    obtain ⟨kind, hk, hp, hdep⟩ := h d (List.mem_cons_self d ds)
    have hrest := fun acc => ih acc (fun x hx => h x (List.mem_cons_of_mem d hx))
    by_cases h1 : kind = "Pod"
    · obtain ⟨p, hpod⟩ := hp h1
      subst h1
      simp [downNames, teardownNames, documentPodNames, hk, hpod, hrest]
    by_cases h2 : kind = "Deployment"
    · obtain ⟨dep, hd⟩ := hdep h2
      subst h2
      have hr : (match dep.replicas with
          | some r => r
          | none => 1) = dep.replicas.getD 1 := by
        cases dep.replicas <;> rfl
      have hnames : ∀ acc, downReplicaNames dep.name (dep.replicas.getD 1)
          (dep.replicas.getD 1).toNat 0 acc = acc ++ replicaNames dep.name (dep.replicas.getD 1) := by
        intro acc
        rw [downReplicaNames_eq dep.name _ _ 0 acc (by intro k _ hk; omega)]
        simp [replicaNames, List.range_eq_range']
      simp [downNames, teardownNames, documentPodNames, hk, hd, hrest, hr, hnames]
    · simp [downNames, teardownNames, documentPodNames, hk, h1, h2, hrest]

section Teardown

variable {σ : Type} (B : Backend σ) (Y : Codec)

/-- C13: when the manifest is read, split and sorted and the typed decoders succeed on its
documents, `PlayKubeDown` derives from the sorted documents the list of pod names of the
spec (a Pod its metadata name, a Deployment its replica names in order, other kinds
nothing), calls stop with exactly this list and, unless stop returned an error, which it
then returns, calls remove with exactly the same list; when remove succeeds too the result
is a report holding the two sub-reports and nothing else. -/
theorem PlayKubeDown_spec (path : String) (w : World σ) (content : String) (s1 : σ)
    (docs sorted : List Document)
    (hread : B.readFile w.backend path = (.ok content, s1))
    (hsplit : splitMultiDocYAML Y content = .ok docs)
    (hsort : sortKubeKinds Y docs = .ok sorted)
    (hdec : ∀ d ∈ sorted, Decodes Y d) :
    ∃ r1 s2, B.podStop s1 (teardownNames Y sorted) = (r1, s2) ∧
      (∀ e, r1 = .error e →
        PlayKubeDown B Y path w =
          (.error e, ⟨s2, w.ipIndex, w.trace ++ [Event.podStop (teardownNames Y sorted) r1]⟩)) ∧
      (∀ stopReport, r1 = .ok stopReport →
        ∃ r2 s3, B.podRm s2 (teardownNames Y sorted) = (r2, s3) ∧
          PlayKubeDown B Y path w =
            (r2.map (fun rmReport => ⟨[], [], stopReport, rmReport⟩),
              ⟨s3, w.ipIndex, w.trace ++ [Event.podStop (teardownNames Y sorted) r1,
                Event.podRm (teardownNames Y sorted) r2]⟩)) := by
  rcases hstop : B.podStop s1 (teardownNames Y sorted) with ⟨r1, s2⟩
  have hnames : downNames Y path sorted [] = .ok (teardownNames Y sorted) := by
    rw [downNames_eq Y path sorted [] hdec]
    simp
  have hrun :
      PlayKubeDown B Y path w = (Play.invoke (fun s => B.podStop s (teardownNames Y sorted))
        (fun r => [Event.podStop (teardownNames Y sorted) r]) >>= fun stopReport => do
          let rmReport ← Play.invoke (fun s => B.podRm s (teardownNames Y sorted))
            (fun r => [Event.podRm (teardownNames Y sorted) r])
          pure { PlayKubeReport.empty with stopReport := stopReport, rmReport := rmReport })
        ⟨s1, w.ipIndex, w.trace⟩ := by
    unfold PlayKubeDown
    rw [Play.bind_ok (show Play.quiet (fun s => B.readFile s path) w =
        (.ok content, ⟨s1, w.ipIndex, w.trace⟩) by
      simp [Play.quiet, Play.invoke, hread])]
    rw [Play.bind_ok (show Play.lift (splitMultiDocYAML Y content) _ = (.ok docs, _) by
      rw [hsplit]; rfl)]
    rw [Play.bind_ok (show (Play.lift (sortKubeKinds Y docs)).mapErr _ _ = (.ok sorted, _) by
      rw [hsort]; rfl)]
    rw [Play.bind_ok (show Play.lift (downNames Y path sorted []) _ =
        (.ok (teardownNames Y sorted), _) by
      rw [hnames]; rfl)]
  refine ⟨r1, s2, rfl, ?_, ?_⟩
  · intro e he
    subst he
    rw [hrun, Play.bind_error (show Play.invoke (fun s => B.podStop s (teardownNames Y sorted))
        (fun r => [Event.podStop (teardownNames Y sorted) r]) ⟨s1, w.ipIndex, w.trace⟩ =
        (.error e, ⟨s2, w.ipIndex,
          w.trace ++ [Event.podStop (teardownNames Y sorted) (.error e)]⟩) by
      simp [Play.invoke, hstop])]
  · intro stopReport he
    subst he
    rcases hrm : B.podRm s2 (teardownNames Y sorted) with ⟨r2, s3⟩
    refine ⟨r2, s3, rfl, ?_⟩
    rw [hrun, Play.bind_ok (show Play.invoke (fun s => B.podStop s (teardownNames Y sorted))
        (fun r => [Event.podStop (teardownNames Y sorted) r]) ⟨s1, w.ipIndex, w.trace⟩ =
        (.ok stopReport, ⟨s2, w.ipIndex,
          w.trace ++ [Event.podStop (teardownNames Y sorted) (.ok stopReport)]⟩) by
      simp [Play.invoke, hstop])]
    cases r2 with
    | error e =>
      rw [Play.bind_error (show Play.invoke (fun s => B.podRm s (teardownNames Y sorted))
          (fun r => [Event.podRm (teardownNames Y sorted) r])
          ⟨s2, w.ipIndex, w.trace ++ [Event.podStop (teardownNames Y sorted) (.ok stopReport)]⟩ =
          (.error e, ⟨s3, w.ipIndex,
            w.trace ++ [Event.podStop (teardownNames Y sorted) (.ok stopReport)] ++
              [Event.podRm (teardownNames Y sorted) (.error e)]⟩) by
        simp [Play.invoke, hrm])]
      simp [Except.map]
    | ok rmReport =>
      rw [Play.bind_ok (show Play.invoke (fun s => B.podRm s (teardownNames Y sorted))
          (fun r => [Event.podRm (teardownNames Y sorted) r])
          ⟨s2, w.ipIndex, w.trace ++ [Event.podStop (teardownNames Y sorted) (.ok stopReport)]⟩ =
          (.ok rmReport, ⟨s3, w.ipIndex,
            w.trace ++ [Event.podStop (teardownNames Y sorted) (.ok stopReport)] ++
              [Event.podRm (teardownNames Y sorted) (.ok rmReport)]⟩) by
        simp [Play.invoke, hrm])]
      simp [Except.map, Play.pure_apply, PlayKubeReport.empty]

end Teardown

/-- C13 at the manifest with the deployment `web` of three replicas, the pod `app` and a
ConfigMap: stop and remove are called with `web-pod-0`, `web-pod-1`, `web-pod-2`, `app`. -/
theorem PlayKubeDown_spec_witness :
    teardownNames sampleCodec ["ConfigMap/c", "Deployment/web", "Pod/app"] =
      ["web-pod-0", "web-pod-1", "web-pod-2", "app"] ∧
    PlayKubeDown sampleBackend sampleCodec "Deployment/web;Pod/app;ConfigMap/c" sampleWorld =
      (.ok ⟨[], [], ["web-pod-0", "web-pod-1", "web-pod-2", "app"],
          ["web-pod-0", "web-pod-1", "web-pod-2", "app"]⟩,
        ⟨0, 0, [Event.podStop ["web-pod-0", "web-pod-1", "web-pod-2", "app"]
            (.ok ["web-pod-0", "web-pod-1", "web-pod-2", "app"]),
          Event.podRm ["web-pod-0", "web-pod-1", "web-pod-2", "app"]
            (.ok ["web-pod-0", "web-pod-1", "web-pod-2", "app"])]⟩) ∧
    ∃ r1 s2, sampleBackend.podStop 0
        (teardownNames sampleCodec ["ConfigMap/c", "Deployment/web", "Pod/app"]) = (r1, s2) ∧
      ∀ e, r1 = .error e →
        PlayKubeDown sampleBackend sampleCodec "Deployment/web;Pod/app;ConfigMap/c"
            sampleWorld =
          (.error e, ⟨s2, sampleWorld.ipIndex, sampleWorld.trace ++
            [Event.podStop (teardownNames sampleCodec
              ["ConfigMap/c", "Deployment/web", "Pod/app"]) r1]⟩) := by
  refine ⟨by decide, by decide!, ?_⟩
  obtain ⟨r1, s2, h1, h2, -⟩ := PlayKubeDown_spec sampleBackend sampleCodec
    "Deployment/web;Pod/app;ConfigMap/c" sampleWorld "Deployment/web;Pod/app;ConfigMap/c" 0
    ["Deployment/web", "Pod/app", "ConfigMap/c"] ["ConfigMap/c", "Deployment/web", "Pod/app"]
    (by decide) (by decide) (by decide)
    (by
      intro d hd
      simp only [List.mem_cons, List.mem_singleton, List.not_mem_nil, or_false] at hd
      rcases hd with rfl | rfl | rfl
      · exact ⟨"ConfigMap", by decide, fun h => absurd h (by decide),
          fun h => absurd h (by decide)⟩
      · exact ⟨"Deployment", by decide, fun h => absurd h (by decide), fun _ => ⟨_, rfl⟩⟩
      · exact ⟨"Pod", by decide, fun _ => ⟨_, rfl⟩, fun h => absurd h (by decide)⟩)
  exact ⟨r1, s2, h1, h2⟩

/-! ### The build directory of an image -/

/-- C17 does not hold of the code for a reference with a registry port: the name is cut at
the first `:` before the registry is dropped, so for `localhost:5000/foo/bar:latest` the
result is `localhost`, not `bar`; without a port the result is the name. -/
theorem imageNamePrefix_registry_port :
    imageNamePrefix "localhost:5000/foo/bar:latest" = "localhost" ∧
      imageNamePrefix "localhost:5000/foo/bar:latest" ≠ "bar" ∧
      imageNamePrefix "quay.io/foo/bar:latest" = "bar" ∧
      imageNamePrefix "quay.io/foo/bar@sha256:0123" = "bar" := by
  refine ⟨by decide, by decide, by decide, by decide⟩

/-! ### Missing names -/

section MissingNames

variable {σ : Type} (B : Backend σ)

theorem podSetup_empty_name (podYAML : PodTemplateSpec) (options : PlayKubeOptions)
    (w : World σ) :
    (∃ e, (podSetup B "" podYAML options w).1 = .error e) ∧
      (podSetup B "" podYAML options w).2.ipIndex = w.ipIndex ∧
      (podSetup B "" podYAML options w).2.trace = w.trace ∧
      ((B.secretsManager w.backend).1 = .ok () →
        (podSetup B "" podYAML options w).1 = .error (.msg "pod does not have a name")) := by
  unfold podSetup
  rcases hs : B.secretsManager w.backend with ⟨r, s⟩
  cases r with
  | error e =>
    rw [Play.bind_error (show Play.quiet B.secretsManager w =
        (.error e, ⟨s, w.ipIndex, w.trace ++ []⟩) by
      simp [Play.quiet, Play.invoke, hs])]
    exact ⟨⟨e, rfl⟩, rfl, by simp, by simp⟩
  | ok u =>
    rw [Play.bind_ok (show Play.quiet B.secretsManager w =
        (.ok u, ⟨s, w.ipIndex, w.trace ++ []⟩) by
      simp [Play.quiet, Play.invoke, hs])]
    simp only [if_true]
    exact ⟨⟨_, rfl⟩, rfl, by simp [Play.fail], fun _ => rfl⟩

/-- C20, amended: a Deployment whose name is empty makes `playKubeDeployment` fail with
"Deployment does not have a name", nothing touched, so without assembling any pod; a call
of `playKubePod` with an empty pod name fails without advancing the static-address index or
leaving any call in the record, and the error is "pod does not have a name" whenever the
secrets manager, which is requested before the name is checked, was obtained. -/
theorem missing_names (options : PlayKubeOptions) :
    (∀ (d : Deployment) (w : World σ), d.name = "" →
      playKubeDeployment B d options w =
        (.error (.msg "Deployment does not have a name"), w)) ∧
    (∀ (podYAML : PodTemplateSpec) (annotations : List (String × String)) (w : World σ),
      (∃ e, (playKubePod B "" podYAML options annotations w).1 = .error e) ∧
      (playKubePod B "" podYAML options annotations w).2.ipIndex = w.ipIndex ∧
      (playKubePod B "" podYAML options annotations w).2.trace = w.trace ∧
      ((B.secretsManager w.backend).1 = .ok () →
        (playKubePod B "" podYAML options annotations w).1 =
          .error (.msg "pod does not have a name"))) := by
  constructor
  · intro d w h
    unfold playKubeDeployment
    simp only [h, if_true]
    rfl
  · intro podYAML annotations w
    obtain ⟨⟨e, he⟩, h2, h3, h4⟩ := podSetup_empty_name B podYAML options w
    have hrun : playKubePod B "" podYAML options annotations w =
        (.error e, (podSetup B "" podYAML options w).2) := by
      unfold playKubePod
      rw [Play.bind_error (show podSetup B "" podYAML options w =
        (.error e, (podSetup B "" podYAML options w).2) by rw [← he])]
    rw [hrun]
    refine ⟨⟨e, rfl⟩, h2, h3, ?_⟩
    intro hs
    rw [h4 hs] at he
    cases he
    rfl

end MissingNames

/-- C20 as stated fails when the secrets manager cannot be obtained: `playKubePod` with an
empty pod name then fails with the error of the secrets manager, not with "pod does not
have a name". -/
theorem missing_names_counterexample :
    (playKubePod noSecretsBackend "" (sampleTemplate ["main"]) sampleOptions []
        sampleWorld).1 = .error (.msg "runtime is stopped") ∧
      (Err.msg "runtime is stopped") ≠ Err.msg "pod does not have a name" := by
  refine ⟨by decide!, by decide⟩

/-- C20 at a deployment and a pod without a name on the example backend. -/
theorem missing_names_witness :
    playKubeDeployment sampleBackend { webDeployment with name := "" } sampleOptions
        sampleWorld = (.error (.msg "Deployment does not have a name"), sampleWorld) ∧
    playKubePod sampleBackend "" (sampleTemplate ["main"]) sampleOptions [] sampleWorld =
      (.error (.msg "pod does not have a name"), sampleWorld) :=
  ⟨(missing_names sampleBackend sampleOptions).1 _ sampleWorld rfl, by decide!⟩

/-! ### Build or pull -/

theorem buildsIssued_append (a b : List Event) :
    buildsIssued (a ++ b) = buildsIssued a ++ buildsIssued b := by
  simp [buildsIssued, List.filterMap_append]

theorem pullsIssued_append (a b : List Event) :
    pullsIssued (a ++ b) = pullsIssued a ++ pullsIssued b := by
  simp [pullsIssued, List.filterMap_append]

theorem Play.invoke_apply_trace {σ α : Type} (op : σ → Except Err α × σ)
    (ev : Except Err α → List Event) (w : World σ) :
    (Play.invoke op ev w).2.trace = w.trace ++ ev (op w.backend).1 := by
  unfold Play.invoke
  rcases op w.backend with ⟨r, s⟩
  rfl

theorem Play.bind_quiet_trace {σ α β : Type} (m : Play σ α) (op : α → σ → Except Err β × σ)
    (w : World σ) : ((m >>= fun a => Play.quiet (op a)) w).2.trace = (m w).2.trace := by
  rcases hm : m w with ⟨r, w1⟩
  cases r with
  | error e => rw [Play.bind_error hm]
  | ok a =>
    rw [Play.bind_ok hm]
    unfold Play.quiet
    rw [Play.invoke_apply_trace]
    simp

theorem Play.bind_lift_trace {σ α β : Type} (m : Play σ α) (g : α → Except Err β)
    (w : World σ) : ((m >>= fun a => Play.lift (g a)) w).2.trace = (m w).2.trace := by
  rcases hm : m w with ⟨r, w1⟩
  cases r with
  | error e => rw [Play.bind_error hm]
  | ok a => rw [Play.bind_ok hm]; rfl

section BuildOrPull

variable {σ : Type} (B : Backend σ)

/-- Looking for a build file issues neither a build nor a pull. -/
theorem getBuildFile_issued (imageName cwd : String) (w : World σ) :
    buildsIssued (getBuildFile B imageName cwd w).2.trace = buildsIssued w.trace ∧
      pullsIssued (getBuildFile B imageName cwd w).2.trace = pullsIssued w.trace := by
  obtain ⟨evs, he, hp⟩ : Play.Appends (fun e => ∃ t, e = Event.logError t) w
      (getBuildFile B imageName cwd w).2 :=
    getBuildFile_rel B (Play.appends_frame _) (fun t => ⟨t, rfl⟩) imageName cwd w
  have hb : buildsIssued evs = [] := by
    unfold buildsIssued
    rw [List.filterMap_eq_nil_iff]
    intro e he
    obtain ⟨t, rfl⟩ := hp e he
    rfl
  have hq : pullsIssued evs = [] := by
    unfold pullsIssued
    rw [List.filterMap_eq_nil_iff]
    intro e he
    obtain ⟨t, rfl⟩ := hp e he
    rfl
  rw [he, buildsIssued_append, pullsIssued_append, hb, hq]
  simp

/-- The run of `resolveImage` on the build path. -/
theorem resolveImage_build (options : PlayKubeOptions) (writer : Writer) (cwd : String)
    (container : Container) (w w1 : World σ) (buildFile : String) (existsLocally : Bool)
    (s2 : σ) (hfile : getBuildFile B container.image cwd w = (.ok buildFile, w1))
    (hexists : B.imageExists w1.backend container.image = (.ok existsLocally, s2))
    (hc : (buildFile.length > 0 ∧ (!existsLocally) = true) ∨
      (buildFile.length > 0 ∧ options.build = true)) :
    resolveImage B options writer cwd container w =
      (Play.invoke (fun s => B.build s container.image buildFile)
          (fun r => [Event.build container.image buildFile r]) >>= fun _ =>
        Play.quiet (fun s => B.lookupImage s container.image))
        ⟨s2, w1.ipIndex, w1.trace⟩ := by
  have hq : Play.quiet (fun s => B.imageExists s container.image) w1 =
      (.ok existsLocally, ⟨s2, w1.ipIndex, w1.trace⟩) := by
    simp [Play.quiet, Play.invoke, hexists]
  unfold resolveImage
  rw [Play.bind_ok hfile, Play.bind_ok hq, if_pos hc]

/-- The run of `resolveImage` on the pull path, with the policy `p` that the manifest
gives, or the default. -/
theorem resolveImage_pull (options : PlayKubeOptions) (writer : Writer) (cwd : String)
    (container : Container) (w w1 : World σ) (buildFile : String) (existsLocally : Bool)
    (s2 : σ) (hfile : getBuildFile B container.image cwd w = (.ok buildFile, w1))
    (hexists : B.imageExists w1.backend container.image = (.ok existsLocally, s2))
    (hc : ¬ ((buildFile.length > 0 ∧ (!existsLocally) = true) ∨
      (buildFile.length > 0 ∧ options.build = true)))
    (p : PullPolicy)
    (hp : (if container.imagePullPolicy.length > 0 then
        B.parsePullPolicy (toLower container.imagePullPolicy) else .ok .newer) = .ok p) :
    resolveImage B options writer cwd container w =
      (pullImage B writer container.image options p >>= fun pulledImages =>
        Play.lift (first pulledImages)) ⟨s2, w1.ipIndex, w1.trace⟩ := by
  have hq : Play.quiet (fun s => B.imageExists s container.image) w1 =
      (.ok existsLocally, ⟨s2, w1.ipIndex, w1.trace⟩) := by
    simp [Play.quiet, Play.invoke, hexists]
  unfold resolveImage
  rw [Play.bind_ok hfile, Play.bind_ok hq, if_neg hc]
  dsimp only
  split at hp
  · rename_i hl
    rw [if_pos hl, hp]
    rfl
  · rename_i hl
    rw [if_neg hl]
    cases hp
    rfl

/-- The run of `resolveImage` on the pull path when the policy of the manifest is
rejected: the error of the parser, and no pull. -/
theorem resolveImage_rejected (options : PlayKubeOptions) (writer : Writer) (cwd : String)
    (container : Container) (w w1 : World σ) (buildFile : String) (existsLocally : Bool)
    (s2 : σ) (hfile : getBuildFile B container.image cwd w = (.ok buildFile, w1))
    (hexists : B.imageExists w1.backend container.image = (.ok existsLocally, s2))
    (hc : ¬ ((buildFile.length > 0 ∧ (!existsLocally) = true) ∨
      (buildFile.length > 0 ∧ options.build = true)))
    (hl : container.imagePullPolicy.length > 0) (e : Err)
    (hp : B.parsePullPolicy (toLower container.imagePullPolicy) = .error e) :
    resolveImage B options writer cwd container w = (.error e, ⟨s2, w1.ipIndex, w1.trace⟩) := by
  have hq : Play.quiet (fun s => B.imageExists s container.image) w1 =
      (.ok existsLocally, ⟨s2, w1.ipIndex, w1.trace⟩) := by
    simp [Play.quiet, Play.invoke, hexists]
  unfold resolveImage
  rw [Play.bind_ok hfile, Play.bind_ok hq, if_neg hc]
  dsimp only
  rw [if_pos hl, hp]
  rfl

/-- C16: once the build file has been looked for and the image store has been asked, the
image of a container is built if and only if a build file was found and the image does not
exist locally or the build option is set: then one build of the image from that file is
issued and no pull; in every other case no build is issued and the image is pulled once,
with the policy of the manifest when it has one that parses, with the policy "newer" when
it has none. -/
theorem resolveImage_build_or_pull (options : PlayKubeOptions) (writer : Writer)
    (cwd : String) (container : Container) (w w1 : World σ) (buildFile : String)
    (existsLocally : Bool) (s2 : σ)
    (hfile : getBuildFile B container.image cwd w = (.ok buildFile, w1))
    (hexists : B.imageExists w1.backend container.image = (.ok existsLocally, s2)) :
    (buildFile.length > 0 ∧ (existsLocally = false ∨ options.build = true) →
      buildsIssued (resolveImage B options writer cwd container w).2.trace =
          buildsIssued w.trace ++ [(container.image, buildFile)] ∧
        pullsIssued (resolveImage B options writer cwd container w).2.trace =
          pullsIssued w.trace) ∧
    (¬ (buildFile.length > 0 ∧ (existsLocally = false ∨ options.build = true)) →
      buildsIssued (resolveImage B options writer cwd container w).2.trace =
          buildsIssued w.trace ∧
        (container.imagePullPolicy.length = 0 →
          pullsIssued (resolveImage B options writer cwd container w).2.trace =
            pullsIssued w.trace ++ [(container.image, PullPolicy.newer)]) ∧
        (∀ p, container.imagePullPolicy.length > 0 →
          B.parsePullPolicy (toLower container.imagePullPolicy) = .ok p →
          pullsIssued (resolveImage B options writer cwd container w).2.trace =
            pullsIssued w.trace ++ [(container.image, p)])) := by
  have hkeep := getBuildFile_issued B container.image cwd w
  rw [hfile] at hkeep
  have hpull : ∀ p, (pullImage B writer container.image options p >>= fun pulledImages =>
        Play.lift (first pulledImages)) (⟨s2, w1.ipIndex, w1.trace⟩ : World σ) |>.2.trace
      = w1.trace ++ [Event.pull container.image p
          { authFilePath := options.authfile
            certDirPath := options.certDir
            signaturePolicyPath := options.signaturePolicy
            writer := writer
            username := options.username
            password := options.password
            insecureSkipTLSVerify := options.skipTLSVerify }
          (B.pull s2 container.image p
            { authFilePath := options.authfile
              certDirPath := options.certDir
              signaturePolicyPath := options.signaturePolicy
              writer := writer
              username := options.username
              password := options.password
              insecureSkipTLSVerify := options.skipTLSVerify }).1] := by
    intro p
    rw [Play.bind_lift_trace]
    unfold pullImage
    rw [Play.invoke_apply_trace]
  constructor
  · rintro ⟨h1, h2⟩
    have hc : (buildFile.length > 0 ∧ (!existsLocally) = true) ∨
        (buildFile.length > 0 ∧ options.build = true) := by
      rcases h2 with h2 | h2
      · exact Or.inl ⟨h1, by simp [h2]⟩
      · exact Or.inr ⟨h1, h2⟩
    rw [resolveImage_build B options writer cwd container w w1 buildFile existsLocally s2
      hfile hexists hc, Play.bind_quiet_trace, Play.invoke_apply_trace]
    simp only [buildsIssued_append, pullsIssued_append, hkeep.1, hkeep.2]
    simp [buildsIssued, pullsIssued]
  · intro hn
    have hc : ¬ ((buildFile.length > 0 ∧ (!existsLocally) = true) ∨
        (buildFile.length > 0 ∧ options.build = true)) := by
      rintro (⟨h1, h2⟩ | ⟨h1, h2⟩)
      · exact hn ⟨h1, Or.inl (by simpa using h2)⟩
      · exact hn ⟨h1, Or.inr h2⟩
    refine ⟨?_, ?_, ?_⟩
    · by_cases hl : container.imagePullPolicy.length > 0
      · cases hp : B.parsePullPolicy (toLower container.imagePullPolicy) with
        | error e =>
          rw [resolveImage_rejected B options writer cwd container w w1 buildFile
            existsLocally s2 hfile hexists hc hl e hp]
          exact hkeep.1
        | ok p =>
          rw [resolveImage_pull B options writer cwd container w w1 buildFile existsLocally
            s2 hfile hexists hc p (by rw [if_pos hl, hp]), hpull, buildsIssued_append,
            hkeep.1]
          simp [buildsIssued]
      · rw [resolveImage_pull B options writer cwd container w w1 buildFile existsLocally
          s2 hfile hexists hc .newer (by rw [if_neg hl]), hpull, buildsIssued_append,
          hkeep.1]
        simp [buildsIssued]
    · intro hl
      rw [resolveImage_pull B options writer cwd container w w1 buildFile existsLocally
        s2 hfile hexists hc .newer (by rw [if_neg (by omega)]), hpull, pullsIssued_append,
        hkeep.2]
      simp [pullsIssued]
    · intro p hl hp
      rw [resolveImage_pull B options writer cwd container w w1 buildFile existsLocally
        s2 hfile hexists hc p (by rw [if_pos hl, hp]), hpull, pullsIssued_append, hkeep.2]
      simp [pullsIssued]

end BuildOrPull

/-- C16 on the example backend with a build file for every image: the image of the
container is built from `/work/img/Containerfile` and not pulled. -/
theorem resolveImage_build_or_pull_witness :
    getBuildFile buildBackend "img" "/work" sampleWorld =
        (.ok "/work/img/Containerfile", sampleWorld) ∧
      buildBackend.imageExists 0 "img" = (.ok false, 0) ∧
      buildsIssued (resolveImage buildBackend sampleOptions Writer.nil "/work"
          ⟨"main", "img", ""⟩ sampleWorld).2.trace =
        buildsIssued sampleWorld.trace ++ [("img", "/work/img/Containerfile")] ∧
      pullsIssued (resolveImage buildBackend sampleOptions Writer.nil "/work"
          ⟨"main", "img", ""⟩ sampleWorld).2.trace = pullsIssued sampleWorld.trace :=
  ⟨by decide!, by decide,
    (resolveImage_build_or_pull buildBackend sampleOptions Writer.nil "/work"
      ⟨"main", "img", ""⟩ sampleWorld sampleWorld "/work/img/Containerfile" false 0
      (by decide!) (by decide)).1 ⟨by decide, Or.inl rfl⟩⟩

/-! ### Every pod of a successful play was played -/

section Played

variable {σ : Type} (B : Backend σ) (Y : Codec)

theorem Play.lift_eq_ok {α : Type} {r : Except Err α} {w w1 : World σ} {a : α}
    (h : Play.lift r w = (.ok a, w1)) : r = .ok a ∧ w1 = w := by
  unfold Play.lift at h
  exact ⟨(Prod.mk.inj h).1, (Prod.mk.inj h).2.symm⟩

theorem extendsRecord_of_appends {p : Event → Prop} {w w1 : World σ}
    (h : Play.Appends p w w1) : extendsRecord w w1 :=
  h.imp (fun _ h => h.1)

theorem extendsRecord_refl (w : World σ) : extendsRecord w w := ⟨[], by simp⟩

theorem extendsRecord_trans {a b c : World σ} (h1 : extendsRecord a b)
    (h2 : extendsRecord b c) : extendsRecord a c := by
  obtain ⟨e1, h1⟩ := h1
  obtain ⟨e2, h2⟩ := h2
  exact ⟨e1 ++ e2, by rw [h2, h1, List.append_assoc]⟩

theorem playedBetween_mono {options : PlayKubeOptions}
    {pod : String × PodTemplateSpec × List (String × String)} {w wa wb w1 : World σ}
    (h1 : extendsRecord w wa) (h2 : playedBetween B options pod wa wb)
    (h3 : extendsRecord wb w1) : playedBetween B options pod w w1 := by
  obtain ⟨xa, xb, r, hr, ha, hb⟩ := h2
  exact ⟨xa, xb, r, hr, extendsRecord_trans h1 ha, extendsRecord_trans hb h3⟩

theorem playKubePod_extends (podName : String) (podYAML : PodTemplateSpec)
    (options : PlayKubeOptions) (annotations : List (String × String)) (w : World σ) :
    extendsRecord w (playKubePod B podName podYAML options annotations w).2 :=
  extendsRecord_of_appends
    (playKubePod_rel B (Play.appends_frame (fun _ => True)) podName podYAML options annotations
      (fun _ _ => trivial) (fun _ _ => trivial) (fun _ _ _ => trivial)
      (fun _ => assignStatic_emits _ _ _ _ (fun _ _ => trivial)) w)

theorem documentLoop_extends (path : String) (options : PlayKubeOptions)
    (docs : List Document) (report : PlayKubeReport) (validKinds : Nat) (w : World σ) :
    extendsRecord w (documentLoop B Y path options docs report validKinds w).2 :=
  extendsRecord_of_appends
    (documentLoop_rel B Y (Play.appends_frame (fun _ => True)) path options
      (fun _ => trivial) (fun _ _ => trivial)
      (fun name podYAML annotations =>
        playKubePod_rel B (Play.appends_frame (fun _ => True)) name podYAML options annotations
          (fun _ _ => trivial) (fun _ _ => trivial) (fun _ _ _ => trivial)
          (fun _ => assignStatic_emits _ _ _ _ (fun _ _ => trivial)))
      docs report validKinds w)

theorem playKubePVC_extends (pvc : PersistentVolumeClaim) (options : PlayKubeOptions)
    (w : World σ) : extendsRecord w (playKubePVC B pvc options w).2 :=
  extendsRecord_of_appends
    (playKubePVC_rel B (Play.appends_frame (fun _ => True)) (fun _ _ => trivial) pvc options w)

theorem assemblePods_extends (t : PodTemplateSpec) (options : PlayKubeOptions)
    (annotations : List (String × String)) (names : List String) :
    ∀ (report : PlayKubeReport) (w : World σ),
      extendsRecord w (assemblePods B t options annotations names report w).2 := by
  induction names with
  | nil => intro report w; exact extendsRecord_refl w
  | cons n ns ih =>
    intro report w
    unfold assemblePods
    rcases hm : (playKubePod B n t options annotations).mapErr
      (Err.wrap ("error encountered while bringing up pod " ++ n)) w with ⟨r, wa⟩
    have hext : extendsRecord w wa := by
      have h := playKubePod_extends B n t options annotations w
      unfold Play.mapErr at hm
      rcases hp : playKubePod B n t options annotations w with ⟨r0, w0⟩
      rw [hp] at hm h
      cases r0 <;> cases hm <;> exact h
    cases r with
    | error e => rw [Play.bind_error hm]; exact hext
    | ok a => rw [Play.bind_ok hm]; exact extendsRecord_trans hext (ih _ wa)

/-- A successful run over the pod names has played each of them with success. -/
theorem assemblePods_played (t : PodTemplateSpec) (options : PlayKubeOptions)
    (annotations : List (String × String)) (names : List String) :
    ∀ (report res : PlayKubeReport) (w w1 : World σ),
      assemblePods B t options annotations names report w = (.ok res, w1) →
      ∀ n ∈ names, playedBetween B options (n, t, annotations) w w1 := by
  induction names with
  | nil => intro report res w w1 _ n hn; cases hn
  | cons n0 ns ih =>
    intro report res w w1 h n hn
    unfold assemblePods at h
    obtain ⟨r, wa, ha, h⟩ := Play.bind_eq_ok h
    have ha := Play.mapErr_eq_ok ha
    have hext1 : extendsRecord w wa := by
      have := playKubePod_extends B n0 t options annotations w
      rw [ha] at this; exact this
    have hext2 : extendsRecord wa w1 := by
      have := assemblePods_extends B t options annotations ns
        { report with pods := report.pods ++ r.pods } wa
      rw [h] at this; exact this
    rcases List.mem_cons.mp hn with rfl | hn
    · exact ⟨w, wa, r, ha, extendsRecord_refl w, hext2⟩
    · exact playedBetween_mono B hext1 (ih _ res wa w1 h n hn) (extendsRecord_refl w1)

theorem playKubeDeployment_eq (d : Deployment) (options : PlayKubeOptions)
    (h : d.name ≠ "") :
    playKubeDeployment B d options =
      assemblePods B d.template options d.annotations
        (replicaNames d.name (d.replicas.getD 1)) PlayKubeReport.empty := by
  have hr : (match d.replicas with
      | some r => r
      | none => 1) = d.replicas.getD 1 := by
    cases d.replicas <;> rfl
  unfold playKubeDeployment
  simp only [h, if_false, hr]
  rw [replicaLoop_eq B d options _ _ 0 _ (by intro k _ hk; omega)]
  simp [replicaNames, List.range_eq_range']

/-- A successful run of `playKubeDeployment` has played each replica with success. -/
theorem playKubeDeployment_played (d : Deployment) (options : PlayKubeOptions)
    (res : PlayKubeReport) (w w1 : World σ)
    (h : playKubeDeployment B d options w = (.ok res, w1)) :
    ∀ n ∈ replicaNames d.name (d.replicas.getD 1),
      playedBetween B options (n, d.template, d.annotations) w w1 := by
  by_cases hn : d.name = ""
  · unfold playKubeDeployment at h
    simp only [hn, if_true] at h
    cases h
  · rw [playKubeDeployment_eq B d options hn] at h
    exact assemblePods_played B d.template options d.annotations _ _ res w w1 h

/-- A successful run of the loop over the documents has played every pod of every document
with success. -/
theorem documentLoop_played (path : String) (options : PlayKubeOptions)
    (docs : List Document) :
    ∀ (report : PlayKubeReport) (validKinds : Nat) (res : PlayKubeReport × Nat)
      (w w1 : World σ),
      documentLoop B Y path options docs report validKinds w = (.ok res, w1) →
      ∀ d ∈ docs, ∀ pod ∈ documentPods Y d, playedBetween B options pod w w1 := by
  induction docs with
  | nil => intro report validKinds res w w1 _ d hd; cases hd
  | cons d0 ds ih =>
    intro report validKinds res w w1 h d hd pod hpod
    unfold documentLoop at h
    obtain ⟨kind, wk, hk, hA⟩ := Play.bind_eq_ok h
    clear h
    obtain ⟨hkind, rfl⟩ := Play.lift_eq_ok (Play.mapErr_eq_ok hk)
    clear hk
    by_cases h1 : kind = "Pod"
    · rw [if_pos h1] at hA
      obtain ⟨podYAML, wp, hp, hB⟩ := Play.bind_eq_ok hA
      clear hA
      obtain ⟨hdec, rfl⟩ := Play.lift_eq_ok (Play.mapErr_eq_ok hp)
      clear hp
      obtain ⟨r, wa, ha, h⟩ := Play.bind_eq_ok hB
      have hext1 : extendsRecord wp wa := by
        have := playKubePod_extends B podYAML.name
          { name := podYAML.name
            annotations := podYAML.annotations
            containers := podYAML.containers
            restartPolicy := podYAML.restartPolicy
            rest := podYAML.rest } options podYAML.annotations wp
        rw [ha] at this; exact this
      have hext2 : extendsRecord wa w1 := by
        have := documentLoop_extends B Y path options ds
          { report with pods := report.pods ++ r.pods } (validKinds + 1) wa
        rw [h] at this; exact this
      rcases List.mem_cons.mp hd with rfl | hd
      · have : documentPods Y d =
            [(podYAML.name,
              { name := podYAML.name
                annotations := podYAML.annotations
                containers := podYAML.containers
                restartPolicy := podYAML.restartPolicy
                rest := podYAML.rest },
              podYAML.annotations)] := by
          simp [documentPods, hkind, h1, hdec]
        rw [this, List.mem_singleton] at hpod
        subst hpod
        exact ⟨wp, wa, r, ha, extendsRecord_refl wp, hext2⟩
      · exact playedBetween_mono B hext1 (ih _ _ res wa w1 h d hd pod hpod)
          (extendsRecord_refl w1)
    · rw [if_neg h1] at hA
      by_cases h2 : kind = "Deployment"
      · rw [if_pos h2] at hA
        obtain ⟨dep, wp, hp, hB⟩ := Play.bind_eq_ok hA
        clear hA
        obtain ⟨hdec, rfl⟩ := Play.lift_eq_ok (Play.mapErr_eq_ok hp)
        clear hp
        obtain ⟨r, wa, ha, h⟩ := Play.bind_eq_ok hB
        have hplayed := playKubeDeployment_played B dep options r wp wa ha
        have hext1 : extendsRecord wp wa := by
          have := extendsRecord_of_appends
            (playKubeDeployment_rel B (Play.appends_frame (fun _ => True)) dep options
              (fun name => playKubePod_rel B (Play.appends_frame (fun _ => True)) name
                dep.template options dep.annotations
                (fun _ _ => trivial) (fun _ _ => trivial) (fun _ _ _ => trivial)
                (fun _ => assignStatic_emits _ _ _ _ (fun _ _ => trivial))) wp)
          rw [ha] at this; exact this
        have hext2 : extendsRecord wa w1 := by
          have := documentLoop_extends B Y path options ds
            { report with pods := report.pods ++ r.pods } (validKinds + 1) wa
          rw [h] at this; exact this
        rcases List.mem_cons.mp hd with rfl | hd
        · have : documentPods Y d =
              (replicaNames dep.name (dep.replicas.getD 1)).map
                (fun n => (n, dep.template, dep.annotations)) := by
            simp [documentPods, hkind, h2, hdec]
          rw [this, List.mem_map] at hpod
          obtain ⟨n, hn, rfl⟩ := hpod
          exact playedBetween_mono B (extendsRecord_refl wp) (hplayed n hn) hext2
        · exact playedBetween_mono B hext1 (ih _ _ res wa w1 h d hd pod hpod)
            (extendsRecord_refl w1)
      · rw [if_neg h2] at hA
        have hnone : documentPods Y d0 = [] := by
          simp [documentPods, hkind, h1, h2]
        by_cases h3 : kind = "PersistentVolumeClaim"
        · rw [if_pos h3] at hA
          obtain ⟨pvc, wp, hp, hB⟩ := Play.bind_eq_ok hA
          clear hA
          obtain ⟨-, rfl⟩ := Play.lift_eq_ok (Play.mapErr_eq_ok hp)
          clear hp
          obtain ⟨r, wa, ha, h⟩ := Play.bind_eq_ok hB
          have hext1 : extendsRecord wp wa := by
            have := playKubePVC_extends B pvc options wp
            rw [ha] at this; exact this
          rcases List.mem_cons.mp hd with rfl | hd
          · rw [hnone] at hpod; cases hpod
          · exact playedBetween_mono B hext1 (ih _ _ res wa w1 h d hd pod hpod)
              (extendsRecord_refl w1)
        · rw [if_neg h3] at hA
          obtain ⟨u, wa, ha, h⟩ := Play.bind_eq_ok hA
          have hext1 : extendsRecord wk wa := by
            unfold Play.emit at ha
            cases ha
            exact ⟨_, rfl⟩
          rcases List.mem_cons.mp hd with rfl | hd
          · rw [hnone] at hpod; cases hpod
          · exact playedBetween_mono B hext1 (ih _ _ res wa w1 h d hd pod hpod)
              (extendsRecord_refl w1)

/-- A successful `PlayKube` has read, split and sorted the manifest and has played every
pod of every document with success. -/
theorem PlayKube_played (path : String) (options : PlayKubeOptions) (report : PlayKubeReport)
    (w w1 : World σ) (h : PlayKube B Y path options w = (.ok report, w1)) :
    ∃ content docs sorted, (B.readFile w.backend path).1 = .ok content ∧
      splitMultiDocYAML Y content = .ok docs ∧ sortKubeKinds Y docs = .ok sorted ∧
      ∀ d ∈ sorted, ∀ pod ∈ documentPods Y d, playedBetween B options pod w w1 := by
  unfold PlayKube at h
  obtain ⟨content, wa, ha, h⟩ := Play.bind_eq_ok h
  obtain ⟨docs, wb, hb, h⟩ := Play.bind_eq_ok h
  obtain ⟨sorted, wc, hc, h⟩ := Play.bind_eq_ok h
  have hc := Play.mapErr_eq_ok hc
  obtain ⟨u, wd, hd, h⟩ := Play.bind_eq_ok h
  obtain ⟨played, we, he, h⟩ := Play.bind_eq_ok h
  have hwa := Play.quiet_trace ha
  have hread : (B.readFile w.backend path).1 = .ok content := by
    unfold Play.quiet Play.invoke at ha
    dsimp only at ha
    exact (Prod.mk.inj ha).1
  have hsplit := Play.lift_eq_ok hb
  have hsort := Play.lift_eq_ok hc
  have hwd : wd.trace = wc.trace := by
    unfold Play.resetIndex at hd
    cases hd
    rfl
  have hwe : we = w1 := by
    split at h
    · cases h
    · cases h; rfl
  subst hwe
  refine ⟨content, docs, sorted, hread, hsplit.1, hsort.1, ?_⟩
  intro d hdm pod hpod
  refine playedBetween_mono B ?_
    (documentLoop_played B Y path options sorted _ _ played wd we he d hdm pod hpod)
    (extendsRecord_refl we)
  exact ⟨[], by rw [hwd, hsort.2, hsplit.2, hwa]; simp⟩

end Played

/-! ### A pull policy that the parser rejects -/

section RejectedPolicy

variable {σ : Type} (B : Backend σ) (Y : Codec)

theorem builtBetween_mono {image : String} {w wa wb w1 : World σ}
    (h1 : extendsRecord w wa) (h2 : builtBetween image wa wb) (h3 : extendsRecord wb w1) :
    builtBetween image w w1 := by
  obtain ⟨e1, h1⟩ := h1
  obtain ⟨e2, h2, bf, hbf⟩ := h2
  obtain ⟨e3, h3⟩ := h3
  refine ⟨e1 ++ (e2 ++ e3), by rw [h3, h2, h1]; simp, bf, ?_⟩
  rw [buildsIssued_append, buildsIssued_append]
  exact List.mem_append_right _ (List.mem_append_left _ hbf)

theorem policyRejected_iff (c : Container) :
    policyRejected B c = true ↔
      c.imagePullPolicy.length > 0 ∧
        ∃ e, B.parsePullPolicy (toLower c.imagePullPolicy) = .error e := by
  unfold policyRejected
  cases B.parsePullPolicy (toLower c.imagePullPolicy) <;> simp

/-- When the image of a container with a rejected pull policy is resolved with success, it
was built. -/
theorem resolveImage_built (options : PlayKubeOptions) (writer : Writer) (cwd : String)
    (c : Container) (w w1 : World σ) (img : Image)
    (h : resolveImage B options writer cwd c w = (.ok img, w1))
    (hr : policyRejected B c = true) : builtBetween c.image w w1 := by
  obtain ⟨hl, e, hp⟩ := (policyRejected_iff B c).mp hr
  unfold resolveImage at h
  obtain ⟨bf, wa, ha, hA⟩ := Play.bind_eq_ok h
  clear h
  obtain ⟨ex, wb, hb, hB⟩ := Play.bind_eq_ok hA
  clear hA
  obtain ⟨ea, hea⟩ : extendsRecord w wa := by
    have := extendsRecord_of_appends
      (getBuildFile_rel B (Play.appends_frame (fun _ => True)) (fun _ => trivial) c.image cwd w)
    rw [ha] at this; exact this
  have hwb := Play.quiet_trace hb
  split at hB
  · obtain ⟨u, wc, hc, hC⟩ := Play.bind_eq_ok hB
    have hwc := Play.invoke_trace hc
    have hw1 := Play.quiet_trace hC
    refine ⟨ea ++ [Event.build c.image bf (.ok u)], ?_, bf, ?_⟩
    · rw [hw1, hwc, hwb, hea, List.append_assoc]
    · simp [buildsIssued_append, buildsIssued]
  · exfalso
    dsimp only at hB
    first | rw [if_pos hl, hp] at hB | rw [hp] at hB
    obtain ⟨p, wc, hc, -⟩ := Play.bind_eq_ok hB
    have := (Play.lift_eq_ok hc).1
    cases this

theorem createContainer_built (options : PlayKubeOptions)
    (annotations : List (String × String)) (ctx : PodContext) (c : Container)
    (w w1 : World σ) (ctr : LibpodContainer)
    (h : createContainer B options annotations ctx c w = (.ok ctr, w1))
    (hr : policyRejected B c = true) : builtBetween c.image w w1 := by
  unfold createContainer at h
  obtain ⟨img, wa, ha, hA⟩ := Play.bind_eq_ok h
  clear h
  obtain ⟨sg, wb, hb, hB⟩ := Play.bind_eq_ok hA
  clear hA
  obtain ⟨made, wc, hc, hC⟩ := Play.bind_eq_ok hB
  clear hB
  have hwb := Play.invoke_trace hb
  have hwc := Play.invoke_trace hc
  have hw1 := Play.invoke_trace hC
  refine builtBetween_mono (extendsRecord_refl w)
    (resolveImage_built B options ctx.writer ctx.cwd c w wa img ha hr) ?_
  exact ⟨_, by rw [hw1, hwc, hwb, List.append_assoc, List.append_assoc]⟩

theorem containerLoop_extends (options : PlayKubeOptions)
    (annotations : List (String × String)) (ctx : PodContext) (cs : List Container)
    (acc : List LibpodContainer) (w : World σ) :
    extendsRecord w (containerLoop B options annotations ctx cs acc w).2 :=
  extendsRecord_of_appends
    (containerLoop_rel B (Play.appends_frame (fun _ => True)) (fun _ _ => trivial) options
      annotations ctx cs acc w)

theorem containerLoop_built (options : PlayKubeOptions)
    (annotations : List (String × String)) (ctx : PodContext) (cs : List Container) :
    ∀ (acc res : List LibpodContainer) (w w1 : World σ),
      containerLoop B options annotations ctx cs acc w = (.ok res, w1) →
      ∀ c ∈ cs, stringsContains "infra" c.name = false → policyRejected B c = true →
        builtBetween c.image w w1 := by
  induction cs with
  | nil => intro acc res w w1 _ c hc; cases hc
  | cons c0 cs ih =>
    intro acc res w w1 h c hc hg hr
    unfold containerLoop at h
    by_cases hg0 : stringsContains "infra" c0.name = true
    · simp only [hg0, Bool.not_true, Bool.false_eq_true, if_false] at h
      rcases List.mem_cons.mp hc with rfl | hc
      · rw [hg0] at hg; cases hg
      · exact ih acc res w w1 h c hc hg hr
    · have hg0 : stringsContains "infra" c0.name = false := by simpa using hg0
      simp only [hg0, Bool.not_false, if_true] at h
      obtain ⟨ctr, wa, ha, hA⟩ := Play.bind_eq_ok h
      clear h
      rcases List.mem_cons.mp hc with rfl | hc
      · refine builtBetween_mono (extendsRecord_refl w)
          (createContainer_built B options annotations ctx c w wa ctr ha hr) ?_
        have := containerLoop_extends B options annotations ctx cs (acc ++ [ctr]) wa
        rw [hA] at this; exact this
      · refine builtBetween_mono ?_ (ih _ res wa w1 hA c hc hg hr) (extendsRecord_refl w1)
        have := extendsRecord_of_appends
          (createContainer_rel B (Play.appends_frame (fun _ => True)) (fun _ _ => trivial)
            options annotations ctx c0 w)
        rw [ha] at this; exact this

/-- A successful `playKubePod` has built the image of every container that the guard lets
through and whose pull policy the parser rejects. -/
theorem playKubePod_built (podName : String) (podYAML : PodTemplateSpec)
    (options : PlayKubeOptions) (annotations : List (String × String)) (w w1 : World σ)
    (report : PlayKubeReport)
    (h : playKubePod B podName podYAML options annotations w = (.ok report, w1)) :
    ∀ c ∈ podYAML.containers, stringsContains "infra" c.name = false →
      policyRejected B c = true → builtBetween c.image w w1 := by
  intro c hc hg hr
  unfold playKubePod at h
  obtain ⟨ctx, wa, ha, hA⟩ := Play.bind_eq_ok h
  clear h
  obtain ⟨made, wb, hb, hB⟩ := Play.bind_eq_ok hA
  clear hA
  refine builtBetween_mono ?_
    (containerLoop_built B options annotations ctx podYAML.containers [] made wa wb hb c hc
      hg hr) ?_
  · have := extendsRecord_of_appends
      (podSetup_rel B (Play.appends_frame (fun _ => True)) podName podYAML options
        (fun _ _ => trivial) (fun _ => assignStatic_emits _ _ _ _ (fun _ _ => trivial)) w)
    rw [ha] at this; exact this
  · have := extendsRecord_of_appends
      (startAndReport_rel B (Play.appends_frame (fun _ => True)) ctx.pod
        (fun _ _ => trivial) options made ctx.logs wb)
    rw [hB] at this; exact this

/-- C14, amended: an invalid pull-policy string is fatal on the pull path only. When the
image of a container is not built (no build file was found, or the image exists locally and
the build option is not set) and the manifest gives the container a non-empty pull policy
that the parser rejects in lower case, resolving the image fails with the error of the
parser and issues no pull; and when `PlayKube` succeeds, the manifest was read, split and
sorted, and for every pod of every document (a Pod, or a replica of a Deployment) the
image of every container that the loop's guard lets through and whose pull policy is
rejected was built locally: a build of that image is in the record of the call. -/
theorem PlayKube_rejected_pull_policy (path : String) (options : PlayKubeOptions) :
    (∀ (writer : Writer) (cwd : String) (c : Container) (w w1 : World σ) (buildFile : String)
        (existsLocally : Bool) (s2 : σ),
      getBuildFile B c.image cwd w = (.ok buildFile, w1) →
      B.imageExists w1.backend c.image = (.ok existsLocally, s2) →
      ¬ (buildFile.length > 0 ∧ (existsLocally = false ∨ options.build = true)) →
      policyRejected B c = true →
      ∃ e, B.parsePullPolicy (toLower c.imagePullPolicy) = .error e ∧
        resolveImage B options writer cwd c w = (.error e, ⟨s2, w1.ipIndex, w1.trace⟩)) ∧
    (∀ (w w1 : World σ) (report : PlayKubeReport),
      PlayKube B Y path options w = (.ok report, w1) →
      ∃ content docs sorted, (B.readFile w.backend path).1 = .ok content ∧
        splitMultiDocYAML Y content = .ok docs ∧ sortKubeKinds Y docs = .ok sorted ∧
        ∀ d ∈ sorted, ∀ pod ∈ documentPods Y d, ∀ c ∈ pod.2.1.containers,
          stringsContains "infra" c.name = false → policyRejected B c = true →
          builtBetween c.image w w1) := by
  constructor
  · intro writer cwd c w w1 buildFile existsLocally s2 hfile hexists hn hr
    obtain ⟨hl, e, hp⟩ := (policyRejected_iff B c).mp hr
    refine ⟨e, hp, resolveImage_rejected B options writer cwd c w w1 buildFile existsLocally
      s2 hfile hexists ?_ hl e hp⟩
    rintro (⟨h1, h2⟩ | ⟨h1, h2⟩)
    · exact hn ⟨h1, Or.inl (by simpa using h2)⟩
    · exact hn ⟨h1, Or.inr h2⟩
  · intro w w1 report h
    obtain ⟨content, docs, sorted, h1, h2, h3, h4⟩ := PlayKube_played B Y path options report
      w w1 h
    refine ⟨content, docs, sorted, h1, h2, h3, ?_⟩
    intro d hd pod hpod c hc hg hr
    obtain ⟨wa, wb, r, hrun, hxa, hxb⟩ := h4 d hd pod hpod
    exact builtBetween_mono hxa
      (playKubePod_built B pod.1 pod.2.1 options pod.2.2 wa wb r hrun c hc hg hr) hxb

end RejectedPolicy

/-- C14 as stated fails when a build file is found: on the example backend with a build
file for every image, `PlayKube` succeeds on a pod whose container asks for the pull
policy `Sometimes`, which the parser rejects. -/
theorem PlayKube_rejected_pull_policy_counterexample :
    policyRejected buildBackend ⟨"main", "img", "Sometimes"⟩ = true ∧
      policyCodec.unmarshalPod "Pod/db" =
        .ok ⟨"db", [], [⟨"main", "img", "Sometimes"⟩], "", ""⟩ ∧
      (PlayKube buildBackend policyCodec "Pod/db" sampleOptions sampleWorld).1 =
        .ok ⟨[⟨"pod0", ["ctr1"], [], []⟩], [], [], []⟩ := by
  refine ⟨by decide, by decide, by decide!⟩

/-- C14, amended, on the same run: the record holds the build of the image, and on the
example backend without build files the same manifest fails with the error of the
parser. -/
theorem PlayKube_rejected_pull_policy_witness :
    (PlayKube sampleBackend policyCodec "Pod/db" sampleOptions sampleWorld).1 =
        .error (.msg "unsupported pull policy \"sometimes\"") ∧
      buildsIssued (PlayKube buildBackend policyCodec "Pod/db" sampleOptions
        sampleWorld).2.trace = [("img", "/work/img/Containerfile")] ∧
      ∃ content docs sorted, (buildBackend.readFile sampleWorld.backend "Pod/db").1 =
          .ok content ∧
        splitMultiDocYAML policyCodec content = .ok docs ∧
        sortKubeKinds policyCodec docs = .ok sorted ∧
        ∀ d ∈ sorted, ∀ pod ∈ documentPods policyCodec d, ∀ c ∈ pod.2.1.containers,
          stringsContains "infra" c.name = false → policyRejected buildBackend c = true →
          builtBetween c.image sampleWorld
            (PlayKube buildBackend policyCodec "Pod/db" sampleOptions sampleWorld).2 :=
  ⟨by decide!, by decide!,
    (PlayKube_rejected_pull_policy buildBackend policyCodec "Pod/db" sampleOptions).2
      sampleWorld _ ⟨[⟨"pod0", ["ctr1"], [], []⟩], [], [], []⟩ (by decide!)⟩

/-! ### Validation and creation -/

section Validation

variable {σ : Type} (B : Backend σ)

/-- With an empty pod name `playKubePod` fails and leaves the record as it was. -/
theorem playKubePod_empty_name (podYAML : PodTemplateSpec) (options : PlayKubeOptions)
    (annotations : List (String × String)) (w : World σ) :
    (∃ e, (playKubePod B "" podYAML options annotations w).1 = .error e) ∧
      (playKubePod B "" podYAML options annotations w).2.trace = w.trace := by
  obtain ⟨⟨e, he⟩, -, h3, -⟩ := podSetup_empty_name B podYAML options w
  have hrun : playKubePod B "" podYAML options annotations w =
      (.error e, (podSetup B "" podYAML options w).2) := by
    unfold playKubePod
    rw [Play.bind_error (show podSetup B "" podYAML options w =
      (.error e, (podSetup B "" podYAML options w).2) by rw [← he])]
  rw [hrun]
  exact ⟨⟨e, rfl⟩, h3⟩

/-- When the `--network` override is refused, `playKubePod` fails with that error before
any entry is left in the record. -/
theorem playKubePod_network_error (podName : String) (podYAML : PodTemplateSpec)
    (options : PlayKubeOptions) (annotations : List (String × String)) (w : World σ)
    (s1 s2 : σ) (podOpt : PodCreateOptions) (e : Err) (hname : podName ≠ "")
    (hsec : B.secretsManager w.backend = (.ok (), s1))
    (hopt : B.toPodOpt s1 (checkNameCollision podYAML.containers podName []).1
      { name := ""
        infra := true
        infraImage := ""
        net := {
          staticIP := some []
          staticMAC := some []
          nsMode := .other ""
          cniNetworks := []
          networkOptions := [] }
        rest := "" } podYAML = (.ok podOpt, s2))
    (hnet : applyNetwork B options podOpt = .error e) :
    playKubePod B podName podYAML options annotations w =
      (.error e, ⟨s2, w.ipIndex, w.trace⟩) := by
  have hsetup : podSetup B podName podYAML options w =
      (.error e, ⟨s2, w.ipIndex, w.trace⟩) := by
    unfold podSetup
    rw [Play.bind_ok (show Play.quiet B.secretsManager w =
        (.ok (), ⟨s1, w.ipIndex, w.trace⟩) by
      simp [Play.quiet, Play.invoke, hsec])]
    rw [if_neg hname]
    dsimp only
    rw [Play.bind_ok (show Play.quiet (fun s => B.toPodOpt s
          (checkNameCollision podYAML.containers podName []).1
          { name := ""
            infra := true
            infraImage := ""
            net := {
              staticIP := some []
              staticMAC := some []
              nsMode := .other ""
              cniNetworks := []
              networkOptions := [] }
            rest := "" } podYAML) (⟨s1, w.ipIndex, w.trace⟩ : World σ) =
        (.ok podOpt, ⟨s2, w.ipIndex, w.trace⟩) by
      simp [Play.quiet, Play.invoke, hopt])]
    rw [Play.bind_error (show Play.lift (applyNetwork B options podOpt)
        (⟨s2, w.ipIndex, w.trace⟩ : World σ) = (.error e, ⟨s2, w.ipIndex, w.trace⟩) by
      rw [hnet]; rfl)]
  unfold playKubePod
  rw [Play.bind_error hsetup]

/-- When the image cannot be resolved, `createContainer` fails with that error, and what
it leaves in the record is no creation call. -/
theorem createContainer_unresolved (options : PlayKubeOptions)
    (annotations : List (String × String)) (ctx : PodContext) (c : Container)
    (w wa : World σ) (e : Err)
    (h : resolveImage B options ctx.writer ctx.cwd c w = (.error e, wa)) :
    createContainer B options annotations ctx c w = (.error e, wa) ∧
      ∃ evs, wa.trace = w.trace ++ evs ∧ ∀ ev ∈ evs, ev.isCreation = false := by
  constructor
  · unfold createContainer
    rw [Play.bind_error h]
  · have := resolveImage_rel B (Play.appends_frame (fun ev => ev.isCreation = false))
      (fun ev hev => by cases ev <;> first | rfl | exact hev.elim) options ctx.writer ctx.cwd
      c w
    rw [h] at this
    exact this

theorem playKubePod_emits (p : Event → Prop) (hp : ∀ e,
      (∀ names r, e ≠ Event.podStop names r) → (∀ names r, e ≠ Event.podRm names r) → p e)
    (podName : String) (podYAML : PodTemplateSpec) (options : PlayKubeOptions)
    (annotations : List (String × String)) :
    Play.Emits p (playKubePod B podName podYAML options annotations) := by
  refine playKubePod_rel B (Play.appends_frame p) podName podYAML options annotations
    ?_ ?_ ?_ ?_
  · intro e he
    refine hp e ?_ ?_ <;> intro names r h <;> rw [h] at he <;> exact he
  · intro e he
    refine hp e ?_ ?_ <;> intro names r h <;> rw [h] at he <;> exact he
  · intro pod e he
    refine hp e ?_ ?_ <;> intro names r h <;> rw [h] at he <;> exact he
  · intro podOpt
    refine assignStatic_emits _ _ _ _ ?_
    intro e he
    refine hp e ?_ ?_ <;> intro names r h <;> rw [h] at he <;> exact he

/-- What `PlayKube` leaves in the record is never a stop or a remove call. -/
theorem PlayKube_emits (Y : Codec) (p : Event → Prop) (hp : ∀ e,
      (∀ names r, e ≠ Event.podStop names r) → (∀ names r, e ≠ Event.podRm names r) → p e)
    (path : String) (options : PlayKubeOptions) :
    Play.Emits p (PlayKube B Y path options) := by
  have F := Play.appends_frame (σ := σ) p
  have hreset : Play.Rel (Play.Appends p) (Play.resetIndex : Play σ Unit) := by
    intro w
    exact ⟨[], by simp [Play.resetIndex], by simp⟩
  unfold PlayKube
  refine Play.Rel.bind F (Play.Rel.quiet F _) (fun _ => ?_)
  refine Play.Rel.bind F (Play.Rel.lift F _) (fun _ => ?_)
  refine Play.Rel.bind F (Play.Rel.mapErr F _ (Play.Rel.lift F _)) (fun _ => ?_)
  refine Play.Rel.bind F hreset (fun _ => ?_)
  refine Play.Rel.bind F ?_ (fun _ => ?_)
  · refine documentLoop_rel B Y F path options ?_ ?_ ?_ _ _ _
    · intro t; exact hp _ (fun _ _ h => by cases h) (fun _ _ h => by cases h)
    · intro o r; exact hp _ (fun _ _ h => by cases h) (fun _ _ h => by cases h)
    · intro name podYAML annotations
      exact playKubePod_emits B p hp name podYAML options annotations
  · split
    · exact Play.Rel.fail F _
    · exact Play.Rel.pure F _

/-- C15, amended: the validation errors other than an invalid pull-policy string abort
before any call is left in the record for the resource. A pod without a name, a Deployment
without a name, a claim with a blank name, a claim with a uid or gid annotation that is no
integer (the only failures of the loop over the claim's annotations), and a `--network`
override that is refused after the pod options were made, each end the resource's function
with an error and the record as it was. An invalid pull-policy string is found only when
the image of the container is resolved, inside the loop over the containers and so after
the pod was created: the container at hand is not created, as `createContainer` fails with
the error of the image step, which leaves no creation call. And `PlayKube` never issues a
stop or a remove call. -/
theorem validation_before_creation (options : PlayKubeOptions) :
    (∀ (podYAML : PodTemplateSpec) (annotations : List (String × String)) (w : World σ),
      (∃ e, (playKubePod B "" podYAML options annotations w).1 = .error e) ∧
        (playKubePod B "" podYAML options annotations w).2.trace = w.trace) ∧
    (∀ (d : Deployment) (w : World σ), d.name = "" →
      playKubeDeployment B d options w =
        (.error (.msg "Deployment does not have a name"), w)) ∧
    (∀ (pvc : PersistentVolumeClaim) (w : World σ), trimSpace pvc.name = "" →
      playKubePVC B pvc options w =
        (.error (.msg "persistent volume claim name can not be empty"), w)) ∧
    (∀ (pvc : PersistentVolumeClaim) (w : World σ) (e : Err), trimSpace pvc.name ≠ "" →
      pvcAnnotations B pvc.annotations
        [.withVolumeName pvc.name, .withVolumeLabels pvc.labels] [] = .error e →
      playKubePVC B pvc options w = (.error e, w)) ∧
    (∀ (podName : String) (podYAML : PodTemplateSpec) (annotations : List (String × String))
        (w : World σ) (s1 s2 : σ) (podOpt : PodCreateOptions) (e : Err),
      podName ≠ "" → B.secretsManager w.backend = (.ok (), s1) →
      B.toPodOpt s1 (checkNameCollision podYAML.containers podName []).1
        { name := ""
          infra := true
          infraImage := ""
          net := {
            staticIP := some []
            staticMAC := some []
            nsMode := .other ""
            cniNetworks := []
            networkOptions := [] }
          rest := "" } podYAML = (.ok podOpt, s2) →
      applyNetwork B options podOpt = .error e →
      playKubePod B podName podYAML options annotations w =
        (.error e, ⟨s2, w.ipIndex, w.trace⟩)) ∧
    (∀ (annotations : List (String × String)) (ctx : PodContext) (c : Container)
        (w wa : World σ) (e : Err),
      resolveImage B options ctx.writer ctx.cwd c w = (.error e, wa) →
      createContainer B options annotations ctx c w = (.error e, wa) ∧
        ∃ evs, wa.trace = w.trace ++ evs ∧ ∀ ev ∈ evs, ev.isCreation = false) ∧
    (∀ (Y : Codec) (path : String) (w : World σ),
      ∃ evs, (PlayKube B Y path options w).2.trace = w.trace ++ evs ∧
        podsStopped evs = [] ∧ podsRemoved evs = []) := by
  refine ⟨fun podYAML annotations w => playKubePod_empty_name B podYAML options annotations w,
    ?_, fun pvc w h => playKubePVC_blank B pvc options w h,
    fun pvc w e h ha => playKubePVC_invalid B pvc options w e h ha,
    fun podName podYAML annotations w s1 s2 podOpt e hname hsec hopt hnet =>
      playKubePod_network_error B podName podYAML options annotations w s1 s2 podOpt e hname
        hsec hopt hnet,
    fun annotations ctx c w wa e h =>
      createContainer_unresolved B options annotations ctx c w wa e h, ?_⟩
  · intro d w h
    unfold playKubeDeployment
    simp only [h, if_true]
    rfl
  · intro Y path w
    obtain ⟨evs, he, hp⟩ := PlayKube_emits B Y
      (fun e => (∀ names r, e ≠ Event.podStop names r) ∧ (∀ names r, e ≠ Event.podRm names r))
      (fun e h1 h2 => ⟨h1, h2⟩) path options w
    refine ⟨evs, he, ?_, ?_⟩
    · unfold podsStopped
      rw [List.filterMap_eq_nil_iff]
      intro e hmem
      have := (hp e hmem).1
      cases e <;> first | rfl | exact absurd rfl (this _ _)
    · unfold podsRemoved
      rw [List.filterMap_eq_nil_iff]
      intro e hmem
      have := (hp e hmem).2
      cases e <;> first | rfl | exact absurd rfl (this _ _)

end Validation

/-- C15 as stated fails for an invalid pull-policy string: on the example backend
`PlayKube` fails with the error of the pull-policy parser on the pod `db` whose container
asks for the policy `Sometimes`, after the pod `db` has been created. -/
theorem validation_before_creation_counterexample :
    (PlayKube sampleBackend policyCodec "Pod/db" sampleOptions sampleWorld).1 =
        .error (.msg "unsupported pull policy \"sometimes\"") ∧
      podsCreated (PlayKube sampleBackend policyCodec "Pod/db" sampleOptions
        sampleWorld).2.trace = ["db"] ∧
      ((PlayKube sampleBackend policyCodec "Pod/db" sampleOptions
        sampleWorld).2.trace.filter Event.isCreation).length = 1 := by
  refine ⟨by decide!, by decide!, by decide!⟩

/-- C15, amended, at the claim with a blank name: `playKubePVC` fails and the state is as
it was. -/
theorem validation_before_creation_witness :
    trimSpace blankClaim.name = "" ∧
      playKubePVC sampleBackend blankClaim sampleOptions sampleWorld =
        (.error (.msg "persistent volume claim name can not be empty"), sampleWorld) :=
  ⟨by decide,
    (validation_before_creation sampleBackend sampleOptions).2.2.1 blankClaim sampleWorld
      (by decide)⟩

/-! ### What is handed to `ToSpecGen` -/

section SpecGenOptions

variable {σ : Type} (B : Backend σ)

theorem Play.appends_mono {p q : Event → Prop} (h : ∀ e, p e → q e) {w w1 : World σ}
    (hw : Play.Appends p w w1) : Play.Appends q w w1 := by
  obtain ⟨evs, he, hp⟩ := hw
  exact ⟨evs, he, fun e hm => h e (hp e hm)⟩

/-- The options that `createContainer` hands to `ToSpecGen`: the restart policy of the
context, the labels of the container from the annotations, and the container itself. -/
theorem createContainer_toSpecGen (options : PlayKubeOptions)
    (annotations : List (String × String)) (ctx : PodContext) (c : Container) :
    Play.Emits (fun e => ∀ opts r, e = Event.toSpecGen opts r →
        opts.restartPolicy = ctx.restartPolicy ∧
        opts.labels = autoUpdateLabels B opts.container.name annotations [] ∧
        opts.container = c)
      (createContainer B options annotations ctx c) := by
  have F := Play.appends_frame (σ := σ) (fun e => ∀ opts r, e = Event.toSpecGen opts r →
    opts.restartPolicy = ctx.restartPolicy ∧
    opts.labels = autoUpdateLabels B opts.container.name annotations [] ∧
    opts.container = c)
  unfold createContainer
  refine Play.Rel.bind F ?_ (fun img => ?_)
  · refine resolveImage_rel B F ?_ options ctx.writer ctx.cwd c
    intro e he opts r heq
    rw [heq] at he
    exact he.elim
  · dsimp only
    refine Play.Rel.bind F ?_ (fun sg => ?_)
    · refine Play.Rel.invoke F _ _ ?_
      intro r e he opts r1 heq
      rw [List.mem_singleton] at he
      rw [he] at heq
      cases heq
      exact ⟨rfl, rfl, rfl⟩
    · refine Play.Rel.bind F (Play.Rel.quiet F _) (fun made => ?_)
      refine Play.Rel.invoke F _ _ ?_
      intro r e he opts r1 heq
      rw [List.mem_singleton] at he
      rw [he] at heq
      cases heq

theorem containerLoop_toSpecGen (options : PlayKubeOptions)
    (annotations : List (String × String)) (ctx : PodContext) (cs : List Container) :
    ∀ acc, Play.Emits (fun e => ∀ opts r, e = Event.toSpecGen opts r →
        opts.restartPolicy = ctx.restartPolicy ∧
        opts.labels = autoUpdateLabels B opts.container.name annotations [] ∧
        opts.container ∈ cs ∧ stringsContains "infra" opts.container.name = false)
      (containerLoop B options annotations ctx cs acc) := by
  induction cs with
  | nil => intro acc; exact Play.Rel.pure (Play.appends_frame _) _
  | cons c cs ih =>
    intro acc
    have hrest : ∀ acc1, Play.Emits (fun e => ∀ opts r, e = Event.toSpecGen opts r →
        opts.restartPolicy = ctx.restartPolicy ∧
        opts.labels = autoUpdateLabels B opts.container.name annotations [] ∧
        opts.container ∈ c :: cs ∧ stringsContains "infra" opts.container.name = false)
        (containerLoop B options annotations ctx cs acc1) := by
      intro acc1 w
      refine Play.appends_mono ?_ (ih acc1 w)
      intro e he opts r heq
      obtain ⟨h1, h2, h3, h4⟩ := he opts r heq
      exact ⟨h1, h2, List.mem_cons_of_mem _ h3, h4⟩
    unfold containerLoop
    split
    · rename_i hg
      refine Play.Rel.bind (Play.appends_frame _) ?_ (fun _ => hrest _)
      intro w
      refine Play.appends_mono ?_ (createContainer_toSpecGen B options annotations ctx c w)
      intro e he opts r heq
      obtain ⟨h1, h2, h3⟩ := he opts r heq
      refine ⟨h1, h2, by rw [h3]; exact List.mem_cons_self _ _, ?_⟩
      rw [h3]
      simpa using hg
    · exact hrest _

/-- The restart policy in the context of a pod that was set up is the mapped policy of the
template. -/
theorem podSetup_restartPolicy (podName : String) (podYAML : PodTemplateSpec)
    (options : PlayKubeOptions) (w w1 : World σ) (ctx : PodContext)
    (h : podSetup B podName podYAML options w = (.ok ctx, w1)) :
    ctx.restartPolicy = ctrRestartPolicy podYAML.restartPolicy := by
  unfold podSetup at h
  obtain ⟨a0, v0, -, h0⟩ := Play.bind_eq_ok h
  clear h
  split at h0
  · cases h0
  · dsimp only at h0
    obtain ⟨a1, v1, -, h1⟩ := Play.bind_eq_ok h0
    clear h0
    obtain ⟨a2, v2, -, h2⟩ := Play.bind_eq_ok h1
    clear h1
    obtain ⟨a3, v3, -, h3⟩ := Play.bind_eq_ok h2
    clear h2
    obtain ⟨a4, v4, -, h4⟩ := Play.bind_eq_ok h3
    clear h3
    obtain ⟨a5, v5, -, h5⟩ := Play.bind_eq_ok h4
    clear h4
    obtain ⟨a6, v6, -, h6⟩ := Play.bind_eq_ok h5
    clear h5
    obtain ⟨a7, v7, -, h7⟩ := Play.bind_eq_ok h6
    clear h6
    obtain ⟨a8, v8, -, h8⟩ := Play.bind_eq_ok h7
    clear h7
    obtain ⟨a9, v9, -, h9⟩ := Play.bind_eq_ok h8
    clear h8
    obtain ⟨a10, v10, -, h10⟩ := Play.bind_eq_ok h9
    clear h9
    obtain ⟨a11, v11, -, h11⟩ := Play.bind_eq_ok h10
    clear h10
    rw [Play.pure_apply] at h11
    cases h11
    rfl

/-- Every call of `ToSpecGen` that `playKubePod` issues is for a container of the template
that the guard lets through, with the mapped restart policy of the template and with the
labels of that container from the annotations. -/
theorem playKubePod_toSpecGen (podName : String) (podYAML : PodTemplateSpec)
    (options : PlayKubeOptions) (annotations : List (String × String)) :
    Play.Emits (fun e => ∀ opts r, e = Event.toSpecGen opts r →
        opts.restartPolicy = ctrRestartPolicy podYAML.restartPolicy ∧
        opts.labels = autoUpdateLabels B opts.container.name annotations [] ∧
        opts.container ∈ podYAML.containers ∧
        stringsContains "infra" opts.container.name = false)
      (playKubePod B podName podYAML options annotations) := by
  have F := Play.appends_frame (σ := σ) (fun e => ∀ opts r, e = Event.toSpecGen opts r →
    opts.restartPolicy = ctrRestartPolicy podYAML.restartPolicy ∧
    opts.labels = autoUpdateLabels B opts.container.name annotations [] ∧
    opts.container ∈ podYAML.containers ∧
    stringsContains "infra" opts.container.name = false)
  intro w
  have hsetup := podSetup_rel B F podName podYAML options
    (fun e he opts r heq => by rw [heq] at he; exact he.elim)
    (fun podOpt => assignStatic_emits _ _ _ _
      (fun e he opts r heq => by rw [heq] at he; exact he.elim)) w
  unfold playKubePod
  rcases hs : podSetup B podName podYAML options w with ⟨r, wa⟩
  rw [hs] at hsetup
  cases r with
  | error e => rw [Play.bind_error hs]; exact hsetup
  | ok ctx =>
    rw [Play.bind_ok hs]
    have hrp := podSetup_restartPolicy B podName podYAML options w wa ctx hs
    refine F.trans _ _ _ hsetup ?_
    refine Play.Rel.bind F ?_ (fun made => ?_) wa
    · intro w2
      have := containerLoop_toSpecGen B options annotations ctx podYAML.containers [] w2
      rw [hrp] at this
      exact this
    · exact startAndReport_rel B F ctx.pod
        (fun e he opts r heq => by rw [heq] at he; exact he.elim) options made ctx.logs

end SpecGenOptions

/-! ### Strings with a separator -/

theorem splitChars_sep (sep : Char) (l r : List Char) (h : sep ∉ l) :
    splitChars sep (l ++ sep :: r) = l :: splitChars sep r := by
  induction l with
  | nil => simp [splitChars]
  | cons x l ih =>
    have hx : x ≠ sep := fun e => h (by simp [e])
    have hl : sep ∉ l := fun e => h (List.mem_cons_of_mem _ e)
    simp [splitChars, hx, ih hl]

theorem scoped_toList (key c : String) :
    (key ++ "/" ++ c).toList = key.toList ++ '/' :: c.toList := by
  simp [String.toList, String.data_append]

theorem stringsSplit_scoped (key c : String) (h : '/' ∉ key.toList) :
    ∃ rest, stringsSplit (key ++ "/" ++ c) '/' = key :: rest := by
  refine ⟨(splitChars '/' c.toList).map String.mk, ?_⟩
  unfold stringsSplit
  rw [scoped_toList, splitChars_sep _ _ _ h]
  rfl

theorem scoped_ne_bare (key c x : String) (h : '/' ∉ x.toList) : key ++ "/" ++ c ≠ x := by
  intro e
  apply h
  rw [← e, scoped_toList]
  simp

theorem append_sep_inj (a : Char) : ∀ (l1 l2 r1 r2 : List Char), a ∉ l1 → a ∉ l2 →
    l1 ++ a :: r1 = l2 ++ a :: r2 → l1 = l2 ∧ r1 = r2 := by
  intro l1
  induction l1 with
  | nil =>
    intro l2 r1 r2 _ h2 e
    cases l2 with
    | nil => simpa using e
    | cons y t =>
      simp only [List.nil_append, List.cons_append, List.cons.injEq] at e
      exact absurd (by simp [e.1]) h2
  | cons x l1 ih =>
    intro l2 r1 r2 h1 h2 e
    cases l2 with
    | nil =>
      simp only [List.nil_append, List.cons_append, List.cons.injEq] at e
      exact absurd (by simp [e.1]) h1
    | cons y t =>
      simp only [List.cons_append, List.cons.injEq] at e
      obtain ⟨h3, h4⟩ := ih t r1 r2 (fun m => h1 (List.mem_cons_of_mem _ m))
        (fun m => h2 (List.mem_cons_of_mem _ m)) e.2
      exact ⟨by rw [e.1, h3], h4⟩

theorem scoped_inj (k1 k2 c1 c2 : String) (h1 : '/' ∉ k1.toList) (h2 : '/' ∉ k2.toList)
    (e : k1 ++ "/" ++ c1 = k2 ++ "/" ++ c2) : k1 = k2 ∧ c1 = c2 := by
  have h := congrArg String.toList e
  rw [scoped_toList, scoped_toList] at h
  obtain ⟨h3, h4⟩ := append_sep_inj '/' _ _ _ _ h1 h2 h
  exact ⟨String.ext h3, String.ext h4⟩

/-! ### Auto-update labels -/

section Labels

variable {σ : Type} (B : Backend σ)

theorem mem_mapSet (m : List (String × String)) (key val k v : String) :
    (k, v) ∈ mapSet m key val ↔ ((k, v) ∈ m ∧ k ≠ key) ∨ (k = key ∧ v = val) := by
  unfold mapSet
  simp only [List.mem_append, List.mem_filter, List.mem_singleton, Prod.mk.injEq, bne_iff_ne,
    ne_eq]

/-- The loop over the annotations sets, for each annotation in order, the label that its
key names for the container. -/
theorem autoUpdateLabels_eq (hL : '/' ∉ B.autoupdateLabel.toList)
    (hA : '/' ∉ B.autoupdateAuthfileLabel.toList) (c : String)
    (ann : List (String × String)) :
    ∀ labels, autoUpdateLabels B c ann labels = labelsAfter B c ann labels := by
  induction ann with
  | nil => intro labels; rfl
  | cons a rest ih =>
    intro labels
    obtain ⟨k, v⟩ := a
    unfold autoUpdateLabels labelsAfter
    rw [List.foldl_cons]
    by_cases h1 : k = B.autoupdateLabel ∨ k = B.autoupdateAuthfileLabel
    · rw [if_pos h1, ih]
      simp only [labelKey, if_pos h1]
      rfl
    · rw [if_neg h1]
      by_cases h2 : k = B.autoupdateLabel ++ "/" ++ c
      · obtain ⟨r, hr⟩ := stringsSplit_scoped B.autoupdateLabel c hL
        rw [if_pos (Or.inl h2), h2, hr]
        dsimp only
        rw [ih]
        rw [h2] at h1
        simp only [labelKey, if_neg h1, if_true]
        rfl
      · by_cases h3 : k = B.autoupdateAuthfileLabel ++ "/" ++ c
        · obtain ⟨r, hr⟩ := stringsSplit_scoped B.autoupdateAuthfileLabel c hA
          rw [if_pos (Or.inr h3), h3, hr]
          dsimp only
          rw [ih]
          rw [h3] at h1 h2
          simp only [labelKey, if_neg h1, if_neg h2, if_true]
          rfl
        · rw [if_neg (by rintro (h | h) <;> contradiction), ih]
          simp only [labelKey, if_neg h1, if_neg h2, if_neg h3]
          rfl

/-- The annotation keys that set the label `k` for the container `c`: `k` itself and `k`
scoped to `c`, when `k` is one of the two auto-update keys. -/
theorem labelKey_eq_some (hL : '/' ∉ B.autoupdateLabel.toList)
    (hA : '/' ∉ B.autoupdateAuthfileLabel.toList) (c k0 k : String) :
    labelKey B c k0 = some k ↔
      (k = B.autoupdateLabel ∨ k = B.autoupdateAuthfileLabel) ∧
        (k0 = k ∨ k0 = k ++ "/" ++ c) := by
  unfold labelKey
  by_cases h1 : k0 = B.autoupdateLabel ∨ k0 = B.autoupdateAuthfileLabel
  · rw [if_pos h1]
    constructor
    · intro h
      cases h
      exact ⟨h1, Or.inl rfl⟩
    · rintro ⟨h2, h3 | h3⟩
      · rw [h3]
      · exfalso
        rcases h1 with h1 | h1
        · exact scoped_ne_bare k c _ hL (h3.symm.trans h1)
        · exact scoped_ne_bare k c _ hA (h3.symm.trans h1)
  · rw [if_neg h1]
    by_cases h2 : k0 = B.autoupdateLabel ++ "/" ++ c
    · rw [if_pos h2]
      constructor
      · intro h
        cases h
        exact ⟨Or.inl rfl, Or.inr h2⟩
      · rintro ⟨h3, h4 | h4⟩
        · exfalso
          rw [h4] at h1
          exact h1 h3
        · rw [h2] at h4
          rw [(scoped_inj _ _ _ _ hL (by rcases h3 with h | h <;> rw [h] <;> assumption)
            h4).1]
    · rw [if_neg h2]
      by_cases h3 : k0 = B.autoupdateAuthfileLabel ++ "/" ++ c
      · rw [if_pos h3]
        constructor
        · intro h
          cases h
          exact ⟨Or.inr rfl, Or.inr h3⟩
        · rintro ⟨h4, h5 | h5⟩
          · exfalso
            rw [h5] at h1
            exact h1 h4
          · rw [h3] at h5
            rw [(scoped_inj _ _ _ _ hA (by rcases h4 with h | h <;> rw [h] <;> assumption)
              h5).1]
      · rw [if_neg h3]
        constructor
        · intro h; cases h
        · rintro ⟨h4, h5 | h5⟩
          · exfalso
            rw [h5] at h1
            exact h1 h4
          · exfalso
            rcases h4 with h4 | h4
            · rw [h4] at h5; exact h2 h5
            · rw [h4] at h5; exact h3 h5

/-- Every entry of the label map was there at the start or was set by an annotation. -/
theorem labelsAfter_mem (c : String) (ann : List (String × String)) :
    ∀ (labels : List (String × String)) (k v : String), (k, v) ∈ labelsAfter B c ann labels →
      (k, v) ∈ labels ∨ ∃ k0, (k0, v) ∈ ann ∧ labelKey B c k0 = some k := by
  induction ann with
  | nil => intro labels k v h; exact Or.inl h
  | cons a rest ih =>
    intro labels k v h
    obtain ⟨k1, v1⟩ := a
    unfold labelsAfter at h
    rw [List.foldl_cons] at h
    rcases ih _ k v h with h2 | ⟨k0, h2, h3⟩
    · cases hk : labelKey B c k1 with
      | none =>
        rw [hk] at h2
        exact Or.inl h2
      | some key =>
        rw [hk] at h2
        rcases (mem_mapSet _ _ _ _ _).mp h2 with h4 | ⟨h4, h5⟩
        · exact Or.inl h4.1
        · refine Or.inr ⟨k1, ?_, by rw [hk, h4]⟩
          rw [h5]
          exact List.mem_cons_self _ _
    · exact Or.inr ⟨k0, List.mem_cons_of_mem _ h2, h3⟩

/-- When every annotation that sets the label `k` carries the value `v`, and there is one
or the entry is there at the start, the label map holds `k` with `v`. -/
theorem labelsAfter_holds (c : String) (k v : String) (ann : List (String × String)) :
    ∀ labels : List (String × String),
      ((k, v) ∈ labels ∨ ∃ k0, (k0, v) ∈ ann ∧ labelKey B c k0 = some k) →
      (∀ k0 v0, (k0, v0) ∈ ann → labelKey B c k0 = some k → v0 = v) →
      (k, v) ∈ labelsAfter B c ann labels := by
  induction ann with
  | nil =>
    intro labels h _
    rcases h with h | ⟨k0, h, -⟩
    · exact h
    · cases h
  | cons a rest ih =>
    intro labels h hall
    obtain ⟨k1, v1⟩ := a
    unfold labelsAfter
    rw [List.foldl_cons]
    refine ih _ ?_ (fun k0 v0 hm hk => hall k0 v0 (List.mem_cons_of_mem _ hm) hk)
    cases hk : labelKey B c k1 with
    | none =>
      rcases h with h | ⟨k0, h, hk0⟩
      · exact Or.inl h
      · rcases List.mem_cons.mp h with h1 | h1
        · cases h1
          rw [hk] at hk0
          cases hk0
        · exact Or.inr ⟨k0, h1, hk0⟩
    | some key =>
      by_cases hkey : key = k
      · left
        have hv : v1 = v := hall k1 v1 (List.mem_cons_self _ _) (by rw [hk, hkey])
        exact (mem_mapSet _ _ _ _ _).mpr (Or.inr ⟨hkey.symm, hv.symm⟩)
      · rcases h with h | ⟨k0, h, hk0⟩
        · left
          exact (mem_mapSet _ _ _ _ _).mpr (Or.inl ⟨h, fun e => hkey e.symm⟩)
        · rcases List.mem_cons.mp h with h1 | h1
          · cases h1
            rw [hk] at hk0
            cases hk0
            exact absurd rfl hkey
          · exact Or.inr ⟨k0, h1, hk0⟩

/-- An annotation that sets no label for the container can be left out. -/
theorem labelsAfter_skip (c : String) (pre post : List (String × String)) (k v : String)
    (h : labelKey B c k = none) (labels : List (String × String)) :
    labelsAfter B c (pre ++ (k, v) :: post) labels = labelsAfter B c (pre ++ post) labels := by
  unfold labelsAfter
  rw [List.foldl_append, List.foldl_append, List.foldl_cons, h]

end Labels

/-! ### The containers handed to `ToSpecGen` -/

theorem specGenOptions_append (a b : List Event) :
    specGenOptions (a ++ b) = specGenOptions a ++ specGenOptions b := by
  simp [specGenOptions, List.filterMap_append]

theorem specGenOptions_eq_nil (evs : List Event)
    (h : ∀ e ∈ evs, ∀ opts r, e ≠ Event.toSpecGen opts r) : specGenOptions evs = [] := by
  unfold specGenOptions
  rw [List.filterMap_eq_nil_iff]
  intro e he
  cases e with
  | toSpecGen opts r => exact absurd rfl (h _ he opts r)
  | _ => rfl

theorem specGenOptions_mem (evs : List Event) (o : CtrSpecGenOptions)
    (h : o ∈ specGenOptions evs) : ∃ r, Event.toSpecGen o r ∈ evs := by
  unfold specGenOptions at h
  rw [List.mem_filterMap] at h
  obtain ⟨e, he, h⟩ := h
  cases e with
  | toSpecGen opts r =>
    simp only [Option.some.injEq] at h
    rw [← h]
    exact ⟨r, he⟩
  | _ => cases h

section SpecGenContainers

variable {σ : Type} (B : Backend σ)

theorem createContainer_specGen (options : PlayKubeOptions)
    (annotations : List (String × String)) (ctx : PodContext) (container : Container)
    (w w1 : World σ) (ctr : LibpodContainer)
    (h : createContainer B options annotations ctx container w = (.ok ctr, w1)) :
    ∃ evs, w1.trace = w.trace ++ evs ∧
      (specGenOptions evs).map (fun o => o.container) = [container] := by
  unfold createContainer at h
  obtain ⟨img, wa, ha, hA⟩ := Play.bind_eq_ok h
  clear h
  obtain ⟨sg, wb, hb, hB⟩ := Play.bind_eq_ok hA
  clear hA
  obtain ⟨made, wc, hc, hC⟩ := Play.bind_eq_ok hB
  clear hB
  obtain ⟨ea, hea, hpa⟩ : Play.Appends (fun e => Event.isImageStep e) w wa := by
    have := resolveImage_rel B (Play.appends_frame _) (fun e he => he) options ctx.writer
      ctx.cwd container w
    rw [ha] at this
    exact this
  have hwb := Play.invoke_trace hb
  have hwc := Play.invoke_trace hc
  have hw1 := Play.invoke_trace hC
  rw [hwc, hwb, hea, List.append_assoc, List.append_assoc, List.append_assoc] at hw1
  refine ⟨_, hw1, ?_⟩
  rw [specGenOptions_append, specGenOptions_eq_nil ea]
  · simp [specGenOptions]
  · intro e he opts r heq
    have := hpa e he
    rw [heq] at this
    exact this

theorem containerLoop_specGen (options : PlayKubeOptions)
    (annotations : List (String × String)) (ctx : PodContext) (cs : List Container) :
    ∀ (acc res : List LibpodContainer) (w w1 : World σ),
      containerLoop B options annotations ctx cs acc w = (.ok res, w1) →
      ∃ evs, w1.trace = w.trace ++ evs ∧
        (specGenOptions evs).map (fun o => o.container) =
          cs.filter (fun c => !stringsContains "infra" c.name) := by
  induction cs with
  | nil =>
    intro acc res w w1 h
    rw [containerLoop, Play.pure_apply] at h
    cases h
    exact ⟨[], by simp, rfl⟩
  | cons c cs ih =>
    intro acc res w w1 h
    unfold containerLoop at h
    by_cases hc : stringsContains "infra" c.name = true
    · simp only [hc, Bool.not_true, Bool.false_eq_true, if_false] at h
      obtain ⟨evs, h1, h2⟩ := ih acc res w w1 h
      exact ⟨evs, h1, by simpa [List.filter_cons, hc] using h2⟩
    · have hc : stringsContains "infra" c.name = false := by simpa using hc
      simp only [hc, Bool.not_false, if_true] at h
      obtain ⟨ctr, wa, ha, hA⟩ := Play.bind_eq_ok h
      clear h
      obtain ⟨ea, hea, hca⟩ := createContainer_specGen B options annotations ctx c w wa ctr ha
      obtain ⟨evs, h1, h2⟩ := ih (acc ++ [ctr]) res wa w1 hA
      refine ⟨ea ++ evs, by rw [h1, hea, List.append_assoc], ?_⟩
      rw [specGenOptions_append, List.map_append, hca, h2]
      simp [List.filter_cons, hc]

/-- A successful `playKubePod` has called `ToSpecGen` once for each container of the
template that the guard lets through, in the order of the template, each time with the
mapped restart policy of the template and with the labels of that container from the
annotations. -/
theorem playKubePod_specGen (podName : String) (podYAML : PodTemplateSpec)
    (options : PlayKubeOptions) (annotations : List (String × String)) (w w1 : World σ)
    (report : PlayKubeReport)
    (h : playKubePod B podName podYAML options annotations w = (.ok report, w1)) :
    ∃ evs, w1.trace = w.trace ++ evs ∧
      (specGenOptions evs).map (fun o => o.container) =
        podYAML.containers.filter (fun c => !stringsContains "infra" c.name) ∧
      ∀ o ∈ specGenOptions evs,
        o.restartPolicy = ctrRestartPolicy podYAML.restartPolicy ∧
        o.labels = autoUpdateLabels B o.container.name annotations [] := by
  obtain ⟨evs, hevs, hall⟩ := playKubePod_toSpecGen B podName podYAML options annotations w
  rw [h] at hevs
  have hrun := h
  unfold playKubePod at h
  obtain ⟨ctx, wa, ha, hA⟩ := Play.bind_eq_ok h
  clear h
  obtain ⟨made, wb, hb, hB⟩ := Play.bind_eq_ok hA
  clear hA
  obtain ⟨e1, he1, hp1⟩ : Play.Appends (fun e => ∀ opts r, e ≠ Event.toSpecGen opts r) w wa := by
    have := podSetup_rel B
      (Play.appends_frame (fun e => ∀ opts r, e ≠ Event.toSpecGen opts r)) podName podYAML
      options (fun e he opts r heq => by rw [heq] at he; exact he.elim)
      (fun podOpt => assignStatic_emits (fun e => ∀ opts r, e ≠ Event.toSpecGen opts r) _ _ _
        (fun e he opts r heq => by rw [heq] at he; exact he.elim)) w
    rw [ha] at this
    exact this
  obtain ⟨e2, he2, hc2⟩ := containerLoop_specGen B options annotations ctx podYAML.containers
    [] made wa wb hb
  obtain ⟨e3, he3, hp3⟩ : Play.Appends (fun e => ∀ opts r, e ≠ Event.toSpecGen opts r) wb w1 := by
    have := startAndReport_rel B
      (Play.appends_frame (fun e => ∀ opts r, e ≠ Event.toSpecGen opts r)) ctx.pod
      (fun e he opts r heq => by rw [heq] at he; exact he.elim) options made ctx.logs wb
    rw [hB] at this
    exact this
  have hevs2 : evs = e1 ++ (e2 ++ e3) := by
    have : w.trace ++ evs = w.trace ++ (e1 ++ (e2 ++ e3)) := by
      rw [← hevs, he3, he2, he1]
      simp
    exact List.append_cancel_left this
  refine ⟨evs, hevs, ?_, ?_⟩
  · rw [hevs2, specGenOptions_append, specGenOptions_append, specGenOptions_eq_nil e1 hp1,
      specGenOptions_eq_nil e3 hp3]
    simpa using hc2
  · intro o ho
    obtain ⟨r, hr⟩ := specGenOptions_mem evs o ho
    obtain ⟨h1, h2, -, -⟩ := hall _ hr o r rfl
    exact ⟨h1, h2⟩

/-- C18: the restart policy of the containers is `always` for the pod policy `Always`,
`on-failure` for `OnFailure`, `no` for `Never`, and `always` for every other value, the
empty (unset) one included; every `ToSpecGen` call that `playKubePod` issues carries the
mapped policy of the template, and a successful `playKubePod` has issued one such call for
each container that the loop's guard lets through, in order. -/
theorem ctrRestartPolicy_spec (podName : String) (podYAML : PodTemplateSpec)
    (options : PlayKubeOptions) (annotations : List (String × String)) :
    ctrRestartPolicy "Always" = "always" ∧ ctrRestartPolicy "OnFailure" = "on-failure" ∧
    ctrRestartPolicy "Never" = "no" ∧ ctrRestartPolicy "" = "always" ∧
    (∀ v, v ≠ "Always" → v ≠ "OnFailure" → v ≠ "Never" → ctrRestartPolicy v = "always") ∧
    (∀ w : World σ, ∃ evs,
      (playKubePod B podName podYAML options annotations w).2.trace = w.trace ++ evs ∧
      ∀ opts r, Event.toSpecGen opts r ∈ evs →
        opts.restartPolicy = ctrRestartPolicy podYAML.restartPolicy) ∧
    (∀ (w w1 : World σ) (report : PlayKubeReport),
      playKubePod B podName podYAML options annotations w = (.ok report, w1) →
      ∃ evs, w1.trace = w.trace ++ evs ∧
        (specGenOptions evs).map (fun o => (o.container, o.restartPolicy)) =
          (podYAML.containers.filter (fun c => !stringsContains "infra" c.name)).map
            (fun c => (c, ctrRestartPolicy podYAML.restartPolicy))) := by
  refine ⟨by decide, by decide, by decide, by decide, ?_, ?_, ?_⟩
  · intro v h1 h2 h3
    simp [ctrRestartPolicy, h1, h2, h3]
  · intro w
    obtain ⟨evs, hevs, hall⟩ := playKubePod_toSpecGen B podName podYAML options annotations w
    exact ⟨evs, hevs, fun opts r hm => (hall _ hm opts r rfl).1⟩
  · intro w w1 report h
    obtain ⟨evs, hevs, hc, hall⟩ := playKubePod_specGen B podName podYAML options annotations
      w w1 report h
    refine ⟨evs, hevs, ?_⟩
    rw [← hc, List.map_map]
    apply List.map_congr_left
    intro o ho
    simp [(hall o ho).1]

end SpecGenContainers

/-- C18 on the example backend, at a template with the restart policy `OnFailure` and two
containers: both are handed to `ToSpecGen` with the policy `on-failure`. -/
theorem ctrRestartPolicy_spec_witness :
    (specGenOptions (playKubePod sampleBackend "web" retryTemplate sampleOptions []
        sampleWorld).2.trace).map (fun o => (o.container.name, o.restartPolicy)) =
      [("main", "on-failure"), ("side", "on-failure")] ∧
    ∀ v, v ≠ "Always" → v ≠ "OnFailure" → v ≠ "Never" → ctrRestartPolicy v = "always" :=
  ⟨by decide!,
    (ctrRestartPolicy_spec sampleBackend "web" retryTemplate sampleOptions []).2.2.2.2.1⟩

/-! ### The labels handed to a container -/

section AutoUpdate

variable {σ : Type} (B : Backend σ)

/-- C19, the two auto-update keys being free of `/` (they are declared outside these
sources): a successful `playKubePod` hands to each container that the loop's guard lets
through the labels that the loop over the annotations computes for its name; every entry
of these labels has one of the two bare auto-update keys and carries the value of an
annotation with that bare key or with that key scoped to the container; when all the
annotations with a bare key or with that key scoped to the container carry one value, the
label is there with that value; an annotation whose key is neither a bare auto-update key
nor one scoped to the container changes nothing, and so does a key scoped to a container
of another name; and of the annotations with a bare key or with that key scoped to the
container, the one that the loop visits last gives the label its value. -/
theorem autoUpdateLabels_spec (annotations : List (String × String))
    (hL : '/' ∉ B.autoupdateLabel.toList) (hA : '/' ∉ B.autoupdateAuthfileLabel.toList) :
    (∀ (podName : String) (podYAML : PodTemplateSpec) (options : PlayKubeOptions)
        (w w1 : World σ) (report : PlayKubeReport),
      playKubePod B podName podYAML options annotations w = (.ok report, w1) →
      ∃ evs, w1.trace = w.trace ++ evs ∧
        (specGenOptions evs).map (fun o => (o.container, o.labels)) =
          (podYAML.containers.filter (fun c => !stringsContains "infra" c.name)).map
            (fun c => (c, autoUpdateLabels B c.name annotations []))) ∧
    (∀ c : String,
      (∀ k v, (k, v) ∈ autoUpdateLabels B c annotations [] →
        (k = B.autoupdateLabel ∨ k = B.autoupdateAuthfileLabel) ∧
          ((k, v) ∈ annotations ∨ (k ++ "/" ++ c, v) ∈ annotations)) ∧
      (∀ k v, (k = B.autoupdateLabel ∨ k = B.autoupdateAuthfileLabel) →
        ((k, v) ∈ annotations ∨ (k ++ "/" ++ c, v) ∈ annotations) →
        (∀ v0, (k, v0) ∈ annotations ∨ (k ++ "/" ++ c, v0) ∈ annotations → v0 = v) →
        (k, v) ∈ autoUpdateLabels B c annotations [])) ∧
    (∀ (c : String) (pre post : List (String × String)) (k v : String),
      k ≠ B.autoupdateLabel → k ≠ B.autoupdateAuthfileLabel →
      k ≠ B.autoupdateLabel ++ "/" ++ c → k ≠ B.autoupdateAuthfileLabel ++ "/" ++ c →
      autoUpdateLabels B c (pre ++ (k, v) :: post) [] =
        autoUpdateLabels B c (pre ++ post) []) ∧
    (∀ (c name : String) (pre post : List (String × String)) (key v : String),
      name ≠ c → (key = B.autoupdateLabel ∨ key = B.autoupdateAuthfileLabel) →
      autoUpdateLabels B c (pre ++ (key ++ "/" ++ name, v) :: post) [] =
        autoUpdateLabels B c (pre ++ post) []) ∧
    (∀ (c : String) (pre post : List (String × String)) (k0 k v : String),
      annotations = pre ++ (k0, v) :: post →
      (k = B.autoupdateLabel ∨ k = B.autoupdateAuthfileLabel) →
      (k0 = k ∨ k0 = k ++ "/" ++ c) →
      (∀ v0, (k, v0) ∉ post ∧ (k ++ "/" ++ c, v0) ∉ post) →
      (k, v) ∈ autoUpdateLabels B c annotations []) := by
  have hskip : ∀ (c : String) (pre post : List (String × String)) (k v : String),
      k ≠ B.autoupdateLabel → k ≠ B.autoupdateAuthfileLabel →
      k ≠ B.autoupdateLabel ++ "/" ++ c → k ≠ B.autoupdateAuthfileLabel ++ "/" ++ c →
      autoUpdateLabels B c (pre ++ (k, v) :: post) [] =
        autoUpdateLabels B c (pre ++ post) [] := by
    intro c pre post k v h1 h2 h3 h4
    have hnone : labelKey B c k = none := by
      unfold labelKey
      rw [if_neg (by rintro (h | h) <;> contradiction), if_neg h3, if_neg h4]
    rw [autoUpdateLabels_eq B hL hA, autoUpdateLabels_eq B hL hA,
      labelsAfter_skip B c pre post k v hnone]
  refine ⟨?_, ?_, hskip, ?_, ?_⟩
  · intro podName podYAML options w w1 report h
    obtain ⟨evs, hevs, hc, hall⟩ := playKubePod_specGen B podName podYAML options annotations
      w w1 report h
    refine ⟨evs, hevs, ?_⟩
    rw [← hc, List.map_map]
    apply List.map_congr_left
    intro o ho
    simp [(hall o ho).2]
  · intro c
    constructor
    · intro k v h
      rw [autoUpdateLabels_eq B hL hA] at h
      rcases labelsAfter_mem B c annotations [] k v h with h1 | ⟨k0, h1, h2⟩
      · cases h1
      · obtain ⟨h3, h4⟩ := (labelKey_eq_some B hL hA c k0 k).mp h2
        refine ⟨h3, ?_⟩
        rcases h4 with h4 | h4
        · left; rw [← h4]; exact h1
        · right; rw [← h4]; exact h1
    · intro k v hk hm hall
      rw [autoUpdateLabels_eq B hL hA]
      refine labelsAfter_holds B c k v annotations [] (Or.inr ?_) ?_
      · rcases hm with hm | hm
        · exact ⟨k, hm, (labelKey_eq_some B hL hA c k k).mpr ⟨hk, Or.inl rfl⟩⟩
        · exact ⟨_, hm, (labelKey_eq_some B hL hA c _ k).mpr ⟨hk, Or.inr rfl⟩⟩
      · intro k0 v0 h1 h2
        obtain ⟨-, h4⟩ := (labelKey_eq_some B hL hA c k0 k).mp h2
        rcases h4 with h4 | h4
        · exact hall v0 (Or.inl (by rw [← h4]; exact h1))
        · exact hall v0 (Or.inr (by rw [← h4]; exact h1))
  · intro c name pre post key v hname hkey
    have hslash : '/' ∉ key.toList := by
      rcases hkey with h | h <;> rw [h] <;> assumption
    refine hskip c pre post _ v (scoped_ne_bare key name _ hL) (scoped_ne_bare key name _ hA)
      ?_ ?_
    · intro e
      exact hname (scoped_inj _ _ _ _ hslash hL e).2
    · intro e
      exact hname (scoped_inj _ _ _ _ hslash hA e).2
  · intro c pre post k0 k v hann hk h0 hpost
    have hk0 : labelKey B c k0 = some k := (labelKey_eq_some B hL hA c k0 k).mpr ⟨hk, h0⟩
    rw [autoUpdateLabels_eq B hL hA, hann]
    unfold labelsAfter
    rw [List.foldl_append, List.foldl_cons, hk0]
    refine labelsAfter_holds B c k v post _
      (Or.inl ((mem_mapSet _ _ _ _ _).mpr (Or.inr ⟨rfl, rfl⟩))) ?_
    intro k1 v1 hm hk1
    obtain ⟨-, h4⟩ := (labelKey_eq_some B hL hA c k1 k).mp hk1
    rcases h4 with h4 | h4
    · rw [h4] at hm; exact absurd hm (hpost v1).1
    · rw [h4] at hm; exact absurd hm (hpost v1).2

end AutoUpdate

/-- C19 on the example backend, with the bare auto-update key, the authfile key scoped to
`main`, the auto-update key scoped to `side` and a foreign key: the container `main` gets
the bare value and its authfile, the container `side` gets the value scoped to it. -/
theorem autoUpdateLabels_spec_witness :
    '/' ∉ sampleBackend.autoupdateLabel.toList ∧
    '/' ∉ sampleBackend.autoupdateAuthfileLabel.toList ∧
    autoUpdateLabels sampleBackend "main" sampleAnnotations [] =
      [("io.containers.autoupdate", "registry"),
        ("io.containers.autoupdate.authfile", "/auth.json")] ∧
    autoUpdateLabels sampleBackend "side" sampleAnnotations [] =
      [("io.containers.autoupdate", "local")] ∧
    (specGenOptions (playKubePod sampleBackend "web" retryTemplate sampleOptions
        sampleAnnotations sampleWorld).2.trace).map (fun o => (o.container.name, o.labels)) =
      [("main", [("io.containers.autoupdate", "registry"),
          ("io.containers.autoupdate.authfile", "/auth.json")]),
        ("side", [("io.containers.autoupdate", "local")])] ∧
    ∀ k v, (k, v) ∈ autoUpdateLabels sampleBackend "main" sampleAnnotations [] →
      (k = sampleBackend.autoupdateLabel ∨ k = sampleBackend.autoupdateAuthfileLabel) ∧
        ((k, v) ∈ sampleAnnotations ∨ (k ++ "/" ++ "main", v) ∈ sampleAnnotations) :=
  ⟨by decide, by decide, by decide, by decide, by decide!,
    ((autoUpdateLabels_spec sampleBackend sampleAnnotations (by decide) (by decide)).2.1
      "main").1⟩

/-! ### The order of the annotations -/

theorem nodup_keys_value (ann : List (String × String)) (h : (ann.map Prod.fst).Nodup)
    (k v1 v2 : String) (h1 : (k, v1) ∈ ann) (h2 : (k, v2) ∈ ann) : v1 = v2 := by
  induction ann with
  | nil => cases h1
  | cons a rest ih =>
    rw [List.map_cons, List.nodup_cons] at h
    obtain ⟨hn, hr⟩ := h
    rcases List.mem_cons.mp h1 with e1 | m1
    · rcases List.mem_cons.mp h2 with e2 | m2
      · rw [← e1] at e2
        exact ((Prod.mk.inj e2).2).symm
      · exfalso
        apply hn
        rw [← e1]
        exact List.mem_map.mpr ⟨(k, v2), m2, rfl⟩
    · rcases List.mem_cons.mp h2 with e2 | m2
      · exfalso
        apply hn
        rw [← e2]
        exact List.mem_map.mpr ⟨(k, v1), m1, rfl⟩
      · exact ih hr m1 m2

section LabelOrder

variable {σ : Type} (B : Backend σ)

/-- When the keys of the annotations are distinct and no auto-update key is present both
bare and scoped to the container, the labels of the container are exactly the values of
the annotations with a bare auto-update key or with one scoped to the container. -/
theorem autoUpdateLabels_entries (hL : '/' ∉ B.autoupdateLabel.toList)
    (hA : '/' ∉ B.autoupdateAuthfileLabel.toList) (c : String)
    (ann : List (String × String)) (hkeys : (ann.map Prod.fst).Nodup)
    (hno : ∀ k v1 v2, (k, v1) ∈ ann → (k ++ "/" ++ c, v2) ∈ ann →
      k ≠ B.autoupdateLabel ∧ k ≠ B.autoupdateAuthfileLabel) (k v : String) :
    (k, v) ∈ autoUpdateLabels B c ann [] ↔
      (k = B.autoupdateLabel ∨ k = B.autoupdateAuthfileLabel) ∧
        ((k, v) ∈ ann ∨ (k ++ "/" ++ c, v) ∈ ann) := by
  rw [autoUpdateLabels_eq B hL hA]
  constructor
  · intro h
    rcases labelsAfter_mem B c ann [] k v h with h1 | ⟨k0, h1, h2⟩
    · cases h1
    · obtain ⟨h3, h4⟩ := (labelKey_eq_some B hL hA c k0 k).mp h2
      refine ⟨h3, ?_⟩
      rcases h4 with h4 | h4
      · left; rw [← h4]; exact h1
      · right; rw [← h4]; exact h1
  · rintro ⟨hk, hm⟩
    have hbare : ¬ (k ≠ B.autoupdateLabel ∧ k ≠ B.autoupdateAuthfileLabel) := by
      rintro ⟨h1, h2⟩
      rcases hk with h | h
      · exact h1 h
      · exact h2 h
    refine labelsAfter_holds B c k v ann [] (Or.inr ?_) ?_
    · rcases hm with hm | hm
      · exact ⟨k, hm, (labelKey_eq_some B hL hA c k k).mpr ⟨hk, Or.inl rfl⟩⟩
      · exact ⟨_, hm, (labelKey_eq_some B hL hA c _ k).mpr ⟨hk, Or.inr rfl⟩⟩
    · intro k0 v0 h1 h2
      obtain ⟨-, h4⟩ := (labelKey_eq_some B hL hA c k0 k).mp h2
      rcases h4 with h4 | h4
      · rw [h4] at h1
        rcases hm with hm | hm
        · exact nodup_keys_value ann hkeys k v0 v h1 hm
        · exact absurd (hno k v0 v h1 hm) hbare
      · rw [h4] at h1
        rcases hm with hm | hm
        · exact absurd (hno k v v0 hm h1) hbare
        · exact nodup_keys_value ann hkeys _ v0 v h1 hm

/-- Two orders of one annotation map with distinct keys give a container the same labels
when no auto-update key is present both bare and scoped to that container. -/
theorem autoUpdateLabels_perm (hL : '/' ∉ B.autoupdateLabel.toList)
    (hA : '/' ∉ B.autoupdateAuthfileLabel.toList) (c : String)
    (ann1 ann2 : List (String × String)) (hperm : ann1.Perm ann2)
    (hkeys : (ann1.map Prod.fst).Nodup)
    (hno : ∀ k v1 v2, (k, v1) ∈ ann1 → (k ++ "/" ++ c, v2) ∈ ann1 →
      k ≠ B.autoupdateLabel ∧ k ≠ B.autoupdateAuthfileLabel) (k v : String) :
    (k, v) ∈ autoUpdateLabels B c ann1 [] ↔ (k, v) ∈ autoUpdateLabels B c ann2 [] := by
  have hkeys2 : (ann2.map Prod.fst).Nodup := (hperm.map Prod.fst).nodup_iff.mp hkeys
  have hno2 : ∀ k v1 v2, (k, v1) ∈ ann2 → (k ++ "/" ++ c, v2) ∈ ann2 →
      k ≠ B.autoupdateLabel ∧ k ≠ B.autoupdateAuthfileLabel :=
    fun k v1 v2 h1 h2 => hno k v1 v2 (hperm.mem_iff.mpr h1) (hperm.mem_iff.mpr h2)
  rw [autoUpdateLabels_entries B hL hA c ann1 hkeys hno k v,
    autoUpdateLabels_entries B hL hA c ann2 hkeys2 hno2 k v, hperm.mem_iff, hperm.mem_iff]

end LabelOrder

/-- C21 does not hold of the code: the annotation map with the bare auto-update key at
`registry` and the same key scoped to the container `side` at `local` has distinct keys,
and its two iteration orders give the container `side` different labels, `local` when the
bare key is visited first and `registry` when the scoped key is visited first, which are
the labels that `playKubePod` hands to `ToSpecGen` for that container; the container
`main` gets `registry` in both orders. The order is immaterial, for any two orders of a map
with distinct keys, when no auto-update key is present both bare and scoped to the
container (the two auto-update keys being free of `/`). -/
theorem autoUpdateLabels_order_dependent :
    clashAnnotations.reverse.Perm clashAnnotations ∧
    (clashAnnotations.map Prod.fst).Nodup ∧
    autoUpdateLabels sampleBackend "side" clashAnnotations [] =
      [("io.containers.autoupdate", "local")] ∧
    autoUpdateLabels sampleBackend "side" clashAnnotations.reverse [] =
      [("io.containers.autoupdate", "registry")] ∧
    (specGenOptions (playKubePod sampleBackend "web" retryTemplate sampleOptions
        clashAnnotations sampleWorld).2.trace).map (fun o => (o.container.name, o.labels)) =
      [("main", [("io.containers.autoupdate", "registry")]),
        ("side", [("io.containers.autoupdate", "local")])] ∧
    (specGenOptions (playKubePod sampleBackend "web" retryTemplate sampleOptions
        clashAnnotations.reverse sampleWorld).2.trace).map
        (fun o => (o.container.name, o.labels)) =
      [("main", [("io.containers.autoupdate", "registry")]),
        ("side", [("io.containers.autoupdate", "registry")])] ∧
    (∀ (σ : Type) (B : Backend σ) (c : String) (ann1 ann2 : List (String × String)),
      '/' ∉ B.autoupdateLabel.toList → '/' ∉ B.autoupdateAuthfileLabel.toList →
      ann1.Perm ann2 → (ann1.map Prod.fst).Nodup →
      (∀ k v1 v2, (k, v1) ∈ ann1 → (k ++ "/" ++ c, v2) ∈ ann1 →
        k ≠ B.autoupdateLabel ∧ k ≠ B.autoupdateAuthfileLabel) →
      ∀ k v, (k, v) ∈ autoUpdateLabels B c ann1 [] ↔ (k, v) ∈ autoUpdateLabels B c ann2 []) :=
  ⟨List.reverse_perm _, by decide, by decide, by decide, by decide!, by decide!,
    fun _ B c ann1 ann2 hL hA hperm hkeys hno k v =>
      autoUpdateLabels_perm B hL hA c ann1 ann2 hperm hkeys hno k v⟩

/-! ### The guard of the loop over the containers -/

/-- C5 does not hold of the code: the guard of line 313 asks whether the name of the
container occurs inside the word `infra`, not whether the name contains `infra`, so it
skips the containers named `a`, `in`, `infra` and the container without a name, and lets
`my-infra` and `infrastructure` through. On the template with the containers `a` and
`main`, `playKubePod` succeeds, creates only `main`, and the report entry holds one
container id for the two containers of the template; on the template with the containers
`main` and `my-infra` it creates both. -/
theorem playKubePod_guard_reversed :
    stringsContains "infra" "a" = true ∧ stringsContains "infra" "in" = true ∧
    stringsContains "infra" "" = true ∧ stringsContains "infra" "infra" = true ∧
    stringsContains "infra" "my-infra" = false ∧
    stringsContains "infra" "infrastructure" = false ∧
    (sampleTemplate ["a", "main"]).containers.length = 2 ∧
    (playKubePod sampleBackend "web" (sampleTemplate ["a", "main"]) sampleOptions []
        sampleWorld).1 = .ok ⟨[⟨"pod0", ["ctr1"], [], []⟩], [], [], []⟩ ∧
    containersCreated (playKubePod sampleBackend "web" (sampleTemplate ["a", "main"])
      sampleOptions [] sampleWorld).2.trace = [("main", "ctr1")] ∧
    containersCreated (playKubePod sampleBackend "web" (sampleTemplate ["main", "my-infra"])
      sampleOptions [] sampleWorld).2.trace = [("main", "ctr1"), ("my-infra", "ctr2")] := by
  refine ⟨by decide, by decide, by decide, by decide, by decide, by decide, by decide,
    by decide!, by decide!, by decide!⟩

end Podman
